import Mathlib

/-!
Shallow embedding of the domino-party-game state reducer
(`packages/shared/index.ts`) and verification of its specification.

JavaScript `Record<string, T>` objects are modelled as association lists
(`JsMap`) that preserve insertion order: assigning to an existing key keeps
its position, assigning a fresh key appends, and `delete` removes the entry.
A JavaScript `undefined` that ends up used as a property key or as a player
id is modelled by the string "undefined" (JS stringifies property keys).
-/

namespace DominoGame

/-- Insertion-ordered string-keyed map, modelling a JS object. -/
abbrev JsMap (α : Type) := List (String × α)

namespace JsMap

/-- Property read `m[k]`: first (unique) entry with key `k`. -/
def lookup {α : Type} (m : JsMap α) (k : String) : Option α :=
  (m.find? (fun p => p.1 = k)).map (fun p => p.2)

/-- The JS `k in m` test. -/
def hasKey {α : Type} (m : JsMap α) (k : String) : Bool :=
  (m.lookup k).isSome

/-- Property write `m[k] = v`: update in place if present, else append. -/
def insert {α : Type} (m : JsMap α) (k : String) (v : α) : JsMap α :=
  if m.hasKey k then m.map (fun p => if p.1 = k then (k, v) else p)
  else m ++ [(k, v)]

/-- The JS `delete m[k]`. -/
def erase {α : Type} (m : JsMap α) (k : String) : JsMap α :=
  m.filter (fun p => ¬ p.1 = k)

/-- `Object.keys(m)`. -/
def keys {α : Type} (m : JsMap α) : List String :=
  m.map (fun p => p.1)

/-- `Object.values(m)`. -/
def values {α : Type} (m : JsMap α) : List α :=
  m.map (fun p => p.2)

end JsMap

-- ─── Tile, bot, result and state types (from src/packages/shared/index.ts) ──

structure DominoTile where
  id : String
  left : Nat
  right : Nat
deriving DecidableEq

structure BoardTile where
  tile : DominoTile
  flipped : Bool
deriving DecidableEq

inductive Team
  | a
  | b
deriving DecidableEq

def Team.other : Team → Team
  | .a => .b
  | .b => .a

structure Bot where
  id : String
  name : String
  team : Team
  seat : Int
deriving DecidableEq

inductive Reason
  | domino
  | tranque
deriving DecidableEq

structure RoundResult where
  winner : Team
  reason : Reason
  pointsAwarded : Nat
  pipA : Nat
  pipB : Nat
  winnerId : Option String
deriving DecidableEq

inductive Phase
  | lobby
  | playing
  | round_end
  | game_over
deriving DecidableEq

/-- The outer couch-kit `status` field ("lobby" | "playing" | "ended"). -/
inductive Status
  | lobby
  | playing
  | ended
deriving DecidableEq

/-- The couch-kit `IPlayer` record. -/
structure Player where
  id : String
  name : String
  avatar : Option String
  isHost : Bool
  connected : Bool
deriving DecidableEq

structure BoardEnds where
  left : Nat
  right : Nat
deriving DecidableEq

structure GameState where
  status : Status
  players : JsMap Player
  phase : Phase
  teamsA : List String
  teamsB : List String
  seats : JsMap Nat
  bots : JsMap Bot
  hands : JsMap (List DominoTile)
  board : List BoardTile
  boardEnds : Option BoardEnds
  centerIndex : Nat
  currentTurn : Option String
  turnOrder : List String
  consecutivePasses : Nat
  roundStarter : Option String
  roundNumber : Nat
  scoresA : Nat
  scoresB : Nat
  lastRoundResult : Option RoundResult
  targetScore : Nat
  sessions : JsMap String
deriving DecidableEq

def GameState.teamList (s : GameState) : Team → List String
  | .a => s.teamsA
  | .b => s.teamsB

inductive Side
  | left
  | right
deriving DecidableEq

structure JoinPayload where
  id : String
  name : Option String
  avatar : Option String
  secret : Option String
deriving DecidableEq

inductive GameAction
  | playerJoined (payload : JoinPayload)
  | playerLeft (playerId : String)
  | chooseTeam (team : Team) (playerId : Option String)
  | startGame (shuffledTiles : List DominoTile) (playerId : Option String)
  | playTile (tileId : String) (side : Side) (playerId : Option String)
  | pass (playerId : Option String)
  | newRound (shuffledTiles : List DominoTile)
  | resetGame
deriving DecidableEq

-- ─── Constants ──────────────────────────────────────────────────────────────

def TARGET_SCORE : Nat := 200
def PLAYERS_PER_TEAM : Nat := 2
def TOTAL_PLAYERS : Nat := 4
def TILES_PER_HAND : Nat := 7

-- ─── Helpers ────────────────────────────────────────────────────────────────

def tileIdStr (l r : Nat) : String :=
  toString l ++ "-" ++ toString r

/-- `generateAllTiles`: the canonical 28-tile double-six set. -/
def generateAllTiles : List DominoTile :=
  (List.range 7).flatMap (fun l =>
    (List.range' l (7 - l)).map (fun r => ⟨tileIdStr l r, l, r⟩))

/-- `calculatePipCount`. -/
def calculatePipCount (hand : List DominoTile) : Nat :=
  hand.foldl (fun sum t => sum + t.left + t.right) 0

/-- Result of `canPlayTile`: which ends the tile may attach to. -/
structure Playability where
  left : Bool
  right : Bool
deriving DecidableEq

def Playability.atSide (p : Playability) : Side → Bool
  | .left => p.left
  | .right => p.right

/-- `canPlayTile`. -/
def canPlayTile (tile : DominoTile) (boardEnds : Option BoardEnds) : Playability :=
  match boardEnds with
  | none => ⟨true, true⟩
  | some ends =>
      ⟨decide (tile.left = ends.left) || decide (tile.right = ends.left),
       decide (tile.left = ends.right) || decide (tile.right = ends.right)⟩

/-- `getPlayableTiles`. -/
def getPlayableTiles (hand : List DominoTile) (boardEnds : Option BoardEnds) :
    List DominoTile :=
  hand.filter (fun tile =>
    let p := canPlayTile tile boardEnds
    p.left || p.right)

/-- `getTeam`. -/
def getTeam (s : GameState) (id : String) : Option Team :=
  if id ∈ s.teamsA then some .a
  else if id ∈ s.teamsB then some .b
  else none

/-- `isBot`. -/
def isBot (s : GameState) (id : String) : Bool :=
  s.bots.hasKey id

def BOT_NAMES : List String := ["Ramon", "Yolanda", "Miguelina", "Bienvenido"]

-- ─── Initial state ──────────────────────────────────────────────────────────

def initialState : GameState :=
  { status := .lobby
    players := []
    phase := .lobby
    teamsA := []
    teamsB := []
    seats := []
    bots := []
    hands := []
    board := []
    boardEnds := none
    centerIndex := 0
    currentTurn := none
    turnOrder := []
    consecutivePasses := 0
    roundStarter := none
    roundNumber := 0
    scoresA := 0
    scoresB := 0
    lastRoundResult := none
    targetScore := TARGET_SCORE
    sessions := [] }

-- ─── Reducer helpers ────────────────────────────────────────────────────────

def defaultPlayer : Player := ⟨"", "", none, false, false⟩

def defaultTile : DominoTile := ⟨"", 0, 0⟩

/-- Replace `oldId` by `newId` in a roster (`.map(id => id === oldId ? newId : id)`). -/
def renameIn (oldId newId : String) (l : List String) : List String :=
  l.map (fun id => if id = oldId then newId else id)

/-- `migratePlayer`: rewrite every reference to `oldId` to `newId`.
The source reads `state.players[oldId]` without a check (the call site
guarantees presence); the `getD` default is unobservable there. -/
def migratePlayer (s : GameState) (oldId newId secret : String) : GameState :=
  let oldPlayer := (s.players.lookup oldId).getD defaultPlayer
  let newPlayers :=
    (s.players.erase oldId).insert newId
      { oldPlayer with id := newId, connected := true }
  let newTeamsA := renameIn oldId newId s.teamsA
  let newTeamsB := renameIn oldId newId s.teamsB
  let newSeats :=
    if s.seats.hasKey oldId then
      (s.seats.insert newId ((s.seats.lookup oldId).getD 0)).erase oldId
    else s.seats
  let newHands :=
    if s.hands.hasKey oldId then
      (s.hands.insert newId ((s.hands.lookup oldId).getD [])).erase oldId
    else s.hands
  let newTurnOrder := renameIn oldId newId s.turnOrder
  let newCurrentTurn :=
    if s.currentTurn = some oldId then some newId else s.currentTurn
  let newRoundStarter :=
    if s.roundStarter = some oldId then some newId else s.roundStarter
  let newSessions := s.sessions.insert secret newId
  { s with
    players := newPlayers
    teamsA := newTeamsA
    teamsB := newTeamsB
    seats := newSeats
    hands := newHands
    turnOrder := newTurnOrder
    currentTurn := newCurrentTurn
    roundStarter := newRoundStarter
    sessions := newSessions }

/-- Humans (non-bot members) currently on a roster. -/
def humansIn (s : GameState) (roster : List String) : Nat :=
  (roster.filter (fun id => ¬ s.bots.hasKey id)).length

/-- `assignSeatAndTeam`. -/
def assignSeatAndTeam (s : GameState) (playerId : String) : GameState :=
  let humansInA := humansIn s s.teamsA
  let humansInB := humansIn s s.teamsB
  let team : Team := if humansInA ≤ humansInB then .a else .b
  let team : Team :=
    if team = .a ∧ humansInA ≥ PLAYERS_PER_TEAM then .b
    else if team = .b ∧ humansInB ≥ PLAYERS_PER_TEAM then .a
    else team
  match team with
  | .a => { s with teamsA := s.teamsA ++ [playerId] }
  | .b => { s with teamsB := s.teamsB ++ [playerId] }

/-- Bot display name for index `i`: `BOT_NAMES[i] || "Bot " + (i+1)`. -/
def botName (i : Nat) : String :=
  (BOT_NAMES.get? i).getD ("Bot " ++ toString (i + 1))

/-- The inner `while usedNames.includes(...)` skip loop of
`fillBotsAndAssignSeats`.  `botName` is injective, so the loop visits at
most `used.length` used names; fuel `used.length + 1` makes it total. -/
def skipUsedNames (used : List String) : Nat → Nat → Nat
  | 0, i => i
  | fuel + 1, i => if botName i ∈ used then skipUsedNames used fuel (i + 1) else i

/-- One iteration of a team-fill `while` loop: create one bot. -/
def fillOneBot (team : List String) (bots : JsMap Bot) (botIndex : Nat)
    (tg : Team) : List String × JsMap Bot × Nat :=
  let usedNames := bots.values.map (fun b => b.name)
  let i := skipUsedNames usedNames (usedNames.length + 1) botIndex
  let name := botName i
  let botId := "bot_" ++ toString i
  (team ++ [botId], bots.insert botId ⟨botId, name, tg, -1⟩, i + 1)

/-- The `while (team.length < PLAYERS_PER_TEAM)` fill loop.  Each iteration
grows the roster by one, so fuel `PLAYERS_PER_TEAM` always suffices. -/
def fillTeam : Nat → List String → JsMap Bot → Nat → Team →
    List String × JsMap Bot × Nat
  | 0, team, bots, botIndex, _ => (team, bots, botIndex)
  | fuel + 1, team, bots, botIndex, tg =>
      if team.length < PLAYERS_PER_TEAM then
        let r := fillOneBot team bots botIndex tg
        fillTeam fuel r.1 r.2.1 r.2.2 tg
      else (team, bots, botIndex)

/-- `fillBotsAndAssignSeats`. -/
def fillBotsAndAssignSeats (s : GameState) : GameState :=
  -- Remove any existing bots from teams
  let teamsA := s.bots.keys.foldl (fun ts botId => ts.filter (fun id => id ≠ botId)) s.teamsA
  let teamsB := s.bots.keys.foldl (fun ts botId => ts.filter (fun id => id ≠ botId)) s.teamsB
  -- Fill team A, then team B, to 2 members
  let fa := fillTeam PLAYERS_PER_TEAM teamsA [] 0 .a
  let fb := fillTeam PLAYERS_PER_TEAM teamsB fa.2.1 fa.2.2 .b
  let newTeamsA := fa.1
  let newTeamsB := fb.1
  let bots0 := fb.2.1
  -- Assign seats: 0,2 = team A, 1,3 = team B.  A JS `undefined` roster read
  -- used as a property key stringifies to "undefined".
  let a0 := (newTeamsA.get? 0).getD "undefined"
  let b0 := (newTeamsB.get? 0).getD "undefined"
  let a1 := (newTeamsA.get? 1).getD "undefined"
  let b1 := (newTeamsB.get? 1).getD "undefined"
  let seats :=
    JsMap.insert (JsMap.insert (JsMap.insert (JsMap.insert ([] : JsMap Nat) a0 0) b0 1) a1 2) b1 3
  -- Update bot seat values
  let newBots := bots0.map (fun p =>
    match seats.lookup p.1 with
    | some n => (p.1, { p.2 with seat := (n : Int) })
    | none => p)
  { s with teamsA := newTeamsA, teamsB := newTeamsB, bots := newBots, seats := seats }

/-- `seatToPlayer[seat]`: the JS loop assigns `seatToPlayer[seat] = id` over
`Object.entries(state.seats)`, so a later entry overwrites an earlier one. -/
def seatToPlayer (seats : JsMap Nat) (n : Nat) : Option String :=
  (seats.reverse.find? (fun p => p.2 = n)).map (fun p => p.1)

/-- `dealTiles`. -/
def dealTiles (s : GameState) (shuffledTiles : List DominoTile) : GameState :=
  let turnOrder := (List.range TOTAL_PLAYERS).map
    (fun n => (seatToPlayer s.seats n).getD "undefined")
  let hands := (List.range TOTAL_PLAYERS).foldl
    (fun (hs : JsMap (List DominoTile)) i =>
      hs.insert ((turnOrder.get? i).getD "undefined")
        ((shuffledTiles.drop (i * TILES_PER_HAND)).take TILES_PER_HAND))
    []
  { s with hands := hands, turnOrder := turnOrder }

/-- `findFirstPlayer`. -/
def findFirstPlayer (s : GameState) : String :=
  let mulaHolder : Option String :=
    if s.roundNumber = 1 then
      (s.hands.find? (fun p => p.2.any (fun t => t.id = "6-6"))).map (fun p => p.1)
    else none
  match mulaHolder with
  | some pid => pid
  | none =>
    let fromStarter : Option String :=
      match s.roundStarter with
      | none => none
      | some rs =>
          if ((s.hands.lookup rs).getD []).length > 0 then some rs
          else
            match getTeam s rs with
            | some team =>
                (s.teamList team).find? (fun id =>
                  id ≠ rs ∧ ((s.hands.lookup id).getD []).length > 0)
            | none => none
    match fromStarter with
    | some pid => pid
    | none =>
        match s.turnOrder.find? (fun pid => ((s.hands.lookup pid).getD []).length > 0) with
        | some pid => pid
        | none => (s.turnOrder.get? 0).getD "undefined"

/-- `advanceTurn`.  JS `indexOf` yields -1 when `currentTurn` is absent;
`(-1 + 1) % len = 0`.  An empty `turnOrder` would give a JS `undefined`. -/
def advanceTurn (s : GameState) : String :=
  let i : Int :=
    match s.currentTurn with
    | none => -1
    | some ct =>
        match s.turnOrder.findIdx? (fun id => id = ct) with
        | some n => (n : Int)
        | none => -1
  if s.turnOrder.length = 0 then "undefined"
  else s.turnOrder.getD (((i + 1) % (s.turnOrder.length : Int)).toNat) "undefined"

/-- Per-team pip totals over all hands (the `pipCounts` loop of
`resolveRoundEnd`). -/
def pipCountsOf (s : GameState) : Nat × Nat :=
  s.hands.foldl
    (fun acc p =>
      match getTeam s p.1 with
      | some .a => (acc.1 + calculatePipCount p.2, acc.2)
      | some .b => (acc.1, acc.2 + calculatePipCount p.2)
      | none => acc)
    (0, 0)

/-- Winning team and points of a round resolution (the branch on `reason`
inside `resolveRoundEnd`).  The source asserts `getTeam(state, winnerId!)!`
on the domino path; the `getD .a` default is unobservable at the call sites. -/
def winnerAndPoints (s : GameState) (reason : Reason) (winnerId : Option String) :
    Team × Nat :=
  let pipA := (pipCountsOf s).1
  let pipB := (pipCountsOf s).2
  match reason with
  | .domino =>
      let winnerTeam := ((winnerId.bind (getTeam s)).getD .a)
      (winnerTeam, match winnerTeam with | .a => pipB | .b => pipA)
  | .tranque =>
      if pipA < pipB then (.a, pipB - pipA)
      else if pipB < pipA then (.b, pipA - pipB)
      else (.a, 0)

/-- `resolveRoundEnd`. -/
def resolveRoundEnd (s : GameState) (reason : Reason) (winnerId : Option String) :
    GameState :=
  let pipA := (pipCountsOf s).1
  let pipB := (pipCountsOf s).2
  let winnerTeam := (winnerAndPoints s reason winnerId).1
  let pointsAwarded := (winnerAndPoints s reason winnerId).2
  let newScoresA := s.scoresA + (if winnerTeam = .a then pointsAwarded else 0)
  let newScoresB := s.scoresB + (if winnerTeam = .b then pointsAwarded else 0)
  let roundResult : RoundResult :=
    ⟨winnerTeam, reason, pointsAwarded, pipA, pipB, winnerId⟩
  let isGameOver := newScoresA ≥ s.targetScore ∨ newScoresB ≥ s.targetScore
  let roundStarterId :=
    match winnerId with
    | some w => w
    | none =>
        -- Tranque: winning-team member with the lowest pips (Infinity start).
        let init : String × Option Nat :=
          (((s.teamList winnerTeam).get? 0).getD "undefined", none)
        let best := (s.teamList winnerTeam).foldl
          (fun (acc : String × Option Nat) memberId =>
            match s.hands.lookup memberId with
            | some hand =>
                let pips := calculatePipCount hand
                match acc.2 with
                | none => (memberId, some pips)
                | some b => if pips < b then (memberId, some pips) else acc
            | none => acc)
          init
        best.1
  { s with
    phase := if isGameOver then .game_over else .round_end
    status := if isGameOver then .ended else .playing
    scoresA := newScoresA
    scoresB := newScoresB
    lastRoundResult := some roundResult
    currentTurn := none
    roundStarter := some roundStarterId }

-- ─── Reducer ────────────────────────────────────────────────────────────────

/-- Connected-player count used by the PLAYER_JOINED capacity gate. -/
def connectedCount (s : GameState) : Nat :=
  (s.players.values.filter (fun p => p.connected)).length

def gameReducer (s : GameState) (action : GameAction) : GameState :=
  match action with
  | .playerJoined payload =>
      match s.players.lookup payload.id with
      | some existing =>
          -- Same socket ID already in state: mark reconnected.
          { s with players := s.players.insert payload.id { existing with connected := true } }
      | none =>
        let sessionHit : Option String :=
          match payload.secret with
          | some sec =>
              match s.sessions.lookup sec with
              | some oldId =>
                  if (s.players.lookup oldId).isSome then some oldId else none
              | none => none
          | none => none
        match sessionHit with
        | some oldId => migratePlayer s oldId payload.id ((payload.secret).getD "")
        | none =>
          -- New player; max 4 connected humans.
          if connectedCount s ≥ TOTAL_PLAYERS then s
          else
            let name :=
              match payload.name with
              | some n => if n = "" then "Player " ++ toString (s.players.length + 1) else n
              | none => "Player " ++ toString (s.players.length + 1)
            let player : Player :=
              ⟨payload.id, name, payload.avatar, s.players.length = 0, true⟩
            let newState :=
              { s with
                players := s.players.insert payload.id player
                sessions :=
                  match payload.secret with
                  | some sec => s.sessions.insert sec payload.id
                  | none => s.sessions }
            if s.phase = .lobby then assignSeatAndTeam newState payload.id
            else newState
  | .playerLeft playerId =>
      match s.players.lookup playerId with
      | none => s
      | some player =>
          { s with players := s.players.insert playerId { player with connected := false } }
  | .chooseTeam targetTeam actingId =>
      match actingId with
      | none => s
      | some playerId =>
          if s.phase ≠ .lobby then s
          else if humansIn s (s.teamList targetTeam) ≥ PLAYERS_PER_TEAM then s
          else
            let a0 := s.teamsA.filter (fun id => id ≠ playerId)
            let b0 := s.teamsB.filter (fun id => id ≠ playerId)
            match targetTeam with
            | .a => { s with teamsA := a0 ++ [playerId], teamsB := b0 }
            | .b => { s with teamsA := a0, teamsB := b0 ++ [playerId] }
  | .startGame shuffledTiles _ =>
      if s.phase ≠ .lobby ∧ s.phase ≠ .round_end then s
      else if connectedCount s = 0 then s
      else
        let s1 := fillBotsAndAssignSeats s
        let s2 := dealTiles s1 shuffledTiles
        let roundNumber := if s.phase = .lobby then 1 else s.roundNumber + 1
        let s3 :=
          { s2 with
            roundNumber := roundNumber
            phase := .playing
            status := .playing
            board := []
            boardEnds := none
            centerIndex := 0
            consecutivePasses := 0
            lastRoundResult := none }
        { s3 with currentTurn := some (findFirstPlayer s3) }
  | .playTile tileId side actingId =>
      if s.phase ≠ .playing then s
      else
        match actingId with
        | none => s
        | some playerId =>
          if s.currentTurn ≠ some playerId then s
          else
            match s.hands.lookup playerId with
            | none => s
            | some hand =>
              match hand.findIdx? (fun t => t.id = tileId) with
              | none => s
              | some tileIndex =>
                let tile := hand[tileIndex]?.getD defaultTile
                if (canPlayTile tile s.boardEnds).atSide side = false then s
                else
                  let step : Option (BoardTile × BoardEnds) :=
                    match s.boardEnds with
                    | none =>
                        -- First tile: in round 1 it must be the double-six.
                        if s.roundNumber = 1 ∧ tile.id ≠ "6-6" then none
                        else some (⟨tile, false⟩, ⟨tile.left, tile.right⟩)
                    | some ends =>
                        match side with
                        | .left =>
                            if tile.right = ends.left then
                              some (⟨tile, false⟩, { ends with left := tile.left })
                            else
                              some (⟨tile, true⟩, { ends with left := tile.right })
                        | .right =>
                            if tile.left = ends.right then
                              some (⟨tile, false⟩, { ends with right := tile.right })
                            else
                              some (⟨tile, true⟩, { ends with right := tile.left })
                  match step with
                  | none => s
                  | some (boardTile, newBoardEnds) =>
                    let newBoard :=
                      match side with
                      | .left => boardTile :: s.board
                      | .right => s.board ++ [boardTile]
                    let newCenterIndex :=
                      if side = .left ∧ s.board.length > 0 then s.centerIndex + 1
                      else s.centerIndex
                    let newHand := hand.eraseIdx tileIndex
                    let newState :=
                      { s with
                        hands := s.hands.insert playerId newHand
                        board := newBoard
                        boardEnds := some newBoardEnds
                        centerIndex := newCenterIndex
                        consecutivePasses := 0 }
                    if newHand.length = 0 then
                      resolveRoundEnd newState .domino (some playerId)
                    else
                      { newState with currentTurn := some (advanceTurn newState) }
  | .pass actingId =>
      if s.phase ≠ .playing then s
      else
        match actingId with
        | none => s
        | some playerId =>
          if s.currentTurn ≠ some playerId then s
          else
            match s.hands.lookup playerId with
            | none => s
            | some hand =>
              if (getPlayableTiles hand s.boardEnds).length > 0 then s
              else
                let newPasses := s.consecutivePasses + 1
                if newPasses ≥ TOTAL_PLAYERS then
                  resolveRoundEnd { s with consecutivePasses := newPasses } .tranque none
                else
                  { s with
                    consecutivePasses := newPasses
                    currentTurn := some (advanceTurn s) }
  | .newRound shuffledTiles =>
      if s.phase ≠ .round_end then s
      else
        let s1 :=
          { s with
            board := []
            boardEnds := none
            centerIndex := 0
            consecutivePasses := 0
            lastRoundResult := none }
        let s2 := dealTiles s1 shuffledTiles
        let s3 := { s2 with roundNumber := s.roundNumber + 1, phase := .playing, status := .playing }
        { s3 with currentTurn := some (findFirstPlayer s3) }
  | .resetGame =>
      let resetPlayers := s.players.filter (fun p => p.2.connected)
      let resetSessions :=
        s.sessions.filter (fun p => (JsMap.lookup resetPlayers p.2).isSome)
      let newState :=
        { initialState with players := resetPlayers, sessions := resetSessions }
      resetPlayers.foldl (fun st p => assignSeatAndTeam st p.1) newState

-- ─── Derived notions used by the specification claims ───────────────────────

/-- Bot-id form: the reserved "bot_" prefix used for generated bot ids
(spelled over the character list so that it evaluates by `decide`). -/
def isBotId (id : String) : Bool :=
  id.toList.take 4 = "bot_".toList

/-- Multiset (as list) of all tile IDs currently held in hands or lying on
the board. -/
def heldTileIds (s : GameState) : List String :=
  (s.hands.values.flatten ++ s.board.map (fun bt => bt.tile)).map (fun t => t.id)

/-- Tile conservation: hands plus board carry exactly the canonical 28 IDs. -/
def TileConservation (s : GameState) : Prop :=
  (heldTileIds s).Perm (generateAllTiles.map (fun t => t.id))

/-- `seats` is a bijection between its four keys and the seat set {0,1,2,3}. -/
def SeatsBijection (m : JsMap Nat) : Prop :=
  m.keys.Nodup ∧ (m.values).Perm [0, 1, 2, 3]

/-- Success condition of `PLAY_TILE`, phrased as the specification states it
(board emptiness for the round-1 mula exception). -/
def playTileOk (s : GameState) (actingId : Option String) (tileId : String)
    (side : Side) : Bool :=
  decide (s.phase = .playing) &&
  (match actingId with
   | none => false
   | some pid =>
     decide (s.currentTurn = some pid) &&
     (match s.hands.lookup pid with
      | none => false
      | some hand =>
        match hand.findIdx? (fun t => t.id = tileId) with
        | none => false
        | some i =>
            let tile := hand[i]?.getD defaultTile
            (canPlayTile tile s.boardEnds).atSide side &&
            (!(decide (s.board = []) && decide (s.roundNumber = 1)) ||
              decide (tile.id = "6-6"))))

/-- Success condition of `PASS`. -/
def passOk (s : GameState) (actingId : Option String) : Bool :=
  decide (s.phase = .playing) &&
  (match actingId with
   | none => false
   | some pid =>
     decide (s.currentTurn = some pid) &&
     (match s.hands.lookup pid with
      | none => false
      | some hand => decide (getPlayableTiles hand s.boardEnds = [])))

/-- The proviso claim C4 states on action traces: every deal is a
permutation of the canonical 28-tile set. -/
def ShuffleOk (a : GameAction) : Prop :=
  match a with
  | .startGame tiles _ => tiles.Perm generateAllTiles
  | .newRound tiles => tiles.Perm generateAllTiles
  | _ => True

/-- States reachable from `initialState` under the proviso of claim C4 as
stated (only the shuffles are constrained). -/
inductive ReachableShuffled : GameState → Prop
  | init : ReachableShuffled initialState
  | step {s : GameState} {a : GameAction} :
      ReachableShuffled s → ShuffleOk a → ReachableShuffled (gameReducer s a)

/-- Identifier hygiene on actions: shuffles are permutations of the canonical
set, joining ids never use the reserved bot prefix, and CHOOSE_TEAM only acts
for an existing player. -/
def GoodAction (s : GameState) (a : GameAction) : Prop :=
  match a with
  | .startGame tiles _ => tiles.Perm generateAllTiles
  | .newRound tiles => tiles.Perm generateAllTiles
  | .playerJoined payload => isBotId payload.id = false
  | .chooseTeam _ actingId =>
      ∀ q, actingId = some q → (s.players.lookup q).isSome
  | _ => True

/-- States reachable from `initialState` under hygienic actions. -/
inductive ReachableGood : GameState → Prop
  | init : ReachableGood initialState
  | step {s : GameState} {a : GameAction} :
      ReachableGood s → GoodAction s a → ReachableGood (gameReducer s a)

-- ─── JsMap lemma library ────────────────────────────────────────────────────

namespace JsMap

theorem lookup_cons {α : Type} (p : String × α) (m : JsMap α) (k : String) :
    JsMap.lookup (p :: m) k = if p.1 = k then some p.2 else JsMap.lookup m k := by
  by_cases h : p.1 = k <;> simp [JsMap.lookup, List.find?_cons, h]

theorem mem_keys_iff {α : Type} (m : JsMap α) (k : String) :
    k ∈ JsMap.keys m ↔ (JsMap.lookup m k).isSome = true := by
  induction m with
  | nil => simp [JsMap.lookup, JsMap.keys]
  | cons p t ih =>
      by_cases h : p.1 = k <;>
        (simp [JsMap.keys, lookup_cons, h, List.mem_cons] at ih ⊢; try tauto)

theorem lookup_eq_none_iff {α : Type} (m : JsMap α) (k : String) :
    JsMap.lookup m k = none ↔ k ∉ JsMap.keys m := by
  rw [mem_keys_iff]
  cases JsMap.lookup m k <;> simp

theorem hasKey_iff_mem {α : Type} (m : JsMap α) (k : String) :
    JsMap.hasKey m k = true ↔ k ∈ JsMap.keys m := by
  rw [JsMap.hasKey, mem_keys_iff]

theorem insert_of_not_mem {α : Type} {m : JsMap α} {k : String} (v : α)
    (h : k ∉ JsMap.keys m) : JsMap.insert m k v = m ++ [(k, v)] := by
  have hk : JsMap.hasKey m k = false := by
    rw [← Bool.not_eq_true, hasKey_iff_mem]
    exact h
  simp [JsMap.insert, hk]

theorem erase_of_not_mem {α : Type} {m : JsMap α} {k : String}
    (h : k ∉ JsMap.keys m) : JsMap.erase m k = m := by
  induction m with
  | nil => rfl
  | cons p t ih =>
      simp only [JsMap.keys, List.map_cons, List.mem_cons, not_or] at h
      have h1 : ¬ p.1 = k := fun e => h.1 e.symm
      have h2 := ih (by simpa [JsMap.keys] using h.2)
      simp only [JsMap.erase, List.filter_cons] at h2 ⊢
      rw [if_pos (by simp [h1]), h2]

theorem map_replace_of_not_mem {α : Type} {m : JsMap α} {k : String} (v : α)
    (h : k ∉ JsMap.keys m) :
    (m.map (fun p => if p.1 = k then (k, v) else p)) = m := by
  induction m with
  | nil => rfl
  | cons p t ih =>
      simp only [JsMap.keys, List.map_cons, List.mem_cons, not_or] at h
      have h1 : ¬ p.1 = k := fun e => h.1 e.symm
      have h2 := ih (by simpa [JsMap.keys] using h.2)
      simp [h1, h2]

/-- Updating an existing key of a key-nodup map rewrites exactly one entry in
place; erasing it removes exactly that entry. -/
theorem insert_existing_decomp {α : Type} {m : JsMap α} {k : String} {v : α}
    (hnd : (JsMap.keys m).Nodup) (h : JsMap.lookup m k = some v) :
    ∃ m₁ m₂ : JsMap α, m = m₁ ++ (k, v) :: m₂ ∧
      k ∉ JsMap.keys m₁ ∧ k ∉ JsMap.keys m₂ ∧
      (∀ v' : α, JsMap.insert m k v' = m₁ ++ (k, v') :: m₂) ∧
      JsMap.erase m k = m₁ ++ m₂ := by
  induction m with
  | nil => simp [JsMap.lookup] at h
  | cons p t ih =>
      rw [lookup_cons] at h
      have hndt : (JsMap.keys t).Nodup := (List.nodup_cons.mp hnd).2
      by_cases hk : p.1 = k
      · have hmem : k ∉ JsMap.keys t := by
          have h' := (List.nodup_cons.mp hnd).1
          simp only [JsMap.keys]
          simpa [hk] using h'
        refine ⟨[], t, ?_, by simp [JsMap.keys], hmem, ?_, ?_⟩
        · rw [if_pos hk] at h
          obtain ⟨k', v'⟩ := p
          simp only at hk h
          simp [hk, Option.some_inj.mp h]
        · intro v'
          have hKey : JsMap.hasKey (p :: t) k = true := by
            rw [hasKey_iff_mem]
            simp [JsMap.keys, hk]
          simp only [JsMap.insert, hKey, if_true, List.map_cons, hk, if_pos rfl]
          rw [map_replace_of_not_mem v' hmem]
          simp
        · have ht := erase_of_not_mem hmem
          simp only [JsMap.erase] at ht
          simp only [JsMap.erase, List.filter_cons]
          rw [if_neg (by simp [hk]), ht]
          simp
      · rw [if_neg hk] at h
        obtain ⟨m₁, m₂, he, h1, h2, hins, hers⟩ := ih hndt h
        have hmemt : k ∈ JsMap.keys t := by
          rw [mem_keys_iff, h]
          rfl
        refine ⟨p :: m₁, m₂, by simp [he], ?_, h2, ?_, ?_⟩
        · simp only [JsMap.keys, List.map_cons, List.mem_cons, not_or]
          exact ⟨fun e => hk e.symm, by simpa [JsMap.keys] using h1⟩
        · intro v'
          have hKeyT : JsMap.hasKey t k = true := (hasKey_iff_mem t k).mpr hmemt
          have hKey : JsMap.hasKey (p :: t) k = true := by
            rw [hasKey_iff_mem]
            simp only [JsMap.keys, List.map_cons, List.mem_cons]
            exact Or.inr hmemt
          have hinst := hins v'
          simp only [JsMap.insert, hKeyT, if_true] at hinst
          simp only [JsMap.insert, hKey, if_true, List.map_cons, hk, if_false, hinst]
          simp
        · have herst := hers
          simp only [JsMap.erase, List.filter_cons] at herst ⊢
          rw [if_pos (by simp [hk]), herst]
          simp

theorem lookup_append_left_some {α : Type} {m₁ : JsMap α} (m₂ : JsMap α)
    {k : String} {v : α} (h : JsMap.lookup m₁ k = some v) :
    JsMap.lookup (m₁ ++ m₂) k = some v := by
  induction m₁ with
  | nil => simp [JsMap.lookup] at h
  | cons p t ih =>
      rw [lookup_cons] at h
      rw [List.cons_append, lookup_cons]
      by_cases hk : p.1 = k
      · rwa [if_pos hk] at h ⊢
      · rw [if_neg hk] at h ⊢
        exact ih h

theorem lookup_append_left_none {α : Type} {m₁ : JsMap α} (m₂ : JsMap α)
    {k : String} (h : JsMap.lookup m₁ k = none) :
    JsMap.lookup (m₁ ++ m₂) k = JsMap.lookup m₂ k := by
  induction m₁ with
  | nil => rfl
  | cons p t ih =>
      rw [lookup_cons] at h
      rw [List.cons_append, lookup_cons]
      by_cases hk : p.1 = k
      · rw [if_pos hk] at h
        exact absurd h (by simp)
      · rw [if_neg hk] at h ⊢
        exact ih h

/-- In-place replacement of key `k` does not affect other keys. -/
theorem lookup_map_replace_ne {α : Type} (m : JsMap α) {k k' : String} (v : α)
    (h : k' ≠ k) :
    JsMap.lookup (m.map (fun p => if p.1 = k then (k, v) else p)) k' =
      JsMap.lookup m k' := by
  induction m with
  | nil => rfl
  | cons p t ih =>
      rw [List.map_cons]
      by_cases hk : p.1 = k
      · rw [if_pos hk, lookup_cons, lookup_cons]
        have h1 : ¬ ((k, v) : String × α).1 = k' := fun e => h (by simpa using e.symm)
        have h2 : ¬ p.1 = k' := by
          rw [hk]
          exact fun e => h e.symm
        rw [if_neg h1, if_neg h2]
        exact ih
      · rw [if_neg hk, lookup_cons, lookup_cons]
        by_cases hp : p.1 = k'
        · rw [if_pos hp, if_pos hp]
        · rw [if_neg hp, if_neg hp]
          exact ih

theorem lookup_insert_self {α : Type} (m : JsMap α) (k : String) (v : α) :
    JsMap.lookup (JsMap.insert m k v) k = some v := by
  by_cases hKey : JsMap.hasKey m k = true
  · simp only [JsMap.insert, hKey, if_true]
    induction m with
    | nil => simp [JsMap.hasKey, JsMap.lookup] at hKey
    | cons p t ih =>
        rw [List.map_cons]
        by_cases hk : p.1 = k
        · rw [if_pos hk, lookup_cons]
          simp
        · rw [if_neg hk, lookup_cons, if_neg hk]
          apply ih
          rw [JsMap.hasKey, lookup_cons, if_neg hk] at hKey
          exact hKey
  · have hn : JsMap.lookup m k = none := by
      rw [JsMap.hasKey] at hKey
      cases hl : JsMap.lookup m k
      · rfl
      · rw [hl] at hKey
        simp at hKey
    rw [insert_of_not_mem v ((lookup_eq_none_iff m k).mp hn),
      lookup_append_left_none _ hn, lookup_cons]
    simp

theorem lookup_insert_ne {α : Type} (m : JsMap α) {k k' : String} (v : α)
    (h : k' ≠ k) : JsMap.lookup (JsMap.insert m k v) k' = JsMap.lookup m k' := by
  by_cases hKey : JsMap.hasKey m k = true
  · simp only [JsMap.insert, hKey, if_true]
    exact lookup_map_replace_ne m v h
  · have hn : k ∉ JsMap.keys m := fun hm => hKey ((hasKey_iff_mem m k).mpr hm)
    rw [insert_of_not_mem v hn]
    cases hl : JsMap.lookup m k'
    · rw [lookup_append_left_none _ hl, lookup_cons]
      simp [show ¬ (k : String) = k' from fun e => h e.symm, JsMap.lookup]
    · exact lookup_append_left_some _ hl

theorem lookup_erase_self {α : Type} (m : JsMap α) (k : String) :
    JsMap.lookup (JsMap.erase m k) k = none := by
  induction m with
  | nil => rfl
  | cons p t ih =>
      simp only [JsMap.erase, List.filter_cons] at ih ⊢
      by_cases hk : p.1 = k
      · rw [if_neg (by simp [hk])]
        exact ih
      · rw [if_pos (by simp [hk]), lookup_cons, if_neg hk]
        exact ih

theorem lookup_erase_ne {α : Type} (m : JsMap α) {k k' : String}
    (h : k' ≠ k) : JsMap.lookup (JsMap.erase m k) k' = JsMap.lookup m k' := by
  induction m with
  | nil => rfl
  | cons p t ih =>
      simp only [JsMap.erase, List.filter_cons] at ih ⊢
      by_cases hk : p.1 = k
      · rw [if_neg (by simp [hk]), lookup_cons]
        have hne : ¬ p.1 = k' := by
          rw [hk]
          exact fun e => h e.symm
        rw [if_neg hne]
        exact ih
      · rw [if_pos (by simp [hk]), lookup_cons, lookup_cons]
        by_cases hp : p.1 = k'
        · simp [hp]
        · rw [if_neg hp, if_neg hp]
          exact ih

theorem keys_insert_of_not_mem {α : Type} {m : JsMap α} {k : String} (v : α)
    (h : k ∉ JsMap.keys m) : JsMap.keys (JsMap.insert m k v) = JsMap.keys m ++ [k] := by
  rw [insert_of_not_mem v h]
  simp [JsMap.keys]

theorem keys_insert_of_mem {α : Type} {m : JsMap α} {k : String} (v : α)
    (hnd : (JsMap.keys m).Nodup) (h : k ∈ JsMap.keys m) :
    JsMap.keys (JsMap.insert m k v) = JsMap.keys m := by
  obtain ⟨w, hw⟩ : ∃ w, JsMap.lookup m k = some w := by
    have hs := (mem_keys_iff m k).mp h
    cases hl : JsMap.lookup m k
    · rw [hl] at hs
      simp at hs
    · exact ⟨_, rfl⟩
  obtain ⟨m₁, m₂, he, _, _, hins, _⟩ := insert_existing_decomp hnd hw
  rw [hins v, he]
  simp [JsMap.keys]

theorem keys_erase {α : Type} (m : JsMap α) (k : String) :
    JsMap.keys (JsMap.erase m k) = (JsMap.keys m).filter (fun x => x ≠ k) := by
  induction m with
  | nil => rfl
  | cons p t ih =>
      simp only [JsMap.erase, JsMap.keys, List.map_cons, List.filter_cons] at ih ⊢
      by_cases hk : p.1 = k
      · rw [if_neg (by simp [hk]), if_neg (by simp [hk])]
        exact ih
      · rw [if_pos (by simp [hk]), if_pos (by simp [hk]), List.map_cons, ih]

theorem keys_nodup_insert {α : Type} {m : JsMap α} (k : String) (v : α)
    (hnd : (JsMap.keys m).Nodup) : (JsMap.keys (JsMap.insert m k v)).Nodup := by
  by_cases h : k ∈ JsMap.keys m
  · rw [keys_insert_of_mem v hnd h]
    exact hnd
  · rw [keys_insert_of_not_mem v h]
    simpa [List.nodup_append] using ⟨hnd, h⟩

theorem keys_nodup_erase {α : Type} {m : JsMap α} (k : String)
    (hnd : (JsMap.keys m).Nodup) : (JsMap.keys (JsMap.erase m k)).Nodup := by
  rw [keys_erase]
  exact hnd.filter _

theorem values_insert_of_not_mem {α : Type} {m : JsMap α} {k : String} (v : α)
    (h : k ∉ JsMap.keys m) :
    JsMap.values (JsMap.insert m k v) = JsMap.values m ++ [v] := by
  rw [insert_of_not_mem v h]
  simp [JsMap.values]

end JsMap



-- ─── Claim C7: game-over threshold ──────────────────────────────────────────

/-- C7: after any round resolution via `resolveRoundEnd`, the phase becomes
`game_over` (with outer status `ended`) if and only if some team's updated
score is at least `targetScore`; otherwise the phase is `round_end`. -/
theorem c7_game_over_threshold (s : GameState) (reason : Reason)
    (winnerId : Option String) :
    ((resolveRoundEnd s reason winnerId).phase = Phase.game_over ↔
      ((resolveRoundEnd s reason winnerId).scoresA ≥ s.targetScore ∨
       (resolveRoundEnd s reason winnerId).scoresB ≥ s.targetScore)) ∧
    ((resolveRoundEnd s reason winnerId).status = Status.ended ↔
      (resolveRoundEnd s reason winnerId).phase = Phase.game_over) ∧
    ((resolveRoundEnd s reason winnerId).phase = Phase.game_over ∨
     (resolveRoundEnd s reason winnerId).phase = Phase.round_end) := by
  unfold resolveRoundEnd
  dsimp only
  split_ifs <;> simp_all

-- ─── Claim C3: round scoring ────────────────────────────────────────────────

/-- Pip total of one team, as accumulated by `resolveRoundEnd`. -/
def teamPips (s : GameState) : Team → Nat
  | .a => (pipCountsOf s).1
  | .b => (pipCountsOf s).2

/-- C3: `resolveRoundEnd` awards a domino to the emptied-hand player's team
with the opponents' pip total as points; a tranque to the team with strictly
fewer pips with the difference as points; and an exact tie to team `a` with
0 points. -/
theorem c3_resolve_round_scoring (s : GameState) (w : String) (t : Team)
    (hw : getTeam s w = some t) :
    ((resolveRoundEnd s .domino (some w)).lastRoundResult =
      some ⟨t, .domino, teamPips s t.other,
        (pipCountsOf s).1, (pipCountsOf s).2, some w⟩) ∧
    ((pipCountsOf s).1 < (pipCountsOf s).2 →
      (resolveRoundEnd s .tranque none).lastRoundResult =
        some ⟨.a, .tranque, (pipCountsOf s).2 - (pipCountsOf s).1,
          (pipCountsOf s).1, (pipCountsOf s).2, none⟩) ∧
    ((pipCountsOf s).2 < (pipCountsOf s).1 →
      (resolveRoundEnd s .tranque none).lastRoundResult =
        some ⟨.b, .tranque, (pipCountsOf s).1 - (pipCountsOf s).2,
          (pipCountsOf s).1, (pipCountsOf s).2, none⟩) ∧
    ((pipCountsOf s).1 = (pipCountsOf s).2 →
      (resolveRoundEnd s .tranque none).lastRoundResult =
        some ⟨.a, .tranque, 0,
          (pipCountsOf s).1, (pipCountsOf s).2, none⟩) := by
  have hbind : ((some w).bind (getTeam s)).getD Team.a = t := by
    simp [hw]
  refine ⟨?_, ?_, ?_, ?_⟩
  · unfold resolveRoundEnd winnerAndPoints
    dsimp only
    rw [hbind]
    cases t <;> simp [Team.other, teamPips]
  · intro h
    unfold resolveRoundEnd winnerAndPoints
    dsimp only
    rw [if_pos h]
  · intro h
    unfold resolveRoundEnd winnerAndPoints
    dsimp only
    rw [if_neg (Nat.lt_asymm h), if_pos h]
  · intro h
    unfold resolveRoundEnd winnerAndPoints
    dsimp only
    rw [if_neg (by rw [h]; exact lt_irrefl _), if_neg (by rw [h]; exact lt_irrefl _)]

/-- Concrete state realizing the domino-scoring example of the spec:
team-A pips 12, team-B pips 5, player p0 (team A) just emptied their hand. -/
def exampleScoringState : GameState :=
  { initialState with
    teamsA := ["p0", "p1"]
    teamsB := ["p2", "p3"]
    hands := [("p0", []), ("p1", [⟨"6-6", 6, 6⟩]),
              ("p2", [⟨"2-3", 2, 3⟩]), ("p3", [])] }

/-- C3 witness: on the example state the domino yields winner `a` with 5
points (team B's pips), and a tranque there would yield winner `b` with 7. -/
theorem c3_resolve_round_scoring_witness :
    (resolveRoundEnd exampleScoringState .domino (some "p0")).lastRoundResult =
      some ⟨.a, .domino, 5, 12, 5, some "p0"⟩ ∧
    (resolveRoundEnd exampleScoringState .tranque none).lastRoundResult =
      some ⟨.b, .tranque, 7, 12, 5, none⟩ := by
  have h := c3_resolve_round_scoring exampleScoringState "p0" .a (by decide)
  exact ⟨h.1, h.2.2.1 (by decide)⟩

-- ─── Claim C5: team auto-assignment bounds ──────────────────────────────────

/-- Shorthand for a PLAYER_JOINED action without a session secret. -/
def joinAction (id : String) : GameAction :=
  .playerJoined ⟨id, some id, none, none⟩

/-- A lobby state in which both teams already hold two humans each. -/
def fullTeamsState : GameState :=
  { initialState with
    players := [("h1", ⟨"h1", "h1", none, true, true⟩),
                ("h2", ⟨"h2", "h2", none, false, true⟩),
                ("h3", ⟨"h3", "h3", none, false, true⟩),
                ("h4", ⟨"h4", "h4", none, false, true⟩)]
    teamsA := ["h1", "h3"]
    teamsB := ["h2", "h4"] }

/-- Reachable trace: four humans join (two per team), one disconnects, and a
fifth human joins; the connected-count gate admits the fifth player. -/
def fiveHumanState : GameState :=
  gameReducer
    (gameReducer
      (gameReducer
        (gameReducer
          (gameReducer (gameReducer initialState (joinAction "h1"))
            (joinAction "h2"))
          (joinAction "h3"))
        (joinAction "h4"))
      (.playerLeft "h1"))
    (joinAction "h5")

/-- C5: `assignSeatAndTeam` does append to a team that already holds 2
humans.  On a state with two humans on each team it appends the newcomer to
team B, giving that team 3 humans; the same overflow is reachable from
`initialState` (4 joins, 1 leave, 1 join). -/
theorem c5_assign_overflows_full_team :
    humansIn fullTeamsState fullTeamsState.teamsA = 2 ∧
    humansIn fullTeamsState fullTeamsState.teamsB = 2 ∧
    (assignSeatAndTeam fullTeamsState "h5").teamsB = ["h2", "h4", "h5"] ∧
    fiveHumanState.teamsB = ["h2", "h4", "h5"] ∧
    humansIn fiveHumanState fiveHumanState.teamsB = 3 ∧
    fiveHumanState.players.length = 5 := by
  refine ⟨by decide, by decide, by decide, ?_, ?_, ?_⟩ <;> decide

-- ─── Shared facts about resolveRoundEnd ─────────────────────────────────────

/-- Field-by-field description of `resolveRoundEnd`. -/
theorem resolveRoundEnd_spec (s : GameState) (reason : Reason)
    (winnerId : Option String) :
    (resolveRoundEnd s reason winnerId).lastRoundResult =
      some ⟨(winnerAndPoints s reason winnerId).1, reason,
        (winnerAndPoints s reason winnerId).2,
        (pipCountsOf s).1, (pipCountsOf s).2, winnerId⟩ ∧
    (resolveRoundEnd s reason winnerId).scoresA =
      s.scoresA + (if (winnerAndPoints s reason winnerId).1 = Team.a
        then (winnerAndPoints s reason winnerId).2 else 0) ∧
    (resolveRoundEnd s reason winnerId).scoresB =
      s.scoresB + (if (winnerAndPoints s reason winnerId).1 = Team.b
        then (winnerAndPoints s reason winnerId).2 else 0) ∧
    (resolveRoundEnd s reason winnerId).targetScore = s.targetScore ∧
    (resolveRoundEnd s reason winnerId).consecutivePasses = s.consecutivePasses ∧
    (resolveRoundEnd s reason winnerId).hands = s.hands ∧
    (resolveRoundEnd s reason winnerId).board = s.board ∧
    (resolveRoundEnd s reason winnerId).seats = s.seats ∧
    (resolveRoundEnd s reason winnerId).players = s.players ∧
    (resolveRoundEnd s reason winnerId).bots = s.bots ∧
    (resolveRoundEnd s reason winnerId).teamsA = s.teamsA ∧
    (resolveRoundEnd s reason winnerId).teamsB = s.teamsB ∧
    (resolveRoundEnd s reason winnerId).currentTurn = none ∧
    ((resolveRoundEnd s reason winnerId).phase =
      if (resolveRoundEnd s reason winnerId).scoresA ≥ s.targetScore ∨
         (resolveRoundEnd s reason winnerId).scoresB ≥ s.targetScore
      then Phase.game_over else Phase.round_end) ∧
    ((resolveRoundEnd s reason winnerId).status =
      if (resolveRoundEnd s reason winnerId).scoresA ≥ s.targetScore ∨
         (resolveRoundEnd s reason winnerId).scoresB ≥ s.targetScore
      then Status.ended else Status.playing) := by
  unfold resolveRoundEnd
  dsimp only
  split_ifs <;> simp_all

-- ─── Claim C2: PASS legality and the tranque trigger ────────────────────────

/-- Helper: unpacks `phase = if C then game_over else round_end`. -/
theorem phase_ite_elim {r : GameState} {C : Prop} [Decidable C]
    (h : r.phase = if C then Phase.game_over else Phase.round_end) :
    (r.phase = Phase.game_over ↔ C) ∧ r.phase ≠ Phase.playing ∧
    (r.phase = Phase.game_over ∨ r.phase = Phase.round_end) := by
  by_cases hc : C <;> simp [h, hc]

/-- A playing state on the verge of a tranque: three consecutive passes,
team A at 199 points, no playable tile for the current player, and team A
holding fewer pips than team B. -/
def tranqueEdgeState : GameState :=
  { initialState with
    phase := .playing
    status := .playing
    players := [("p0", ⟨"p0", "p0", none, true, true⟩)]
    teamsA := ["p0", "p2"]
    teamsB := ["p1", "p3"]
    seats := [("p0", 0), ("p1", 1), ("p2", 2), ("p3", 3)]
    hands := [("p0", [⟨"0-1", 0, 1⟩]), ("p1", [⟨"0-2", 0, 2⟩]),
              ("p2", [⟨"0-0", 0, 0⟩]), ("p3", [⟨"0-3", 0, 3⟩])]
    board := [⟨⟨"6-6", 6, 6⟩, false⟩]
    boardEnds := some ⟨6, 6⟩
    currentTurn := some "p0"
    turnOrder := ["p0", "p1", "p2", "p3"]
    consecutivePasses := 3
    roundNumber := 1
    scoresA := 199 }

/-- C2 counterexample: a valid fourth consecutive pass resolves the round as
a tranque, but the phase becomes `game_over` (the tranque points push team A
to 203 ≥ 200), not `round_end` as the claim states. -/
theorem c2_pass_counterexample :
    passOk tranqueEdgeState (some "p0") = true ∧
    tranqueEdgeState.consecutivePasses + 1 = 4 ∧
    (gameReducer tranqueEdgeState (.pass (some "p0"))).lastRoundResult.map
      (fun r => r.reason) = some Reason.tranque ∧
    (gameReducer tranqueEdgeState (.pass (some "p0"))).phase = Phase.game_over ∧
    (gameReducer tranqueEdgeState (.pass (some "p0"))).phase ≠ Phase.round_end := by
  refine ⟨by decide, by decide, by decide, by decide, by decide⟩

/-- C2 (amended): a PASS is rejected with the state unchanged unless the
phase is playing, the acting id is the current turn, and the hand has no
playable tile; a successful pass increments `consecutivePasses`, and when
that count reaches 4 the round resolves with reason tranque and the phase
leaves playing — `round_end`, or `game_over` when the updated score of some
team reaches `targetScore`; otherwise the turn advances. -/
theorem c2_pass_legality (s : GameState) (actingId : Option String) :
    (passOk s actingId = false → gameReducer s (.pass actingId) = s) ∧
    (passOk s actingId = true →
      (gameReducer s (.pass actingId)).consecutivePasses =
        s.consecutivePasses + 1 ∧
      (s.consecutivePasses + 1 ≥ 4 →
        (gameReducer s (.pass actingId)).lastRoundResult.map
          (fun r => r.reason) = some Reason.tranque ∧
        (gameReducer s (.pass actingId)).phase ≠ Phase.playing ∧
        ((gameReducer s (.pass actingId)).phase = Phase.game_over ↔
          ((gameReducer s (.pass actingId)).scoresA ≥ s.targetScore ∨
           (gameReducer s (.pass actingId)).scoresB ≥ s.targetScore)) ∧
        ((gameReducer s (.pass actingId)).phase = Phase.game_over ∨
         (gameReducer s (.pass actingId)).phase = Phase.round_end)) ∧
      (s.consecutivePasses + 1 < 4 →
        (gameReducer s (.pass actingId)).currentTurn = some (advanceTurn s) ∧
        (gameReducer s (.pass actingId)).phase = Phase.playing)) := by
  constructor
  · intro hf
    by_cases hp : s.phase = Phase.playing
    · cases actingId with
      | none => simp [gameReducer, hp]
      | some pid =>
        by_cases hct : s.currentTurn = some pid
        · cases hl : JsMap.lookup s.hands pid with
          | none => simp [gameReducer, hp, hct, hl]
          | some hand =>
            by_cases hpl : getPlayableTiles hand s.boardEnds = []
            · exfalso
              have hok : passOk s (some pid) = true := by
                simp [passOk, hp, hct, hl, hpl]
              rw [hok] at hf
              cases hf
            · have hlen : (getPlayableTiles hand s.boardEnds).length > 0 :=
                List.length_pos.mpr hpl
              simp [gameReducer, hp, hct, hl, hlen]
        · simp [gameReducer, hp, hct]
    · simp [gameReducer, hp]
  · intro ht
    cases actingId with
    | none => simp [passOk] at ht
    | some pid =>
      have hp : s.phase = Phase.playing := by
        by_contra hp
        simp [passOk, hp] at ht
      have hct : s.currentTurn = some pid := by
        by_contra hct
        simp [passOk, hp, hct] at ht
      cases hl : JsMap.lookup s.hands pid with
      | none => simp [passOk, hp, hct, hl] at ht
      | some hand =>
        have hpl : getPlayableTiles hand s.boardEnds = [] := by
          by_contra hpl
          simp [passOk, hp, hct, hl, hpl] at ht
        have hlen : ¬ (getPlayableTiles hand s.boardEnds).length > 0 := by
          simp [hpl]
        by_cases h4 : s.consecutivePasses + 1 ≥ 4
        · have hred : gameReducer s (.pass (some pid)) =
              resolveRoundEnd { s with consecutivePasses := s.consecutivePasses + 1 }
                .tranque none := by
            simp [gameReducer, hp, hct, hl, hlen, TOTAL_PLAYERS, h4]
          obtain ⟨hres, hsa, hsb, htg, hcp, -, -, -, -, -, -, -, -, hph, -⟩ :=
            resolveRoundEnd_spec
              { s with consecutivePasses := s.consecutivePasses + 1 } .tranque none
          rw [hred]
          have htg' : ({ s with consecutivePasses := s.consecutivePasses + 1 } :
              GameState).targetScore = s.targetScore := rfl
          rw [htg'] at hph
          obtain ⟨hiff, hnp, hor⟩ := phase_ite_elim hph
          refine ⟨by rw [hcp], fun _ => ⟨by rw [hres]; rfl, hnp, hiff, hor⟩, ?_⟩
          intro hlt
          omega
        · have hred : gameReducer s (.pass (some pid)) =
              { s with consecutivePasses := s.consecutivePasses + 1,
                       currentTurn := some (advanceTurn s) } := by
            simp [gameReducer, hp, hct, hl, hlen, TOTAL_PLAYERS, h4]
          rw [hred]
          exact ⟨rfl, fun h => absurd h h4, fun _ => ⟨rfl, hp⟩⟩

/-- A playing state where the current player must pass and the round keeps
going. -/
def passWitnessState : GameState :=
  { tranqueEdgeState with consecutivePasses := 0, scoresA := 0 }

/-- C2 witness: a concrete legal pass increments the counter to 1 and hands
the turn to the next seat. -/
theorem c2_pass_legality_witness :
    passOk passWitnessState (some "p0") = true ∧
    (gameReducer passWitnessState (.pass (some "p0"))).consecutivePasses = 1 ∧
    (gameReducer passWitnessState (.pass (some "p0"))).currentTurn = some "p1" := by
  have h := (c2_pass_legality passWitnessState (some "p0")).2 (by decide)
  refine ⟨by decide, h.1, ?_⟩
  rw [(h.2.2 (by decide)).1]
  decide

-- ─── Claim C6: session migration ────────────────────────────────────────────

theorem renameIn_of_not_mem {l : List String} {oldId : String} (newId : String)
    (h : oldId ∉ l) : renameIn oldId newId l = l := by
  induction l with
  | nil => rfl
  | cons x t ih =>
      simp only [List.mem_cons, not_or] at h
      have ht := ih h.2
      simp only [renameIn, List.map_cons] at ht ⊢
      rw [if_neg (fun e => h.1 e.symm), ht]

theorem mem_renameIn (l : List String) (oldId newId : String)
    (h : oldId ∈ l) : newId ∈ renameIn oldId newId l := by
  induction l with
  | nil => cases h
  | cons x t ih =>
      rcases List.mem_cons.mp h with h | h
      · simp [renameIn, h.symm]
      · simp only [renameIn, List.map_cons, List.mem_cons]
        exact Or.inr (by simpa [renameIn] using ih h)

/-- C6: a PLAYER_JOINED carrying a secret recorded in `sessions`, whose old
player entry exists and whose new id is fresh, performs `migratePlayer`,
which moves the hand, team membership and seat from the old id to the new id
exactly, rewrites `turnOrder` and the session entry, and changes
`currentTurn`/`roundStarter` exactly when they referenced the old id. -/
theorem c6_session_migration (s : GameState) (newId secret oldId : String)
    (nm av : Option String) (p : Player)
    (h1 : JsMap.lookup s.players newId = none)
    (h2 : JsMap.lookup s.sessions secret = some oldId)
    (h3 : JsMap.lookup s.players oldId = some p)
    (h4 : newId ∉ s.teamsA) (h5 : newId ∉ s.teamsB)
    (h6 : JsMap.lookup s.seats newId = none)
    (h7 : JsMap.lookup s.hands newId = none) :
    gameReducer s (.playerJoined ⟨newId, nm, av, some secret⟩) =
      migratePlayer s oldId newId secret ∧
    JsMap.lookup (migratePlayer s oldId newId secret).hands newId =
      JsMap.lookup s.hands oldId ∧
    JsMap.lookup (migratePlayer s oldId newId secret).hands oldId = none ∧
    getTeam (migratePlayer s oldId newId secret) newId = getTeam s oldId ∧
    JsMap.lookup (migratePlayer s oldId newId secret).seats newId =
      JsMap.lookup s.seats oldId ∧
    JsMap.lookup (migratePlayer s oldId newId secret).seats oldId = none ∧
    (migratePlayer s oldId newId secret).turnOrder =
      renameIn oldId newId s.turnOrder ∧
    ((migratePlayer s oldId newId secret).currentTurn =
      if s.currentTurn = some oldId then some newId else s.currentTurn) ∧
    ((migratePlayer s oldId newId secret).currentTurn ≠ s.currentTurn ↔
      s.currentTurn = some oldId) ∧
    ((migratePlayer s oldId newId secret).roundStarter =
      if s.roundStarter = some oldId then some newId else s.roundStarter) ∧
    ((migratePlayer s oldId newId secret).roundStarter ≠ s.roundStarter ↔
      s.roundStarter = some oldId) ∧
    JsMap.lookup (migratePlayer s oldId newId secret).sessions secret =
      some newId ∧
    JsMap.lookup (migratePlayer s oldId newId secret).players oldId = none ∧
    JsMap.lookup (migratePlayer s oldId newId secret).players newId =
      some { p with id := newId, connected := true } := by
  have hne : oldId ≠ newId := by
    intro e
    rw [e, h1] at h3
    cases h3
  have hne' : newId ≠ oldId := fun e => hne e.symm
  refine ⟨?_, ?_, ?_, ?_, ?_, ?_, ?_, ?_, ?_, ?_, ?_, ?_, ?_, ?_⟩
  · simp [gameReducer, h1, h2, h3]
  · show JsMap.lookup
      (if JsMap.hasKey s.hands oldId
       then JsMap.erase
         (JsMap.insert s.hands newId ((JsMap.lookup s.hands oldId).getD [])) oldId
       else s.hands) newId = JsMap.lookup s.hands oldId
    by_cases hh : JsMap.hasKey s.hands oldId = true
    · obtain ⟨v, hv⟩ := Option.isSome_iff_exists.mp hh
      rw [if_pos hh, JsMap.lookup_erase_ne _ hne', JsMap.lookup_insert_self, hv]
      rfl
    · rw [if_neg hh, h7]
      rw [JsMap.hasKey] at hh
      cases hl : JsMap.lookup s.hands oldId
      · rfl
      · rw [hl] at hh
        simp at hh
  · show JsMap.lookup
      (if JsMap.hasKey s.hands oldId
       then JsMap.erase
         (JsMap.insert s.hands newId ((JsMap.lookup s.hands oldId).getD [])) oldId
       else s.hands) oldId = none
    by_cases hh : JsMap.hasKey s.hands oldId = true
    · rw [if_pos hh, JsMap.lookup_erase_self]
    · rw [if_neg hh]
      rw [JsMap.hasKey] at hh
      cases hl : JsMap.lookup s.hands oldId
      · rfl
      · rw [hl] at hh
        simp at hh
  · show getTeam (migratePlayer s oldId newId secret) newId = getTeam s oldId
    have hta : (migratePlayer s oldId newId secret).teamsA =
        renameIn oldId newId s.teamsA := rfl
    have htb : (migratePlayer s oldId newId secret).teamsB =
        renameIn oldId newId s.teamsB := rfl
    unfold getTeam
    rw [hta, htb]
    by_cases ha : oldId ∈ s.teamsA
    · have hmem : newId ∈ renameIn oldId newId s.teamsA := mem_renameIn _ _ _ ha
      simp [hmem, ha]
    · rw [renameIn_of_not_mem _ ha]
      by_cases hb : oldId ∈ s.teamsB
      · have hmem : newId ∈ renameIn oldId newId s.teamsB := mem_renameIn _ _ _ hb
        simp [hmem, ha, hb, h4]
      · rw [renameIn_of_not_mem _ hb]
        simp [ha, hb, h4, h5]
  · show JsMap.lookup
      (if JsMap.hasKey s.seats oldId
       then JsMap.erase
         (JsMap.insert s.seats newId ((JsMap.lookup s.seats oldId).getD 0)) oldId
       else s.seats) newId = JsMap.lookup s.seats oldId
    by_cases hh : JsMap.hasKey s.seats oldId = true
    · obtain ⟨v, hv⟩ := Option.isSome_iff_exists.mp hh
      rw [if_pos hh, JsMap.lookup_erase_ne _ hne', JsMap.lookup_insert_self, hv]
      rfl
    · rw [if_neg hh, h6]
      rw [JsMap.hasKey] at hh
      cases hl : JsMap.lookup s.seats oldId
      · rfl
      · rw [hl] at hh
        simp at hh
  · show JsMap.lookup
      (if JsMap.hasKey s.seats oldId
       then JsMap.erase
         (JsMap.insert s.seats newId ((JsMap.lookup s.seats oldId).getD 0)) oldId
       else s.seats) oldId = none
    by_cases hh : JsMap.hasKey s.seats oldId = true
    · rw [if_pos hh, JsMap.lookup_erase_self]
    · rw [if_neg hh]
      rw [JsMap.hasKey] at hh
      cases hl : JsMap.lookup s.seats oldId
      · rfl
      · rw [hl] at hh
        simp at hh
  · rfl
  · rfl
  · show (if s.currentTurn = some oldId then some newId else s.currentTurn) ≠
        s.currentTurn ↔ s.currentTurn = some oldId
    by_cases hc : s.currentTurn = some oldId
    · simp [hc, hne']
    · simp [hc]
  · rfl
  · show (if s.roundStarter = some oldId then some newId else s.roundStarter) ≠
        s.roundStarter ↔ s.roundStarter = some oldId
    by_cases hc : s.roundStarter = some oldId
    · simp [hc, hne']
    · simp [hc]
  · show JsMap.lookup (JsMap.insert s.sessions secret newId) secret = some newId
    exact JsMap.lookup_insert_self _ _ _
  · show JsMap.lookup
      (JsMap.insert (JsMap.erase s.players oldId) newId _) oldId = none
    rw [JsMap.lookup_insert_ne _ _ hne, JsMap.lookup_erase_self]
  · show JsMap.lookup
      (JsMap.insert (JsMap.erase s.players oldId) newId
        { (JsMap.lookup s.players oldId).getD defaultPlayer with
          id := newId, connected := true }) newId =
      some { p with id := newId, connected := true }
    rw [JsMap.lookup_insert_self, h3]
    rfl

/-- A playing state with a recorded session secret for player p0. -/
def migrationState : GameState :=
  { tranqueEdgeState with sessions := [("sec", "p0")] }

/-- C6 witness: reconnecting with p0's secret under the fresh id n1 migrates
the hand, the team slot and the turn to n1. -/
theorem c6_session_migration_witness :
    (gameReducer migrationState (.playerJoined ⟨"n1", none, none, some "sec"⟩)).currentTurn = some "n1" ∧
    JsMap.lookup (migratePlayer migrationState "p0" "n1" "sec").hands "n1" =
      some [⟨"0-1", 0, 1⟩] ∧
    getTeam (migratePlayer migrationState "p0" "n1" "sec") "n1" = some .a := by
  have h := c6_session_migration migrationState "n1" "sec" "p0" none none
    ⟨"p0", "p0", none, true, true⟩ (by decide) (by decide) (by decide)
    (by decide) (by decide) (by decide) (by decide)
  refine ⟨?_, ?_, ?_⟩
  · rw [h.1]
    decide
  · rw [h.2.1]
    decide
  · rw [h.2.2.2.1]
    decide

-- ─── Claim C10: join capacity counts connected players ──────────────────────

theorem JsMap.length_insert_of_not_mem {α : Type} {m : JsMap α} {k : String}
    (v : α) (h : k ∉ JsMap.keys m) :
    (JsMap.insert m k v).length = m.length + 1 := by
  rw [JsMap.insert_of_not_mem v h, List.length_append]
  rfl

/-- The state built by the new-player branch of PLAYER_JOINED, before the
lobby team auto-assignment. -/
def joinBase (s : GameState) (id : String) (nm av : Option String)
    (sec : Option String) : GameState :=
  let name :=
    match nm with
    | some n => if n = "" then "Player " ++ toString (s.players.length + 1) else n
    | none => "Player " ++ toString (s.players.length + 1)
  { s with
    players := JsMap.insert s.players id ⟨id, name, av, s.players.length = 0, true⟩
    sessions :=
      match sec with
      | some q => JsMap.insert s.sessions q id
      | none => s.sessions }

/-- `assignSeatAndTeam` appends the newcomer to exactly one roster. -/
theorem assignSeatAndTeam_cases (s : GameState) (pid : String) :
    assignSeatAndTeam s pid = { s with teamsA := s.teamsA ++ [pid] } ∨
    assignSeatAndTeam s pid = { s with teamsB := s.teamsB ++ [pid] } := by
  simp only [assignSeatAndTeam]
  split
  · exact Or.inl rfl
  · exact Or.inr rfl

/-- `assignSeatAndTeam` only appends the newcomer to one roster. -/
theorem assignSeatAndTeam_preserves (s : GameState) (pid : String) :
    (assignSeatAndTeam s pid).players = s.players ∧
    (assignSeatAndTeam s pid).hands = s.hands ∧
    (assignSeatAndTeam s pid).seats = s.seats ∧
    (assignSeatAndTeam s pid).bots = s.bots ∧
    (∀ x ∈ s.teamsA, x ∈ (assignSeatAndTeam s pid).teamsA) ∧
    (∀ x ∈ s.teamsB, x ∈ (assignSeatAndTeam s pid).teamsB) ∧
    pid ∈ (assignSeatAndTeam s pid).teamsA ++ (assignSeatAndTeam s pid).teamsB := by
  rcases assignSeatAndTeam_cases s pid with h | h <;> rw [h] <;>
    exact ⟨rfl, rfl, rfl, rfl, fun x hx => by simp [hx], fun x hx => by simp [hx],
      by simp⟩

/-- C10: a brand-new human join (no entry for the id, no session hit) is
rejected exactly when at least 4 players are marked connected — not when the
players map has 4 entries; when admitted, the players map grows by one entry,
hands, seats, bots and existing team slots are all preserved, and in the
lobby the newcomer additionally goes through team auto-assignment. -/
theorem c10_join_capacity (s : GameState) (id : String) (nm av sec : Option String)
    (h1 : JsMap.lookup s.players id = none)
    (h2 : ∀ q oldId, sec = some q → JsMap.lookup s.sessions q = some oldId →
      JsMap.lookup s.players oldId = none) :
    (connectedCount s ≥ 4 → gameReducer s (.playerJoined ⟨id, nm, av, sec⟩) = s) ∧
    (connectedCount s < 4 →
      (s.phase = Phase.lobby →
        gameReducer s (.playerJoined ⟨id, nm, av, sec⟩) =
          assignSeatAndTeam (joinBase s id nm av sec) id) ∧
      (s.phase ≠ Phase.lobby →
        gameReducer s (.playerJoined ⟨id, nm, av, sec⟩) = joinBase s id nm av sec) ∧
      (gameReducer s (.playerJoined ⟨id, nm, av, sec⟩)).players.length =
        s.players.length + 1 ∧
      Option.isSome
        (JsMap.lookup (gameReducer s (.playerJoined ⟨id, nm, av, sec⟩)).players id) = true ∧
      (gameReducer s (.playerJoined ⟨id, nm, av, sec⟩)).hands = s.hands ∧
      (gameReducer s (.playerJoined ⟨id, nm, av, sec⟩)).seats = s.seats ∧
      (gameReducer s (.playerJoined ⟨id, nm, av, sec⟩)).bots = s.bots ∧
      (∀ x ∈ s.teamsA, x ∈ (gameReducer s (.playerJoined ⟨id, nm, av, sec⟩)).teamsA) ∧
      (∀ x ∈ s.teamsB, x ∈ (gameReducer s (.playerJoined ⟨id, nm, av, sec⟩)).teamsB)) := by
  have hmem : id ∉ JsMap.keys s.players := (JsMap.lookup_eq_none_iff _ _).mp h1
  constructor
  · intro hge
    cases sec with
    | none => simp [gameReducer, h1, TOTAL_PLAYERS, hge]
    | some q =>
        cases hq : JsMap.lookup s.sessions q with
        | none => simp [gameReducer, h1, hq, TOTAL_PLAYERS, hge]
        | some oldId =>
            have hold := h2 q oldId rfl hq
            simp [gameReducer, h1, hq, hold, TOTAL_PLAYERS, hge]
  · intro hlt
    have hnge : ¬ connectedCount s ≥ TOTAL_PLAYERS := by
      rw [TOTAL_PLAYERS]
      omega
    have hred : gameReducer s (.playerJoined ⟨id, nm, av, sec⟩) =
        (if s.phase = Phase.lobby
         then assignSeatAndTeam (joinBase s id nm av sec) id
         else joinBase s id nm av sec) := by
      cases sec with
      | none => simp [gameReducer, h1, hnge, joinBase]
      | some q =>
          cases hq : JsMap.lookup s.sessions q with
          | none => simp [gameReducer, h1, hq, hnge, joinBase]
          | some oldId =>
              have hold := h2 q oldId rfl hq
              simp [gameReducer, h1, hq, hold, hnge, joinBase]
    obtain ⟨ap, ah, asea, ab, ata, atb, -⟩ :=
      assignSeatAndTeam_preserves (joinBase s id nm av sec) id
    by_cases hpl : s.phase = Phase.lobby
    · rw [hred, if_pos hpl]
      refine ⟨fun _ => rfl, fun hc => absurd hpl hc, ?_, ?_, ?_, ?_, ?_, ?_, ?_⟩
      · rw [ap]
        exact JsMap.length_insert_of_not_mem _ hmem
      · rw [ap]
        show Option.isSome (JsMap.lookup (JsMap.insert s.players id _) id) = true
        rw [JsMap.lookup_insert_self]
        rfl
      · rw [ah]
        rfl
      · rw [asea]
        rfl
      · rw [ab]
        rfl
      · exact fun x hx => ata x hx
      · exact fun x hx => atb x hx
    · rw [hred, if_neg hpl]
      refine ⟨fun hc => absurd hc hpl, fun _ => rfl, ?_, ?_, rfl, rfl, rfl,
        fun x hx => hx, fun x hx => hx⟩
      · exact JsMap.length_insert_of_not_mem _ hmem
      · show Option.isSome (JsMap.lookup (JsMap.insert s.players id _) id) = true
        rw [JsMap.lookup_insert_self]
        rfl

/-- A lobby state with 4 recorded players of which one is disconnected. -/
def fourRecordedOneDisconnected : GameState :=
  { fullTeamsState with
    players := [("h1", ⟨"h1", "h1", none, true, true⟩),
                ("h2", ⟨"h2", "h2", none, false, true⟩),
                ("h3", ⟨"h3", "h3", none, false, true⟩),
                ("h4", ⟨"h4", "h4", none, false, false⟩)] }

/-- C10 witness: with 4 recorded players and one disconnected, a fifth human
is admitted, the players map grows to 5 entries, and the disconnected
player's team slot survives. -/
theorem c10_join_capacity_witness :
    connectedCount fourRecordedOneDisconnected = 3 ∧
    fourRecordedOneDisconnected.players.length = 4 ∧
    (gameReducer fourRecordedOneDisconnected
      (.playerJoined ⟨"h5", some "h5", none, none⟩)).players.length = 5 ∧
    ("h4" ∈ (gameReducer fourRecordedOneDisconnected
      (.playerJoined ⟨"h5", some "h5", none, none⟩)).teamsB) ∧
    (gameReducer fourRecordedOneDisconnected
      (.playerJoined ⟨"h5", some "h5", none, none⟩)).hands =
      fourRecordedOneDisconnected.hands := by
  have h := (c10_join_capacity fourRecordedOneDisconnected "h5" (some "h5") none none
    (by decide) (fun q oldId hq => by cases hq)).2 (by decide)
  refine ⟨by decide, by decide, ?_, ?_, h.2.2.2.2.1⟩
  · rw [h.2.2.1]
    decide
  · exact h.2.2.2.2.2.2.2.2 "h4" (by decide)

-- ─── Claim C1: PLAY_TILE legality ───────────────────────────────────────────

/-- The state built by a successful PLAY_TILE before the domino check: tile
moved from the hand to the chosen end of the board, ends updated, passes
reset. -/
def playTileMid (s : GameState) (pid : String) (hand : List DominoTile)
    (i : Nat) (side : Side) : GameState :=
  let tile := hand[i]?.getD defaultTile
  let step : BoardTile × BoardEnds :=
    match s.boardEnds with
    | none => (⟨tile, false⟩, ⟨tile.left, tile.right⟩)
    | some ends =>
        match side with
        | .left =>
            if tile.right = ends.left then (⟨tile, false⟩, { ends with left := tile.left })
            else (⟨tile, true⟩, { ends with left := tile.right })
        | .right =>
            if tile.left = ends.right then (⟨tile, false⟩, { ends with right := tile.right })
            else (⟨tile, true⟩, { ends with right := tile.left })
  { s with
    hands := JsMap.insert s.hands pid (hand.eraseIdx i)
    board :=
      match side with
      | .left => step.1 :: s.board
      | .right => s.board ++ [step.1]
    boardEnds := some step.2
    centerIndex :=
      if side = Side.left ∧ s.board.length > 0 then s.centerIndex + 1
      else s.centerIndex
    consecutivePasses := 0 }

/-- C1: PLAY_TILE succeeds exactly under `playTileOk` (phase playing, acting
id is the current turn, tile in hand, chosen end playable, and on an empty
round-1 board only the double-six); on failure the state is returned
unchanged, on success the tile moves from the hand onto the chosen end, the
pass counter resets, and either the round resolves as a domino (emptied
hand) or the turn advances.  The hypothesis ties `boardEnds = none` to an
empty board, which holds in every dealt state. -/
theorem c1_play_tile_legality (s : GameState) (actingId : Option String)
    (tileId : String) (side : Side)
    (hbe : s.boardEnds = none ↔ s.board = []) :
    (playTileOk s actingId tileId side = false →
      gameReducer s (.playTile tileId side actingId) = s) ∧
    (∀ pid hand i,
      actingId = some pid →
      JsMap.lookup s.hands pid = some hand →
      hand.findIdx? (fun t => t.id = tileId) = some i →
      playTileOk s actingId tileId side = true →
      gameReducer s (.playTile tileId side actingId) =
        (if hand.eraseIdx i = []
         then resolveRoundEnd (playTileMid s pid hand i side) .domino (some pid)
         else { playTileMid s pid hand i side with
                currentTurn := some (advanceTurn s) }) ∧
      JsMap.lookup (playTileMid s pid hand i side).hands pid =
        some (hand.eraseIdx i) ∧
      (playTileMid s pid hand i side).consecutivePasses = 0 ∧
      (hand.eraseIdx i = [] →
        (gameReducer s (.playTile tileId side actingId)).lastRoundResult.map
          (fun r => r.reason) = some Reason.domino ∧
        (gameReducer s (.playTile tileId side actingId)).phase ≠ Phase.playing) ∧
      (hand.eraseIdx i ≠ [] →
        (gameReducer s (.playTile tileId side actingId)).currentTurn =
          some (advanceTurn s) ∧
        (gameReducer s (.playTile tileId side actingId)).phase = Phase.playing)) := by
  constructor
  · intro hf
    by_cases hp : s.phase = Phase.playing
    · cases actingId with
      | none => simp [gameReducer, hp]
      | some pid =>
        by_cases hct : s.currentTurn = some pid
        · cases hl : JsMap.lookup s.hands pid with
          | none => simp [gameReducer, hp, hct, hl]
          | some hand =>
            cases hfi : hand.findIdx? (fun t => t.id = tileId) with
            | none => simp [gameReducer, hp, hct, hl, hfi]
            | some i =>
              by_cases hplay :
                  (canPlayTile (hand[i]?.getD defaultTile) s.boardEnds).atSide
                    side = true
              · cases hbe0 : s.boardEnds with
                | none =>
                    have hb : s.board = [] := hbe.mp hbe0
                    by_cases hr : s.roundNumber = 1
                    · by_cases hid : (hand[i]?.getD defaultTile).id = "6-6"
                      · exfalso
                        have hok : playTileOk s (some pid) tileId side = true := by
                          simp [playTileOk, hp, hct, hl, hfi, hplay, hb, hr, hid]
                        rw [hok] at hf
                        cases hf
                      · simp [gameReducer, hp, hct, hl, hfi, hplay, hbe0, hr, hid]
                    · exfalso
                      have hok : playTileOk s (some pid) tileId side = true := by
                        simp [playTileOk, hp, hct, hl, hfi, hplay, hb, hr]
                      rw [hok] at hf
                      cases hf
                | some ends =>
                    exfalso
                    have hbne : ¬ s.board = [] := fun hb => by
                      rw [hbe.mpr hb] at hbe0
                      cases hbe0
                    have hok : playTileOk s (some pid) tileId side = true := by
                      simp [playTileOk, hp, hct, hl, hfi, hplay, hbne]
                    rw [hok] at hf
                    cases hf
              · have hplay' :
                    (canPlayTile (hand[i]?.getD defaultTile) s.boardEnds).atSide
                      side = false := by
                  cases hpv : (canPlayTile (hand[i]?.getD defaultTile)
                      s.boardEnds).atSide side
                  · rfl
                  · exact absurd hpv hplay
                simp [gameReducer, hp, hct, hl, hfi, hplay']
        · simp [gameReducer, hp, hct]
    · simp [gameReducer, hp]
  · intro pid hand i hpid hl hfi ht
    subst hpid
    have hp : s.phase = Phase.playing := by
      by_contra hp
      simp [playTileOk, hp] at ht
    have hct : s.currentTurn = some pid := by
      by_contra hct
      simp [playTileOk, hp, hct] at ht
    have hrest := ht
    simp only [playTileOk, hp, hct, hl, hfi, decide_True, Bool.true_and,
      decide_eq_true_eq] at hrest
    rw [Bool.and_eq_true] at hrest
    obtain ⟨hplay, hmula⟩ := hrest
    have hred : gameReducer s (.playTile tileId side (some pid)) =
        (if hand.eraseIdx i = []
         then resolveRoundEnd (playTileMid s pid hand i side) .domino (some pid)
         else { playTileMid s pid hand i side with
                currentTurn := some (advanceTurn s) }) := by
      have hmain : gameReducer s (.playTile tileId side (some pid)) =
          (if (hand.eraseIdx i).length = 0
           then resolveRoundEnd (playTileMid s pid hand i side) .domino (some pid)
           else { playTileMid s pid hand i side with
                  currentTurn := some (advanceTurn (playTileMid s pid hand i side)) }) := by
        cases hbe0 : s.boardEnds with
        | none =>
            rw [hbe0] at hplay
            have hb : s.board = [] := hbe.mp hbe0
            have hguard : ¬ (s.roundNumber = 1 ∧
                (hand[i]?.getD defaultTile).id ≠ "6-6") := by
              rintro ⟨hr, hid⟩
              simp only [hb, hr, decide_True, Bool.and_true, Bool.true_and,
                Bool.not_true, Bool.false_or, decide_eq_true_eq] at hmula
              exact hid hmula
            simp [gameReducer, hp, hct, hl, hfi, hplay, hbe0, hguard,
              playTileMid, hb]
        | some ends =>
            rw [hbe0] at hplay
            cases side with
            | left =>
                by_cases hfit : (hand[i]?.getD defaultTile).right = ends.left
                · simp [gameReducer, hp, hct, hl, hfi, hplay, hbe0, hfit, playTileMid]
                · simp [gameReducer, hp, hct, hl, hfi, hplay, hbe0, hfit, playTileMid]
            | right =>
                by_cases hfit : (hand[i]?.getD defaultTile).left = ends.right
                · simp [gameReducer, hp, hct, hl, hfi, hplay, hbe0, hfit, playTileMid]
                · simp [gameReducer, hp, hct, hl, hfi, hplay, hbe0, hfit, playTileMid]
      rw [hmain]
      by_cases hemp : hand.eraseIdx i = []
      · rw [if_pos (by rw [hemp]; rfl), if_pos hemp]
      · rw [if_neg (by
            intro hlen
            exact hemp (List.length_eq_zero.mp hlen)), if_neg hemp]
        rfl
    refine ⟨hred, ?_, rfl, ?_, ?_⟩
    · show JsMap.lookup (JsMap.insert s.hands pid (hand.eraseIdx i)) pid =
        some (hand.eraseIdx i)
      exact JsMap.lookup_insert_self _ _ _
    · intro hemp
      rw [hred, if_pos hemp]
      obtain ⟨hres, -, -, -, -, -, -, -, -, -, -, -, -, hph, -⟩ :=
        resolveRoundEnd_spec (playTileMid s pid hand i side) .domino (some pid)
      obtain ⟨-, hnp, -⟩ := phase_ite_elim hph
      refine ⟨by rw [hres]; rfl, hnp⟩
    · intro hemp
      rw [hred, if_neg hemp]
      exact ⟨rfl, hp⟩

/-- A playing state where the current player holds a playable tile. -/
def playWitnessState : GameState :=
  { tranqueEdgeState with
    hands := [("p0", [⟨"0-1", 0, 1⟩, ⟨"1-6", 6, 1⟩]), ("p1", [⟨"0-2", 0, 2⟩]),
              ("p2", [⟨"0-0", 0, 0⟩]), ("p3", [⟨"0-3", 0, 3⟩])]
    consecutivePasses := 2
    scoresA := 0 }

/-- C1 witness: a legal play moves the tile onto the chosen end, resets the
pass counter and advances the turn; an illegal play (tile not matching the
open end) leaves the state untouched. -/
theorem c1_play_tile_legality_witness :
    playTileOk playWitnessState (some "p0") "1-6" Side.left = true ∧
    (gameReducer playWitnessState
      (.playTile "1-6" Side.left (some "p0"))).currentTurn = some "p1" ∧
    JsMap.lookup (gameReducer playWitnessState
      (.playTile "1-6" Side.left (some "p0"))).hands "p0" =
      some [⟨"0-1", 0, 1⟩] ∧
    (gameReducer playWitnessState
      (.playTile "1-6" Side.left (some "p0"))).board.length = 2 ∧
    (gameReducer playWitnessState
      (.playTile "1-6" Side.left (some "p0"))).consecutivePasses = 0 ∧
    playTileOk tranqueEdgeState (some "p0") "0-1" Side.left = false ∧
    gameReducer tranqueEdgeState (.playTile "0-1" Side.left (some "p0")) =
      tranqueEdgeState := by
  have h := c1_play_tile_legality playWitnessState (some "p0") "1-6" Side.left
    (by decide)
  have hs := h.2 "p0" [⟨"0-1", 0, 1⟩, ⟨"1-6", 6, 1⟩] 1 rfl (by decide)
    (by decide) (by decide)
  have hr := hs.1
  refine ⟨by decide, ?_, ?_, ?_, ?_, by decide, ?_⟩
  · rw [(hs.2.2.2.2 (by decide)).1]
    decide
  · rw [hr]
    decide
  · rw [hr]
    decide
  · rw [hr]
    decide
  · exact (c1_play_tile_legality tranqueEdgeState (some "p0") "0-1" Side.left
      (by decide)).1 (by decide)

-- ─── fillBotsAndAssignSeats machinery (claims C8, C9, C4) ───────────────────

/-- The bot-stripping fold rewrites to a single filter. -/
theorem foldl_filter_eq (keys : List String) (l : List String) :
    keys.foldl (fun ts botId => ts.filter (fun id => id ≠ botId)) l =
      l.filter (fun id => ¬ keys.contains id) := by
  induction keys generalizing l with
  | nil => simp
  | cons k ks ih =>
      rw [List.foldl_cons, ih, List.filter_filter]
      apply List.filter_congr
      intro x _
      by_cases hx : x = k <;> simp [hx, List.contains_cons]

/-- Four fresh inserts give a literal 4-entry seats map. -/
theorem seats4 (k0 k1 k2 k3 : String)
    (h01 : k0 ≠ k1) (h02 : k0 ≠ k2) (h03 : k0 ≠ k3)
    (h12 : k1 ≠ k2) (h13 : k1 ≠ k3) (h23 : k2 ≠ k3) :
    JsMap.insert (JsMap.insert (JsMap.insert (JsMap.insert ([] : JsMap Nat) k0 0)
      k1 1) k2 2) k3 3 = [(k0, 0), (k1, 1), (k2, 2), (k3, 3)] := by
  have e0 : JsMap.insert ([] : JsMap Nat) k0 0 = [(k0, 0)] :=
    JsMap.insert_of_not_mem _ (by simp [JsMap.keys])
  rw [e0]
  have e1 : JsMap.insert [(k0, 0)] k1 1 = [(k0, 0), (k1, 1)] :=
    JsMap.insert_of_not_mem _ (by
      simp [JsMap.keys]
      exact fun e => h01 e.symm)
  rw [e1]
  have e2 : JsMap.insert [(k0, 0), (k1, 1)] k2 2 = [(k0, 0), (k1, 1), (k2, 2)] :=
    JsMap.insert_of_not_mem _ (by
      simp [JsMap.keys]
      exact ⟨fun e => h02 e.symm, fun e => h12 e.symm⟩)
  rw [e2]
  exact JsMap.insert_of_not_mem _ (by
    simp [JsMap.keys]
    exact ⟨fun e => h03 e.symm, fun e => h13 e.symm, fun e => h23 e.symm⟩)

/-- Post-condition of `fillBotsAndAssignSeats`: the four seat holders, their
seats, rosters with those holders first, and bot hygiene. -/
def FillPost (s s' : GameState) (a0 b0 a1 b1 : String) : Prop :=
  s'.seats = [(a0, 0), (b0, 1), (a1, 2), (b1, 3)] ∧
  [a0, b0, a1, b1].Nodup ∧
  s'.teamsA.get? 0 = some a0 ∧ s'.teamsB.get? 0 = some b0 ∧
  s'.teamsA.get? 1 = some a1 ∧ s'.teamsB.get? 1 = some b1 ∧
  (s'.teamsA ++ s'.teamsB).Nodup ∧
  (∀ id ∈ s'.teamsA ++ s'.teamsB,
    id ∈ JsMap.keys s'.bots ∨
      (id ∈ s.teamsA ++ s.teamsB ∧ id ∉ JsMap.keys s.bots)) ∧
  (∀ k ∈ JsMap.keys s'.bots, isBotId k = true) ∧
  (JsMap.keys s'.bots).Nodup

theorem seats4_of_nodup (k0 k1 k2 k3 : String) (h : [k0, k1, k2, k3].Nodup) :
    JsMap.insert (JsMap.insert (JsMap.insert (JsMap.insert ([] : JsMap Nat) k0 0)
      k1 1) k2 2) k3 3 = [(k0, 0), (k1, 1), (k2, 2), (k3, 3)] := by
  simp only [List.nodup_cons, List.mem_cons, List.mem_singleton,
    List.not_mem_nil, not_or, List.nodup_nil, and_true, or_false] at h
  exact seats4 k0 k1 k2 k3 h.1.1 h.1.2.1 h.1.2.2 h.2.1.1 h.2.1.2 h.2.2.1

theorem not_add_two_lt_two (n : Nat) : ¬ (n + 1 + 1 < 2) := by omega

theorem keys_map_fst {α : Type} (m : JsMap α) (f : String × α → String × α)
    (hf : ∀ p, (f p).1 = p.1) : JsMap.keys (m.map f) = JsMap.keys m := by
  induction m with
  | nil => rfl
  | cons p t ih =>
      simp only [JsMap.keys, List.map_cons] at ih ⊢
      rw [hf p, ih]

/-- The final bot-seat-update pass of `fillBotsAndAssignSeats` keeps keys. -/
theorem keys_seatUpdate (m : JsMap Bot) (seats : JsMap Nat) :
    JsMap.keys (m.map (fun p =>
      match JsMap.lookup seats p.1 with
      | some n => (p.1, { p.2 with seat := (n : Int) })
      | none => p)) = JsMap.keys m := by
  apply keys_map_fst
  intro p
  cases JsMap.lookup seats p.1 <;> rfl

/-- Characterization of the roster/bot effect of `fillBotsAndAssignSeats`:
each team is its bot-stripped roster extended by freshly created bot ids,
every created id has the bot prefix, and both teams end with ≥ 2 members. -/
theorem fill_teams_char (s : GameState) :
    ∃ cA cB : List String,
      (∀ k ∈ cA ++ cB, isBotId k = true) ∧
      (cA ++ cB).Nodup ∧
      (fillBotsAndAssignSeats s).teamsA =
        s.teamsA.filter (fun id => ¬ (JsMap.keys s.bots).contains id) ++ cA ∧
      (fillBotsAndAssignSeats s).teamsB =
        s.teamsB.filter (fun id => ¬ (JsMap.keys s.bots).contains id) ++ cB ∧
      JsMap.keys (fillBotsAndAssignSeats s).bots = cA ++ cB ∧
      2 ≤ (fillBotsAndAssignSeats s).teamsA.length ∧
      2 ≤ (fillBotsAndAssignSeats s).teamsB.length := by
  unfold fillBotsAndAssignSeats
  rw [foldl_filter_eq, foldl_filter_eq]
  rcases hA : s.teamsA.filter (fun id => ¬ (JsMap.keys s.bots).contains id) with
    _ | ⟨a0, _ | ⟨a1, ar⟩⟩ <;>
  rcases hB : s.teamsB.filter (fun id => ¬ (JsMap.keys s.bots).contains id) with
    _ | ⟨b0, _ | ⟨b1, br⟩⟩
  · refine ⟨["bot_" ++ toString 0, "bot_" ++ toString 1],
      ["bot_" ++ toString 2, "bot_" ++ toString 3], by decide, by decide,
      ?_, ?_, ?_, ?_, ?_⟩
    case refine_3 =>
      dsimp only
      rw [keys_seatUpdate]
      simp +decide [fillTeam, fillOneBot, skipUsedNames, JsMap.values,
        JsMap.insert, JsMap.hasKey, JsMap.lookup, botName, BOT_NAMES,
        PLAYERS_PER_TEAM, JsMap.keys, not_add_two_lt_two]
    all_goals
      simp +decide [fillTeam, fillOneBot, skipUsedNames, JsMap.values,
        JsMap.insert, JsMap.hasKey, JsMap.lookup, botName, BOT_NAMES,
        PLAYERS_PER_TEAM, not_add_two_lt_two]
  · refine ⟨["bot_" ++ toString 0, "bot_" ++ toString 1],
      ["bot_" ++ toString 2], by decide, by decide, ?_, ?_, ?_, ?_, ?_⟩
    case refine_3 =>
      dsimp only
      rw [keys_seatUpdate]
      simp +decide [fillTeam, fillOneBot, skipUsedNames, JsMap.values,
        JsMap.insert, JsMap.hasKey, JsMap.lookup, botName, BOT_NAMES,
        PLAYERS_PER_TEAM, JsMap.keys, not_add_two_lt_two]
    all_goals
      simp +decide [fillTeam, fillOneBot, skipUsedNames, JsMap.values,
        JsMap.insert, JsMap.hasKey, JsMap.lookup, botName, BOT_NAMES,
        PLAYERS_PER_TEAM, not_add_two_lt_two]
  · refine ⟨["bot_" ++ toString 0, "bot_" ++ toString 1], [],
      by decide, by decide, ?_, ?_, ?_, ?_, ?_⟩
    case refine_3 =>
      dsimp only
      rw [keys_seatUpdate]
      simp +decide [fillTeam, fillOneBot, skipUsedNames, JsMap.values,
        JsMap.insert, JsMap.hasKey, JsMap.lookup, botName, BOT_NAMES,
        PLAYERS_PER_TEAM, JsMap.keys, not_add_two_lt_two]
    all_goals
      simp +decide [fillTeam, fillOneBot, skipUsedNames, JsMap.values,
        JsMap.insert, JsMap.hasKey, JsMap.lookup, botName, BOT_NAMES,
        PLAYERS_PER_TEAM, not_add_two_lt_two]
  · refine ⟨["bot_" ++ toString 0],
      ["bot_" ++ toString 1, "bot_" ++ toString 2], by decide, by decide,
      ?_, ?_, ?_, ?_, ?_⟩
    case refine_3 =>
      dsimp only
      rw [keys_seatUpdate]
      simp +decide [fillTeam, fillOneBot, skipUsedNames, JsMap.values,
        JsMap.insert, JsMap.hasKey, JsMap.lookup, botName, BOT_NAMES,
        PLAYERS_PER_TEAM, JsMap.keys, not_add_two_lt_two]
    all_goals
      simp +decide [fillTeam, fillOneBot, skipUsedNames, JsMap.values,
        JsMap.insert, JsMap.hasKey, JsMap.lookup, botName, BOT_NAMES,
        PLAYERS_PER_TEAM, not_add_two_lt_two]
  · refine ⟨["bot_" ++ toString 0], ["bot_" ++ toString 1],
      by decide, by decide, ?_, ?_, ?_, ?_, ?_⟩
    case refine_3 =>
      dsimp only
      rw [keys_seatUpdate]
      simp +decide [fillTeam, fillOneBot, skipUsedNames, JsMap.values,
        JsMap.insert, JsMap.hasKey, JsMap.lookup, botName, BOT_NAMES,
        PLAYERS_PER_TEAM, JsMap.keys, not_add_two_lt_two]
    all_goals
      simp +decide [fillTeam, fillOneBot, skipUsedNames, JsMap.values,
        JsMap.insert, JsMap.hasKey, JsMap.lookup, botName, BOT_NAMES,
        PLAYERS_PER_TEAM, not_add_two_lt_two]
  · refine ⟨["bot_" ++ toString 0], [], by decide, by decide,
      ?_, ?_, ?_, ?_, ?_⟩
    case refine_3 =>
      dsimp only
      rw [keys_seatUpdate]
      simp +decide [fillTeam, fillOneBot, skipUsedNames, JsMap.values,
        JsMap.insert, JsMap.hasKey, JsMap.lookup, botName, BOT_NAMES,
        PLAYERS_PER_TEAM, JsMap.keys, not_add_two_lt_two]
    all_goals
      simp +decide [fillTeam, fillOneBot, skipUsedNames, JsMap.values,
        JsMap.insert, JsMap.hasKey, JsMap.lookup, botName, BOT_NAMES,
        PLAYERS_PER_TEAM, not_add_two_lt_two]
  · refine ⟨[], ["bot_" ++ toString 0, "bot_" ++ toString 1],
      by decide, by decide, ?_, ?_, ?_, ?_, ?_⟩
    case refine_3 =>
      dsimp only
      rw [keys_seatUpdate]
      simp +decide [fillTeam, fillOneBot, skipUsedNames, JsMap.values,
        JsMap.insert, JsMap.hasKey, JsMap.lookup, botName, BOT_NAMES,
        PLAYERS_PER_TEAM, JsMap.keys, not_add_two_lt_two]
    all_goals
      simp +decide [fillTeam, fillOneBot, skipUsedNames, JsMap.values,
        JsMap.insert, JsMap.hasKey, JsMap.lookup, botName, BOT_NAMES,
        PLAYERS_PER_TEAM, not_add_two_lt_two]
  · refine ⟨[], ["bot_" ++ toString 0], by decide, by decide,
      ?_, ?_, ?_, ?_, ?_⟩
    case refine_3 =>
      dsimp only
      rw [keys_seatUpdate]
      simp +decide [fillTeam, fillOneBot, skipUsedNames, JsMap.values,
        JsMap.insert, JsMap.hasKey, JsMap.lookup, botName, BOT_NAMES,
        PLAYERS_PER_TEAM, JsMap.keys, not_add_two_lt_two]
    all_goals
      simp +decide [fillTeam, fillOneBot, skipUsedNames, JsMap.values,
        JsMap.insert, JsMap.hasKey, JsMap.lookup, botName, BOT_NAMES,
        PLAYERS_PER_TEAM, not_add_two_lt_two]
  · refine ⟨[], [], by decide, by decide, ?_, ?_, ?_, ?_, ?_⟩
    case refine_3 =>
      dsimp only
      rw [keys_seatUpdate]
      simp +decide [fillTeam, fillOneBot, skipUsedNames, JsMap.values,
        JsMap.insert, JsMap.hasKey, JsMap.lookup, botName, BOT_NAMES,
        PLAYERS_PER_TEAM, JsMap.keys, not_add_two_lt_two]
    all_goals
      simp +decide [fillTeam, fillOneBot, skipUsedNames, JsMap.values,
        JsMap.insert, JsMap.hasKey, JsMap.lookup, botName, BOT_NAMES,
        PLAYERS_PER_TEAM, not_add_two_lt_two]

theorem nodup4 {k0 k1 k2 k3 : String} (h01 : k0 ≠ k1) (h02 : k0 ≠ k2)
    (h03 : k0 ≠ k3) (h12 : k1 ≠ k2) (h13 : k1 ≠ k3) (h23 : k2 ≠ k3) :
    [k0, k1, k2, k3].Nodup := by
  simp [h01, h02, h03, h12, h13, h23]

theorem fillBots_spec (s : GameState)
    (hnd : (s.teamsA ++ s.teamsB).Nodup)
    (hform : ∀ id ∈ s.teamsA ++ s.teamsB,
      isBotId id = true → id ∈ JsMap.keys s.bots) :
    ∃ a0 b0 a1 b1, FillPost s (fillBotsAndAssignSeats s) a0 b0 a1 b1 := by
  obtain ⟨cA, cB, hcform, hcnd, hTA, hTB, hkeys, hlenA, hlenB⟩ := fill_teams_char s
  have hsurv : ∀ id ∈ s.teamsA.filter (fun id => ¬ (JsMap.keys s.bots).contains id) ++
      s.teamsB.filter (fun id => ¬ (JsMap.keys s.bots).contains id),
      id ∈ s.teamsA ++ s.teamsB ∧ id ∉ JsMap.keys s.bots ∧ isBotId id = false := by
    intro id hid
    have hmm : id ∈ s.teamsA ++ s.teamsB ∧
        ¬ (JsMap.keys s.bots).contains id = true := by
      rcases List.mem_append.mp hid with h | h
      · obtain ⟨h1, h2⟩ := List.mem_filter.mp h
        exact ⟨List.mem_append.mpr (Or.inl h1), by simpa using h2⟩
      · obtain ⟨h1, h2⟩ := List.mem_filter.mp h
        exact ⟨List.mem_append.mpr (Or.inr h1), by simpa using h2⟩
    have hnk : id ∉ JsMap.keys s.bots := fun hk =>
      hmm.2 (List.elem_eq_true_of_mem hk)
    refine ⟨hmm.1, hnk, ?_⟩
    cases hst : isBotId id with
    | false => rfl
    | true => exact absurd (hform id hmm.1 hst) hnk
  have hsurvnd : (s.teamsA.filter (fun id => ¬ (JsMap.keys s.bots).contains id) ++
      s.teamsB.filter (fun id => ¬ (JsMap.keys s.bots).contains id)).Nodup :=
    hnd.sublist ((List.filter_sublist _).append (List.filter_sublist _))
  -- the post-fill roster is nodup
  set A := s.teamsA.filter (fun id => ¬ (JsMap.keys s.bots).contains id) with hAdef
  set B := s.teamsB.filter (fun id => ¬ (JsMap.keys s.bots).contains id) with hBdef
  have hdisj : (A ++ B).Disjoint (cA ++ cB) := by
    intro x hx hy
    have h1 := (hsurv x hx).2.2
    have h2 := hcform x hy
    rw [h1] at h2
    cases h2
  have hswap : (cA ++ (B ++ cB)).Perm (B ++ (cA ++ cB)) := by
    have h1 : cA ++ (B ++ cB) = (cA ++ B) ++ cB := by rw [List.append_assoc]
    have h2 : B ++ (cA ++ cB) = (B ++ cA) ++ cB := by rw [List.append_assoc]
    rw [h1, h2]
    exact List.Perm.append_right cB List.perm_append_comm
  have hperm : ((A ++ cA) ++ (B ++ cB)).Perm ((A ++ B) ++ (cA ++ cB)) := by
    have h1 : (A ++ cA) ++ (B ++ cB) = A ++ (cA ++ (B ++ cB)) := by
      rw [List.append_assoc]
    have h2 : (A ++ B) ++ (cA ++ cB) = A ++ (B ++ (cA ++ cB)) := by
      rw [List.append_assoc]
    rw [h1, h2]
    exact List.Perm.append_left A hswap
  have hnd2 : ((A ++ B) ++ (cA ++ cB)).Nodup :=
    List.Nodup.append hsurvnd hcnd hdisj
  have hndpost : ((A ++ cA) ++ (B ++ cB)).Nodup := hperm.nodup_iff.mpr hnd2
  -- extract the four seat holders
  have hlenA' : 2 ≤ (A ++ cA).length := by rw [← hTA]; exact hlenA
  have hlenB' : 2 ≤ (B ++ cB).length := by rw [← hTB]; exact hlenB
  have h0A : 0 < (A ++ cA).length := by omega
  have h1A : 1 < (A ++ cA).length := by omega
  have h0B : 0 < (B ++ cB).length := by omega
  have h1B : 1 < (B ++ cB).length := by omega
  have hndA : (A ++ cA).Nodup := (List.nodup_append.mp hndpost).1
  have hndB : (B ++ cB).Nodup := (List.nodup_append.mp hndpost).2.1
  have hdisjAB : (A ++ cA).Disjoint (B ++ cB) := (List.nodup_append.mp hndpost).2.2
  refine ⟨(A ++ cA).get ⟨0, h0A⟩, (B ++ cB).get ⟨0, h0B⟩,
    (A ++ cA).get ⟨1, h1A⟩, (B ++ cB).get ⟨1, h1B⟩, ?_⟩
  have ha0 : (A ++ cA).get? 0 = some ((A ++ cA).get ⟨0, h0A⟩) := List.get?_eq_get h0A
  have ha1 : (A ++ cA).get? 1 = some ((A ++ cA).get ⟨1, h1A⟩) := List.get?_eq_get h1A
  have hb0 : (B ++ cB).get? 0 = some ((B ++ cB).get ⟨0, h0B⟩) := List.get?_eq_get h0B
  have hb1 : (B ++ cB).get? 1 = some ((B ++ cB).get ⟨1, h1B⟩) := List.get?_eq_get h1B
  have haa : (A ++ cA).get ⟨0, h0A⟩ ≠ (A ++ cA).get ⟨1, h1A⟩ := by
    intro e
    have := (hndA.get_inj_iff).mp e
    cases this
  have hbb : (B ++ cB).get ⟨0, h0B⟩ ≠ (B ++ cB).get ⟨1, h1B⟩ := by
    intro e
    have := (hndB.get_inj_iff).mp e
    cases this
  have hab00 : (A ++ cA).get ⟨0, h0A⟩ ≠ (B ++ cB).get ⟨0, h0B⟩ := by
    intro e
    exact hdisjAB (List.get_mem _ _ _) (by rw [e]; exact List.get_mem _ _ _)
  have hab01 : (A ++ cA).get ⟨0, h0A⟩ ≠ (B ++ cB).get ⟨1, h1B⟩ := by
    intro e
    exact hdisjAB (List.get_mem _ _ _) (by rw [e]; exact List.get_mem _ _ _)
  have hab10 : (A ++ cA).get ⟨1, h1A⟩ ≠ (B ++ cB).get ⟨0, h0B⟩ := by
    intro e
    exact hdisjAB (List.get_mem _ _ _) (by rw [e]; exact List.get_mem _ _ _)
  have hab11 : (A ++ cA).get ⟨1, h1A⟩ ≠ (B ++ cB).get ⟨1, h1B⟩ := by
    intro e
    exact hdisjAB (List.get_mem _ _ _) (by rw [e]; exact List.get_mem _ _ _)
  have hnd4 : [(A ++ cA).get ⟨0, h0A⟩, (B ++ cB).get ⟨0, h0B⟩,
      (A ++ cA).get ⟨1, h1A⟩, (B ++ cB).get ⟨1, h1B⟩].Nodup :=
    nodup4 hab00 haa hab01 (fun e => hab10 e.symm) hbb hab11
  have hseats : (fillBotsAndAssignSeats s).seats =
      JsMap.insert (JsMap.insert (JsMap.insert (JsMap.insert ([] : JsMap Nat)
        (((fillBotsAndAssignSeats s).teamsA.get? 0).getD "undefined") 0)
        (((fillBotsAndAssignSeats s).teamsB.get? 0).getD "undefined") 1)
        (((fillBotsAndAssignSeats s).teamsA.get? 1).getD "undefined") 2)
        (((fillBotsAndAssignSeats s).teamsB.get? 1).getD "undefined") 3 := rfl
  refine ⟨?_, hnd4, ?_, ?_, ?_, ?_, ?_, ?_, ?_, ?_⟩
  · rw [hseats, hTA, hTB, ha0, ha1, hb0, hb1]
    simp only [Option.getD_some]
    exact seats4_of_nodup _ _ _ _ hnd4
  · rw [hTA]
    exact ha0
  · rw [hTB]
    exact hb0
  · rw [hTA]
    exact ha1
  · rw [hTB]
    exact hb1
  · rw [hTA, hTB]
    exact hndpost
  · intro id hid
    rw [hTA, hTB] at hid
    rcases List.mem_append.mp hid with h | h
    · rcases List.mem_append.mp h with h' | h'
      · exact Or.inr ⟨(hsurv id (List.mem_append.mpr (Or.inl h'))).1,
          (hsurv id (List.mem_append.mpr (Or.inl h'))).2.1⟩
      · refine Or.inl ?_
        rw [hkeys]
        exact List.mem_append.mpr (Or.inl h')
    · rcases List.mem_append.mp h with h' | h'
      · exact Or.inr ⟨(hsurv id (List.mem_append.mpr (Or.inr h'))).1,
          (hsurv id (List.mem_append.mpr (Or.inr h'))).2.1⟩
      · refine Or.inl ?_
        rw [hkeys]
        exact List.mem_append.mpr (Or.inr h')
  · intro k hk
    rw [hkeys] at hk
    exact hcform k hk
  · rw [hkeys]
    exact hcnd

-- ─── Claim C8: seat assignment bijection ────────────────────────────────────

/-- A state whose (pairwise-distinct) roster contains a human id that
collides with the reserved generated bot id "bot_0". -/
def botCollisionState : GameState :=
  { initialState with teamsA := ["bot_0"] }

/-- C8 counterexample: with the pairwise-distinct roster ["bot_0"], the
freshly created bot reuses the id "bot_0", the seat write for seat 2
overwrites the seat-0 entry, and `seats` ends with three keys — not a
bijection onto {0,1,2,3}. -/
theorem c8_seats_counterexample :
    (botCollisionState.teamsA ++ botCollisionState.teamsB).Nodup ∧
    (fillBotsAndAssignSeats botCollisionState).seats =
      [("bot_0", 2), ("bot_1", 1), ("bot_2", 3)] ∧
    ¬ SeatsBijection (fillBotsAndAssignSeats botCollisionState).seats := by
  refine ⟨by decide, by decide, ?_⟩
  intro h
  have := h.2.length_eq
  rw [show (fillBotsAndAssignSeats botCollisionState).seats =
    [("bot_0", 2), ("bot_1", 1), ("bot_2", 3)] from by decide] at this
  cases this

/-- C8 (amended): for every state whose team rosters are pairwise distinct
and contain no id of the generated bot form `bot_N` other than registered
bots, `fillBotsAndAssignSeats` produces a seats map that is a bijection
between four team members and {0,1,2,3}, with team A's first two members at
seats 0 and 2 and team B's first two members at seats 1 and 3. -/
theorem c8_seat_assignment (s : GameState)
    (hnd : (s.teamsA ++ s.teamsB).Nodup)
    (hform : ∀ id ∈ s.teamsA ++ s.teamsB,
      isBotId id = true → id ∈ JsMap.keys s.bots) :
    ∃ a0 b0 a1 b1,
      (fillBotsAndAssignSeats s).teamsA.get? 0 = some a0 ∧
      (fillBotsAndAssignSeats s).teamsB.get? 0 = some b0 ∧
      (fillBotsAndAssignSeats s).teamsA.get? 1 = some a1 ∧
      (fillBotsAndAssignSeats s).teamsB.get? 1 = some b1 ∧
      (fillBotsAndAssignSeats s).seats = [(a0, 0), (b0, 1), (a1, 2), (b1, 3)] ∧
      SeatsBijection (fillBotsAndAssignSeats s).seats := by
  obtain ⟨a0, b0, a1, b1, hseats, hnd4, h1, h2, h3, h4, -⟩ :=
    fillBots_spec s hnd hform
  refine ⟨a0, b0, a1, b1, h1, h2, h3, h4, hseats, ?_⟩
  rw [hseats]
  constructor
  · simpa [JsMap.keys] using hnd4
  · exact List.Perm.refl _

/-- C8 witness: on the full 4-human lobby the assignment seats h1,h3 at 0,2
and h2,h4 at 1,3, a bijection. -/
theorem c8_seat_assignment_witness :
    SeatsBijection (fillBotsAndAssignSeats fullTeamsState).seats ∧
    (fillBotsAndAssignSeats fullTeamsState).seats =
      [("h1", 0), ("h2", 1), ("h3", 2), ("h4", 3)] := by
  obtain ⟨a0, b0, a1, b1, -, -, -, -, -, hbij⟩ :=
    c8_seat_assignment fullTeamsState (by decide) (by decide)
  exact ⟨hbij, by decide⟩

-- ─── Dealing machinery: seatToPlayer, dealTiles, findFirstPlayer ────────────

/-- In a map with pairwise-distinct keys, a member entry is what `lookup`
returns for its key. -/
theorem JsMap.lookup_of_mem {α : Type} {m : JsMap α} (hnd : (JsMap.keys m).Nodup)
    {p : String × α} (hp : p ∈ m) : JsMap.lookup m p.1 = some p.2 := by
  induction m with
  | nil => cases hp
  | cons q t ih =>
      simp only [JsMap.keys, List.map_cons, List.nodup_cons] at hnd
      rcases List.mem_cons.mp hp with e | hp'
      · subst e
        rw [JsMap.lookup_cons, if_pos rfl]
      · have hne : q.1 ≠ p.1 := fun h =>
          hnd.1 (by rw [h]; exact List.mem_map_of_mem _ hp')
        rw [JsMap.lookup_cons, if_neg hne]
        exact ih hnd.2 hp'

/-- In a map with pairwise-distinct keys, two entries sharing a key carry the
same value. -/
theorem JsMap.mem_unique {α : Type} {m : JsMap α} (hnd : (JsMap.keys m).Nodup)
    {k : String} {v1 v2 : α} (h1 : (k, v1) ∈ m) (h2 : (k, v2) ∈ m) : v1 = v2 := by
  have e1 := JsMap.lookup_of_mem hnd h1
  have e2 := JsMap.lookup_of_mem hnd h2
  simp only at e1 e2
  rw [e1] at e2
  exact Option.some.inj e2

/-- Four fresh inserts into an empty map give the literal 4-entry list
(generic-value version of `seats4`). -/
theorem JsMap.insert4 {α : Type} (k0 k1 k2 k3 : String) (v0 v1 v2 v3 : α)
    (hnd : [k0, k1, k2, k3].Nodup) :
    JsMap.insert (JsMap.insert (JsMap.insert (JsMap.insert ([] : JsMap α) k0 v0)
      k1 v1) k2 v2) k3 v3 = [(k0, v0), (k1, v1), (k2, v2), (k3, v3)] := by
  simp only [List.nodup_cons, List.mem_cons, List.mem_singleton,
    List.not_mem_nil, not_or, List.nodup_nil, and_true, or_false] at hnd
  obtain ⟨⟨h01, h02, h03⟩, ⟨h12, h13⟩, h23, -⟩ := hnd
  have e0 : JsMap.insert ([] : JsMap α) k0 v0 = [(k0, v0)] :=
    JsMap.insert_of_not_mem _ (by simp [JsMap.keys])
  rw [e0]
  have e1 : JsMap.insert [(k0, v0)] k1 v1 = [(k0, v0), (k1, v1)] :=
    JsMap.insert_of_not_mem _ (by
      simp [JsMap.keys]
      exact fun e => h01 e.symm)
  rw [e1]
  have e2 : JsMap.insert [(k0, v0), (k1, v1)] k2 v2 =
      [(k0, v0), (k1, v1), (k2, v2)] :=
    JsMap.insert_of_not_mem _ (by
      simp [JsMap.keys]
      exact ⟨fun e => h02 e.symm, fun e => h12 e.symm⟩)
  rw [e2]
  exact JsMap.insert_of_not_mem _ (by
    simp [JsMap.keys]
    exact ⟨fun e => h03 e.symm, fun e => h13 e.symm, fun e => h23 e.symm⟩)

/-- A `seatToPlayer` hit names an entry of the seats map. -/
theorem seatToPlayer_mem {m : JsMap Nat} {n : Nat} {k : String}
    (h : seatToPlayer m n = some k) : (k, n) ∈ m := by
  unfold seatToPlayer at h
  cases hf : List.find? (fun p => p.2 = n) m.reverse with
  | none => rw [hf] at h; cases h
  | some e =>
      rw [hf] at h
      have he : e.2 = n := by simpa using List.find?_some hf
      have hm : e ∈ m := List.mem_reverse.mp (List.mem_of_find?_eq_some hf)
      have hk : e.1 = k := by simpa using h
      have hep : e = (k, n) := by
        obtain ⟨e1, e2⟩ := e
        simp_all
      rw [← hep]
      exact hm

/-- `seatToPlayer` hits every value present in the seats map. -/
theorem seatToPlayer_isSome {m : JsMap Nat} {n : Nat}
    (h : n ∈ JsMap.values m) : ∃ k, seatToPlayer m n = some k := by
  obtain ⟨p, hp, hpn⟩ := List.mem_map.mp h
  have hsome : (List.find? (fun p => p.2 = n) m.reverse).isSome := by
    rw [List.find?_isSome]
    exact ⟨p, List.mem_reverse.mpr hp, by simpa using hpn⟩
  obtain ⟨e, he⟩ := Option.isSome_iff_exists.mp hsome
  exact ⟨e.1, by unfold seatToPlayer; rw [he]; rfl⟩

/-- A bijective seats map names four distinct seat holders, one per seat. -/
theorem turnOrder_of_bij (m : JsMap Nat) (hbij : SeatsBijection m) :
    ∃ k0 k1 k2 k3 : String,
      [k0, k1, k2, k3].Nodup ∧
      (∀ k ∈ [k0, k1, k2, k3], k ∈ JsMap.keys m) ∧
      seatToPlayer m 0 = some k0 ∧ seatToPlayer m 1 = some k1 ∧
      seatToPlayer m 2 = some k2 ∧ seatToPlayer m 3 = some k3 := by
  obtain ⟨hnd, hperm⟩ := hbij
  have hmem : ∀ n ∈ [0, 1, 2, 3], n ∈ JsMap.values m := fun n hn =>
    hperm.mem_iff.mpr hn
  obtain ⟨k0, h0⟩ := seatToPlayer_isSome (hmem 0 (by decide))
  obtain ⟨k1, h1⟩ := seatToPlayer_isSome (hmem 1 (by decide))
  obtain ⟨k2, h2⟩ := seatToPlayer_isSome (hmem 2 (by decide))
  obtain ⟨k3, h3⟩ := seatToPlayer_isSome (hmem 3 (by decide))
  have m0 := seatToPlayer_mem h0
  have m1 := seatToPlayer_mem h1
  have m2 := seatToPlayer_mem h2
  have m3 := seatToPlayer_mem h3
  have hd : ∀ {a b : Nat} {ka kb : String}, (ka, a) ∈ m → (kb, b) ∈ m →
      a ≠ b → ka ≠ kb := by
    intro a b ka kb hma hmb hab e
    subst e
    exact hab (JsMap.mem_unique hnd hma hmb)
  refine ⟨k0, k1, k2, k3,
    nodup4 (hd m0 m1 (by decide)) (hd m0 m2 (by decide)) (hd m0 m3 (by decide))
      (hd m1 m2 (by decide)) (hd m1 m3 (by decide)) (hd m2 m3 (by decide)),
    ?_, h0, h1, h2, h3⟩
  intro k hk
  rcases List.mem_cons.mp hk with e | hk
  · rw [e]; exact List.mem_map_of_mem _ m0
  rcases List.mem_cons.mp hk with e | hk
  · rw [e]; exact List.mem_map_of_mem _ m1
  rcases List.mem_cons.mp hk with e | hk
  · rw [e]; exact List.mem_map_of_mem _ m2
  rcases List.mem_cons.mp hk with e | hk
  · rw [e]; exact List.mem_map_of_mem _ m3
  cases hk

/-- The four 7-tile slices of a 28-tile list reassemble it. -/
theorem take_drop_28 (sh : List DominoTile) (hlen : sh.length = 28) :
    sh.take 7 ++ ((sh.drop 7).take 7 ++ ((sh.drop 14).take 7 ++
      (sh.drop 21).take 7)) = sh := by
  have h21 : (sh.drop 21).take 7 = sh.drop 21 :=
    List.take_of_length_le (by rw [List.length_drop, hlen])
  rw [h21]
  have e1 : (sh.drop 14).take 7 ++ sh.drop 21 = sh.drop 14 := by
    have h := List.take_append_drop 7 (sh.drop 14)
    rw [List.drop_drop] at h
    norm_num at h
    exact h
  rw [e1]
  have e2 : (sh.drop 7).take 7 ++ sh.drop 14 = sh.drop 7 := by
    have h := List.take_append_drop 7 (sh.drop 7)
    rw [List.drop_drop] at h
    norm_num at h
    exact h
  rw [e2]
  exact List.take_append_drop 7 sh

/-- `dealTiles` on a state whose seats map is a bijection: `turnOrder` lists
the four seat holders by seat number, each holder's hand is the matching
contiguous 7-tile slice of the shuffle, and (for a 28-tile shuffle) the four
slices reassemble the shuffle. -/
theorem dealTiles_spec (s : GameState) (sh : List DominoTile)
    (hbij : SeatsBijection s.seats) (hlen : sh.length = 28) :
    ∃ k0 k1 k2 k3 : String,
      [k0, k1, k2, k3].Nodup ∧
      (∀ k ∈ [k0, k1, k2, k3], k ∈ JsMap.keys s.seats) ∧
      (dealTiles s sh).turnOrder = [k0, k1, k2, k3] ∧
      (dealTiles s sh).hands =
        [(k0, sh.take 7), (k1, (sh.drop 7).take 7),
         (k2, (sh.drop 14).take 7), (k3, (sh.drop 21).take 7)] ∧
      (JsMap.values (dealTiles s sh).hands).flatten = sh ∧
      (∀ p ∈ (dealTiles s sh).hands, p.2.length = 7) := by
  obtain ⟨k0, k1, k2, k3, hnd4, hkm, h0, h1, h2, h3⟩ := turnOrder_of_bij s.seats hbij
  have hto : (dealTiles s sh).turnOrder =
      (List.range TOTAL_PLAYERS).map
        (fun n => (seatToPlayer s.seats n).getD "undefined") := rfl
  have hto4 : (dealTiles s sh).turnOrder = [k0, k1, k2, k3] := by
    rw [hto, show List.range TOTAL_PLAYERS = [0, 1, 2, 3] from rfl]
    simp [h0, h1, h2, h3]
  have hhands : (dealTiles s sh).hands =
      (List.range TOTAL_PLAYERS).foldl
        (fun (hs : JsMap (List DominoTile)) i =>
          hs.insert ((((dealTiles s sh).turnOrder).get? i).getD "undefined")
            ((sh.drop (i * TILES_PER_HAND)).take TILES_PER_HAND)) [] := rfl
  rw [hto4, show List.range TOTAL_PLAYERS = [0, 1, 2, 3] from rfl] at hhands
  simp only [List.foldl_cons, List.foldl_nil] at hhands
  rw [show (([k0, k1, k2, k3] : List String).get? 0).getD "undefined" = k0 from rfl,
    show (([k0, k1, k2, k3] : List String).get? 1).getD "undefined" = k1 from rfl,
    show (([k0, k1, k2, k3] : List String).get? 2).getD "undefined" = k2 from rfl,
    show (([k0, k1, k2, k3] : List String).get? 3).getD "undefined" = k3 from rfl,
    show 0 * TILES_PER_HAND = 0 from rfl, show 1 * TILES_PER_HAND = 7 from rfl,
    show 2 * TILES_PER_HAND = 14 from rfl, show 3 * TILES_PER_HAND = 21 from rfl,
    show TILES_PER_HAND = 7 from rfl, List.drop_zero,
    JsMap.insert4 k0 k1 k2 k3 _ _ _ _ hnd4] at hhands
  refine ⟨k0, k1, k2, k3, hnd4, hkm, hto4, hhands, ?_, ?_⟩
  · rw [hhands]
    show sh.take 7 ++ ((sh.drop 7).take 7 ++ ((sh.drop 14).take 7 ++
      ((sh.drop 21).take 7 ++ []))) = sh
    rw [List.append_nil]
    exact take_drop_28 sh hlen
  · rw [hhands]
    intro p hp
    rcases List.mem_cons.mp hp with e | hp
    · rw [e]; simp [List.length_take, List.length_drop, hlen]
    rcases List.mem_cons.mp hp with e | hp
    · rw [e]; simp [List.length_take, List.length_drop, hlen]
    rcases List.mem_cons.mp hp with e | hp
    · rw [e]; simp [List.length_take, List.length_drop, hlen]
    rcases List.mem_cons.mp hp with e | hp
    · rw [e]; simp [List.length_take, List.length_drop, hlen]
    cases hp

/-- `findFirstPlayer` in round 1 names the holder of an entry whose hand
contains the double six, when one exists. -/
theorem findFirstPlayer_mula (s : GameState) (hround : s.roundNumber = 1)
    (hmula : ∃ p ∈ s.hands, p.2.any (fun t => t.id = "6-6") = true) :
    ∃ p ∈ s.hands, findFirstPlayer s = p.1 ∧
      p.2.any (fun t => t.id = "6-6") = true := by
  have hsome : (s.hands.find? (fun p => p.2.any (fun t => t.id = "6-6"))).isSome := by
    rw [List.find?_isSome]
    obtain ⟨p, hp, ha⟩ := hmula
    exact ⟨p, hp, ha⟩
  obtain ⟨e, hfe⟩ := Option.isSome_iff_exists.mp hsome
  refine ⟨e, List.mem_of_find?_eq_some hfe, ?_, ?_⟩
  · simp [findFirstPlayer, hround, hfe]
  · have h := List.find?_some hfe
    simpa using h

-- ─── Claim C9: START_GAME ───────────────────────────────────────────────────

/-- The success branch of the `START_GAME` reducer case before the first
player is chosen (the `s3` of the source), factored out verbatim. -/
def startGamePre (s : GameState) (shuffledTiles : List DominoTile) : GameState :=
  let s1 := fillBotsAndAssignSeats s
  let s2 := dealTiles s1 shuffledTiles
  { s2 with
    roundNumber := if s.phase = .lobby then 1 else s.roundNumber + 1
    phase := .playing
    status := .playing
    board := []
    boardEnds := none
    centerIndex := 0
    consecutivePasses := 0
    lastRoundResult := none }

/-- The full success branch of the `START_GAME` reducer case. -/
def startGameRun (s : GameState) (shuffledTiles : List DominoTile) : GameState :=
  { startGamePre s shuffledTiles with
    currentTurn := some (findFirstPlayer (startGamePre s shuffledTiles)) }

theorem gameReducer_startGame_run (s : GameState) (sh : List DominoTile)
    (act : Option String) (h1 : ¬ (s.phase ≠ Phase.lobby ∧ s.phase ≠ Phase.round_end))
    (h2 : connectedCount s ≠ 0) :
    gameReducer s (.startGame sh act) = startGameRun s sh := by
  show (if s.phase ≠ Phase.lobby ∧ s.phase ≠ Phase.round_end then s
    else if connectedCount s = 0 then s else startGameRun s sh) = startGameRun s sh
  rw [if_neg h1, if_neg h2]

theorem startGamePre_seats (s : GameState) (sh : List DominoTile) :
    (startGamePre s sh).seats = (fillBotsAndAssignSeats s).seats := by
  simp only [startGamePre, dealTiles]

theorem startGamePre_hands (s : GameState) (sh : List DominoTile) :
    (startGamePre s sh).hands = (dealTiles (fillBotsAndAssignSeats s) sh).hands := by
  simp only [startGamePre]

theorem startGamePre_turnOrder (s : GameState) (sh : List DominoTile) :
    (startGamePre s sh).turnOrder =
      (dealTiles (fillBotsAndAssignSeats s) sh).turnOrder := by
  simp only [startGamePre]

/-- A successful lobby START_GAME seats four distinct holders bijectively and
deals them the four contiguous 7-tile slices of the shuffle. -/
theorem startGameRun_spec (s : GameState) (sh : List DominoTile)
    (hnd : (s.teamsA ++ s.teamsB).Nodup)
    (hform : ∀ id ∈ s.teamsA ++ s.teamsB, isBotId id = true → id ∈ JsMap.keys s.bots)
    (hlen : sh.length = 28) :
    SeatsBijection (startGamePre s sh).seats ∧
    ∃ k0 k1 k2 k3 : String,
      [k0, k1, k2, k3].Nodup ∧
      (∀ k ∈ [k0, k1, k2, k3], k ∈ JsMap.keys (startGamePre s sh).seats) ∧
      (startGamePre s sh).turnOrder = [k0, k1, k2, k3] ∧
      (startGamePre s sh).hands =
        [(k0, sh.take 7), (k1, (sh.drop 7).take 7),
         (k2, (sh.drop 14).take 7), (k3, (sh.drop 21).take 7)] ∧
      (JsMap.values (startGamePre s sh).hands).flatten = sh := by
  obtain ⟨a0, b0, a1, b1, hfp⟩ := fillBots_spec s hnd hform
  obtain ⟨hseats, hnd4, -, -, -, -, -, -, -, -⟩ := hfp
  have hbij : SeatsBijection (fillBotsAndAssignSeats s).seats := by
    rw [hseats]
    exact ⟨by simpa [JsMap.keys] using hnd4, List.Perm.refl _⟩
  obtain ⟨k0, k1, k2, k3, hk4, hkm, hto, hhands, hflat, hlens⟩ :=
    dealTiles_spec (fillBotsAndAssignSeats s) sh hbij hlen
  rw [startGamePre_seats, startGamePre_hands, startGamePre_turnOrder]
  exact ⟨hbij, k0, k1, k2, k3, hk4, hkm, hto, hhands, hflat⟩

/-- C9: for every lobby state with at least one connected human — whose team
rosters are pairwise distinct and use the reserved bot-id form only for
registered bots — dispatching START_GAME with a shuffle that is a permutation
of the 28 canonical tiles yields phase "playing", roundNumber 1, an empty
board, four distinct seated holders dealt the four contiguous 7-tile slices
of the shuffle in seat order, and currentTurn a seated id whose hand contains
the double six "6-6". -/
theorem c9_start_game (s : GameState) (sh : List DominoTile) (act : Option String)
    (hphase : s.phase = Phase.lobby)
    (hconn : 1 ≤ connectedCount s)
    (hnd : (s.teamsA ++ s.teamsB).Nodup)
    (hform : ∀ id ∈ s.teamsA ++ s.teamsB, isBotId id = true → id ∈ JsMap.keys s.bots)
    (hperm : sh.Perm generateAllTiles) :
    (gameReducer s (.startGame sh act)).phase = Phase.playing ∧
    (gameReducer s (.startGame sh act)).roundNumber = 1 ∧
    (gameReducer s (.startGame sh act)).board = [] ∧
    (∃ k0 k1 k2 k3 : String, [k0, k1, k2, k3].Nodup ∧
      (∀ k ∈ [k0, k1, k2, k3],
        Option.isSome (JsMap.lookup (gameReducer s (.startGame sh act)).seats k) = true) ∧
      (gameReducer s (.startGame sh act)).turnOrder = [k0, k1, k2, k3] ∧
      (gameReducer s (.startGame sh act)).hands =
        [(k0, sh.take 7), (k1, (sh.drop 7).take 7),
         (k2, (sh.drop 14).take 7), (k3, (sh.drop 21).take 7)]) ∧
    (∃ k hand,
      (gameReducer s (.startGame sh act)).currentTurn = some k ∧
      Option.isSome (JsMap.lookup (gameReducer s (.startGame sh act)).seats k) = true ∧
      JsMap.lookup (gameReducer s (.startGame sh act)).hands k = some hand ∧
      hand.any (fun t => t.id = "6-6") = true) := by
  have hg1 : ¬ (s.phase ≠ Phase.lobby ∧ s.phase ≠ Phase.round_end) := by
    rw [hphase]; simp
  have hg2 : connectedCount s ≠ 0 := by omega
  rw [gameReducer_startGame_run s sh act hg1 hg2]
  have hlen : sh.length = 28 := by
    rw [hperm.length_eq]; rfl
  obtain ⟨hbij, k0, k1, k2, k3, hk4, hkm, hto, hhands, hflat⟩ :=
    startGameRun_spec s sh hnd hform hlen
  have hrun_phase : (startGameRun s sh).phase = (startGamePre s sh).phase := by
    simp only [startGameRun]
  have hrun_round : (startGameRun s sh).roundNumber =
      (startGamePre s sh).roundNumber := by
    simp only [startGameRun]
  have hrun_board : (startGameRun s sh).board = (startGamePre s sh).board := by
    simp only [startGameRun]
  have hrun_seats : (startGameRun s sh).seats = (startGamePre s sh).seats := by
    simp only [startGameRun]
  have hrun_hands : (startGameRun s sh).hands = (startGamePre s sh).hands := by
    simp only [startGameRun]
  have hrun_turn : (startGameRun s sh).turnOrder =
      (startGamePre s sh).turnOrder := by
    simp only [startGameRun]
  have hct : (startGameRun s sh).currentTurn =
      some (findFirstPlayer (startGamePre s sh)) := by
    simp only [startGameRun]
  have hpre_phase : (startGamePre s sh).phase = Phase.playing := by
    simp only [startGamePre]
  have hpre_round : (startGamePre s sh).roundNumber = 1 := by
    simp only [startGamePre]
    rw [if_pos hphase]
  have hpre_board : (startGamePre s sh).board = [] := by
    simp only [startGamePre]
  have hm6 : (⟨"6-6", 6, 6⟩ : DominoTile) ∈ sh :=
    hperm.mem_iff.mpr (by decide)
  have hm6' : ∃ p ∈ (startGamePre s sh).hands,
      p.2.any (fun t => t.id = "6-6") = true := by
    rw [← hflat] at hm6
    obtain ⟨l, hl, hml⟩ := List.mem_flatten.mp hm6
    obtain ⟨p, hp, hpv⟩ := List.mem_map.mp hl
    refine ⟨p, hp, ?_⟩
    rw [List.any_eq_true]
    exact ⟨⟨"6-6", 6, 6⟩, by rw [hpv]; exact hml, by decide⟩
  obtain ⟨p, hp, hname, hany⟩ :=
    findFirstPlayer_mula (startGamePre s sh) hpre_round hm6'
  have hknd : (JsMap.keys (startGamePre s sh).hands).Nodup := by
    rw [hhands]
    simpa [JsMap.keys] using hk4
  have hkmem : p.1 ∈ [k0, k1, k2, k3] := by
    have hmk : p.1 ∈ JsMap.keys (startGamePre s sh).hands :=
      List.mem_map_of_mem _ hp
    rw [hhands] at hmk
    simpa [JsMap.keys] using hmk
  refine ⟨by rw [hrun_phase, hpre_phase], by rw [hrun_round, hpre_round],
    by rw [hrun_board, hpre_board],
    ⟨k0, k1, k2, k3, hk4, ?_, by rw [hrun_turn, hto], by rw [hrun_hands, hhands]⟩,
    p.1, p.2, ?_, ?_, ?_, hany⟩
  · intro k hk
    rw [hrun_seats, ← JsMap.mem_keys_iff]
    exact hkm k hk
  · rw [hct, hname]
  · rw [hrun_seats, ← JsMap.mem_keys_iff]
    exact hkm p.1 hkmem
  · rw [hrun_hands]
    exact JsMap.lookup_of_mem hknd hp

/-- C9 counterexample: from the empty lobby a human joins under the id
"bot_0" (one connected human) and START_GAME is dispatched with the reversed
canonical shuffle (a permutation).  The created fill bot reuses the id
"bot_0", the seat-0 entry is overwritten, seat 0 resolves to the JS
`undefined` key, and `currentTurn` becomes "undefined" — which is not a
seated id, contradicting the claim that `currentTurn` is the seated ID
holding "6-6". -/
theorem c9_start_game_counterexample :
    (gameReducer initialState (joinAction "bot_0")).phase = Phase.lobby ∧
    connectedCount (gameReducer initialState (joinAction "bot_0")) = 1 ∧
    (generateAllTiles.reverse).Perm generateAllTiles ∧
    (gameReducer (gameReducer initialState (joinAction "bot_0"))
      (.startGame generateAllTiles.reverse none)).phase = Phase.playing ∧
    (gameReducer (gameReducer initialState (joinAction "bot_0"))
      (.startGame generateAllTiles.reverse none)).currentTurn = some "undefined" ∧
    JsMap.lookup
      (gameReducer (gameReducer initialState (joinAction "bot_0"))
        (.startGame generateAllTiles.reverse none)).seats "undefined" = none := by
  refine ⟨by decide, by decide, List.reverse_perm _, ?_, ?_, ?_⟩ <;> decide

/-- Witness for C9: a lobby with the single human "h1" started with the
canonical (identity) shuffle reaches phase "playing" in round 1. -/
theorem c9_start_game_witness :
    (gameReducer (gameReducer initialState (joinAction "h1"))
      (.startGame generateAllTiles none)).phase = Phase.playing ∧
    (gameReducer (gameReducer initialState (joinAction "h1"))
      (.startGame generateAllTiles none)).roundNumber = 1 := by
  have h := c9_start_game (gameReducer initialState (joinAction "h1"))
    generateAllTiles none (by decide) (by decide) (by decide) (by decide)
    (List.Perm.refl _)
  exact ⟨h.1, h.2.1⟩

-- ─── Claim C4: tile conservation — rename / erase helpers ───────────────────

/-- A list is a permutation of its `i`-th element consed onto the rest. -/
theorem perm_getElem_cons_eraseIdx {α : Type} (l : List α) (i : Nat)
    (h : i < l.length) : l.Perm (l[i] :: l.eraseIdx i) := by
  conv_lhs => rw [← List.take_append_drop i l, ← List.getElem_cons_drop l i h]
  rw [List.eraseIdx_eq_take_drop_succ]
  exact List.perm_middle

/-- The id-migration pattern `delete (m[new] = m[old]); m[old]` rewrites the
map into the old map minus `old` plus a final `new` entry. -/
theorem JsMap.rename_eq {α : Type} {m : JsMap α} {old new : String} {v : α}
    (hold : JsMap.lookup m old = some v) (hnew : new ∉ JsMap.keys m) :
    JsMap.erase (JsMap.insert m new v) old = JsMap.erase m old ++ [(new, v)] := by
  have hno : ¬ new = old := fun e => by
    rw [e, JsMap.mem_keys_iff, hold] at hnew
    exact hnew rfl
  rw [JsMap.insert_of_not_mem v hnew]
  simp only [JsMap.erase, List.filter_append]
  congr 1
  simp [hno]

/-- Erasing a present key drops exactly its value from `values` (up to
permutation). -/
theorem JsMap.values_erase_perm {α : Type} {m : JsMap α} {k : String} {v : α}
    (hnd : (JsMap.keys m).Nodup) (h : JsMap.lookup m k = some v) :
    (JsMap.values m).Perm (v :: JsMap.values (JsMap.erase m k)) := by
  obtain ⟨m₁, m₂, he, -, -, -, hers⟩ := JsMap.insert_existing_decomp hnd h
  rw [hers, he]
  simp only [JsMap.values, List.map_append, List.map_cons]
  exact List.perm_middle

/-- Facts about the guarded rename
`if (old in m) { m[new] = m[old]; delete m[old] }` used by `migratePlayer`:
keys stay pairwise distinct, values are preserved up to permutation, and
every key is `new` or an old non-`old` key. -/
theorem JsMap.rename_branch_spec {α : Type} (m : JsMap α) (old new : String)
    (d : α) (hnd : (JsMap.keys m).Nodup) (hnew : new ∉ JsMap.keys m) :
    (JsMap.keys (if JsMap.hasKey m old then
        JsMap.erase (JsMap.insert m new ((JsMap.lookup m old).getD d)) old
      else m)).Nodup ∧
    (JsMap.values (if JsMap.hasKey m old then
        JsMap.erase (JsMap.insert m new ((JsMap.lookup m old).getD d)) old
      else m)).Perm (JsMap.values m) ∧
    (∀ k ∈ JsMap.keys (if JsMap.hasKey m old then
        JsMap.erase (JsMap.insert m new ((JsMap.lookup m old).getD d)) old
      else m), k = new ∨ (k ∈ JsMap.keys m ∧ k ≠ old)) := by
  by_cases hk : JsMap.hasKey m old = true
  · obtain ⟨v, hv⟩ : ∃ v, JsMap.lookup m old = some v := by
      have := hk
      rw [JsMap.hasKey] at this
      exact Option.isSome_iff_exists.mp this
    rw [if_pos hk, hv, Option.getD_some, JsMap.rename_eq hv hnew]
    have hkeys : JsMap.keys (JsMap.erase m old ++ [(new, v)]) =
        (JsMap.keys m).filter (fun x => x ≠ old) ++ [new] := by
      simp only [JsMap.keys, List.map_append, List.map_cons, List.map_nil]
      rw [show (JsMap.erase m old).map (fun p => p.1) =
        JsMap.keys (JsMap.erase m old) from rfl, JsMap.keys_erase]
      rfl
    have hvals : JsMap.values (JsMap.erase m old ++ [(new, v)]) =
        JsMap.values (JsMap.erase m old) ++ [v] := by
      simp [JsMap.values]
    refine ⟨?_, ?_, ?_⟩
    · rw [hkeys]
      have h1 : ((JsMap.keys m).filter (fun x => x ≠ old)).Nodup := hnd.filter _
      refine List.Nodup.append h1 (List.nodup_singleton new) ?_
      intro x hx hxs
      rw [List.mem_singleton] at hxs
      subst hxs
      exact hnew ((List.filter_sublist _).subset hx)
    · rw [hvals]
      have h1 := JsMap.values_erase_perm hnd hv
      exact (List.perm_append_singleton _ _).trans h1.symm
    · intro k hkk
      rw [hkeys, List.mem_append, List.mem_singleton] at hkk
      rcases hkk with hkk | hkk
      · obtain ⟨h1, h2⟩ := List.mem_filter.mp hkk
        exact Or.inr ⟨h1, by simpa using h2⟩
      · exact Or.inl hkk
  · rw [if_neg hk]
    have hom : old ∉ JsMap.keys m := by
      rw [← JsMap.hasKey_iff_mem]
      simpa using hk
    exact ⟨hnd, List.Perm.refl _, fun k hkk =>
      Or.inr ⟨hkk, fun e => hom (e ▸ hkk)⟩⟩

/-- `renameIn` keeps a roster pairwise distinct when the new id is fresh. -/
theorem renameIn_nodup {l : List String} (old new : String) (hnd : l.Nodup)
    (hnew : new ∉ l) : (renameIn old new l).Nodup := by
  refine List.Nodup.map_on ?_ hnd
  intro x hx y hy hxy
  by_cases hxo : x = old
  · by_cases hyo : y = old
    · rw [hxo, hyo]
    · rw [if_pos hxo, if_neg hyo] at hxy
      exact absurd (by rw [hxy]; exact hy) hnew
  · by_cases hyo : y = old
    · rw [if_neg hxo, if_pos hyo] at hxy
      exact absurd (by rw [← hxy]; exact hx) hnew
    · rw [if_neg hxo, if_neg hyo] at hxy
      exact hxy

/-- Keys of a filtered map form a sublist of the original keys. -/
theorem JsMap.keys_filter_sublist {α : Type} (m : JsMap α)
    (p : String × α → Bool) :
    (JsMap.keys (m.filter p)).Sublist (JsMap.keys m) :=
  (List.filter_sublist m).map _

-- ─── Claim C4: reducer case characterizations ───────────────────────────────

/-- PLAYER_JOINED resolves to one of: reconnect, session migration, silent
rejection, or new-player admission (with lobby auto-assignment). -/
theorem playerJoined_cases (s : GameState) (payload : JoinPayload) :
    (∃ ex, JsMap.lookup s.players payload.id = some ex ∧
      gameReducer s (.playerJoined payload) =
        { s with players := (JsMap.insert s.players payload.id
            { ex with connected := true }) }) ∨
    (∃ sec oldId, payload.secret = some sec ∧
      JsMap.lookup s.sessions sec = some oldId ∧
      Option.isSome (JsMap.lookup s.players oldId) = true ∧
      JsMap.lookup s.players payload.id = none ∧
      gameReducer s (.playerJoined payload) = migratePlayer s oldId payload.id sec) ∨
    gameReducer s (.playerJoined payload) = s ∨
    (JsMap.lookup s.players payload.id = none ∧
      ((s.phase = Phase.lobby ∧
        gameReducer s (.playerJoined payload) =
          assignSeatAndTeam (joinBase s payload.id payload.name payload.avatar
            payload.secret) payload.id) ∨
       (s.phase ≠ Phase.lobby ∧
        gameReducer s (.playerJoined payload) =
          joinBase s payload.id payload.name payload.avatar payload.secret))) := by
  obtain ⟨id, nm, av, sec⟩ := payload
  cases hl : JsMap.lookup s.players id with
  | some ex =>
      refine Or.inl ⟨ex, rfl, ?_⟩
      simp [gameReducer, hl]
  | none =>
      have hnew : ¬ connectedCount s ≥ TOTAL_PLAYERS →
          (∀ q oldId, sec = some q → JsMap.lookup s.sessions q = some oldId →
            JsMap.lookup s.players oldId = none) →
          gameReducer s (.playerJoined ⟨id, nm, av, sec⟩) = s ∨
          ((s.phase = Phase.lobby ∧
            gameReducer s (.playerJoined ⟨id, nm, av, sec⟩) =
              assignSeatAndTeam (joinBase s id nm av sec) id) ∨
           (s.phase ≠ Phase.lobby ∧
            gameReducer s (.playerJoined ⟨id, nm, av, sec⟩) =
              joinBase s id nm av sec)) := by
        intro hnge h2
        have hred : gameReducer s (.playerJoined ⟨id, nm, av, sec⟩) =
            (if s.phase = Phase.lobby
             then assignSeatAndTeam (joinBase s id nm av sec) id
             else joinBase s id nm av sec) := by
          cases sec with
          | none => simp [gameReducer, hl, hnge, joinBase]
          | some q =>
              cases hq : JsMap.lookup s.sessions q with
              | none => simp [gameReducer, hl, hq, hnge, joinBase]
              | some oldId =>
                  have hold := h2 q oldId rfl hq
                  simp [gameReducer, hl, hq, hold, hnge, joinBase]
        by_cases hpl : s.phase = Phase.lobby
        · exact Or.inr (Or.inl ⟨hpl, by rw [hred, if_pos hpl]⟩)
        · exact Or.inr (Or.inr ⟨hpl, by rw [hred, if_neg hpl]⟩)
      cases hsec : sec with
      | none =>
          by_cases hc : connectedCount s ≥ TOTAL_PLAYERS
          · refine Or.inr (Or.inr (Or.inl ?_))
            simp only [gameReducer, hl]
            rw [if_pos hc]
          · subst hsec
            rcases hnew hc (by intro q o hq; cases hq) with h | h
            · exact Or.inr (Or.inr (Or.inl h))
            · exact Or.inr (Or.inr (Or.inr ⟨rfl, h⟩))
      | some q =>
          subst hsec
          cases hq : JsMap.lookup s.sessions q with
          | none =>
              by_cases hc : connectedCount s ≥ TOTAL_PLAYERS
              · refine Or.inr (Or.inr (Or.inl ?_))
                simp only [gameReducer, hl, hq]
                rw [if_pos hc]
              · rcases hnew hc (by
                  intro q' o hq' hs'
                  rw [← Option.some_inj.mp hq'] at hs'
                  rw [hq] at hs'
                  cases hs') with h | h
                · exact Or.inr (Or.inr (Or.inl h))
                · exact Or.inr (Or.inr (Or.inr ⟨rfl, h⟩))
          | some oldId =>
              cases hpo : JsMap.lookup s.players oldId with
              | none =>
                  by_cases hc : connectedCount s ≥ TOTAL_PLAYERS
                  · refine Or.inr (Or.inr (Or.inl ?_))
                    simp [gameReducer, hl, hq, hpo, hc]
                  · rcases hnew hc (by
                      intro q' o hq' hs'
                      rw [← Option.some_inj.mp hq'] at hs'
                      rw [hq] at hs'
                      rw [← Option.some_inj.mp hs']
                      exact hpo) with h | h
                    · exact Or.inr (Or.inr (Or.inl h))
                    · exact Or.inr (Or.inr (Or.inr ⟨rfl, h⟩))
              | some op =>
                  refine Or.inr (Or.inl ⟨q, oldId, rfl, hq, by rw [hpo]; rfl,
                    rfl, ?_⟩)
                  simp [gameReducer, hl, hq, hpo]

/-- PASS either rejects, resolves a tranque, or advances the turn. -/
theorem pass_cases (s : GameState) (actingId : Option String) :
    gameReducer s (.pass actingId) = s ∨
    (s.phase = Phase.playing ∧
      gameReducer s (.pass actingId) =
        resolveRoundEnd { s with consecutivePasses := s.consecutivePasses + 1 }
          Reason.tranque none) ∨
    gameReducer s (.pass actingId) =
      { s with
        consecutivePasses := s.consecutivePasses + 1
        currentTurn := some (advanceTurn s) } := by
  by_cases hp : s.phase = Phase.playing
  · cases actingId with
    | none => exact Or.inl (by simp [gameReducer, hp])
    | some pid =>
        by_cases hct : s.currentTurn = some pid
        · cases hl : JsMap.lookup s.hands pid with
          | none => exact Or.inl (by simp [gameReducer, hp, hct, hl])
          | some hand =>
              by_cases hpl : (getPlayableTiles hand s.boardEnds).length > 0
              · exact Or.inl (by simp [gameReducer, hp, hct, hl, hpl])
              · by_cases hn : s.consecutivePasses + 1 ≥ TOTAL_PLAYERS
                · exact Or.inr (Or.inl ⟨hp, by
                    simp [gameReducer, hp, hct, hl, hpl, hn]⟩)
                · exact Or.inr (Or.inr (by
                    simp [gameReducer, hp, hct, hl, hpl, hn]))
        · exact Or.inl (by simp [gameReducer, hp, hct])
  · exact Or.inl (by simp [gameReducer, hp])

/-- PLAY_TILE either rejects, or moves the indexed tile of the current
player's hand through `playTileMid` (resolving a domino when the hand
empties). -/
theorem playTile_cases (s : GameState) (tileId : String) (side : Side)
    (actingId : Option String) :
    gameReducer s (.playTile tileId side actingId) = s ∨
    ∃ pid hand i, s.phase = Phase.playing ∧
      JsMap.lookup s.hands pid = some hand ∧ i < hand.length ∧
      gameReducer s (.playTile tileId side actingId) =
        (if (hand.eraseIdx i).length = 0
         then resolveRoundEnd (playTileMid s pid hand i side) Reason.domino
           (some pid)
         else { playTileMid s pid hand i side with
                currentTurn := some (advanceTurn (playTileMid s pid hand i side)) }) := by
  by_cases hp : s.phase = Phase.playing
  · cases actingId with
    | none => exact Or.inl (by simp [gameReducer, hp])
    | some pid =>
        by_cases hct : s.currentTurn = some pid
        · cases hl : JsMap.lookup s.hands pid with
          | none => exact Or.inl (by simp [gameReducer, hp, hct, hl])
          | some hand =>
              cases hfi : hand.findIdx? (fun t => t.id = tileId) with
              | none => exact Or.inl (by simp [gameReducer, hp, hct, hl, hfi])
              | some i =>
                  have hilt : i < hand.length :=
                    (List.findIdx?_eq_some_iff_findIdx_eq.mp hfi).1
                  by_cases hplay : (canPlayTile (hand[i]?.getD defaultTile)
                      s.boardEnds).atSide side = false
                  · exact Or.inl (by simp [gameReducer, hp, hct, hl, hfi, hplay])
                  · have hplay' : (canPlayTile (hand[i]?.getD defaultTile)
                        s.boardEnds).atSide side = true := by
                      cases hpv : (canPlayTile (hand[i]?.getD defaultTile)
                          s.boardEnds).atSide side
                      · exact absurd hpv hplay
                      · rfl
                    cases hbe0 : s.boardEnds with
                    | none =>
                        rw [hbe0] at hplay'
                        by_cases hguard : s.roundNumber = 1 ∧
                            (hand[i]?.getD defaultTile).id ≠ "6-6"
                        · exact Or.inl (by
                            simp [gameReducer, hp, hct, hl, hfi, hplay', hbe0,
                              hguard])
                        · refine Or.inr ⟨pid, hand, i, hp, hl, hilt, ?_⟩
                          simp [gameReducer, hp, hct, hl, hfi, hplay', hbe0,
                            hguard, playTileMid]
                    | some ends =>
                        rw [hbe0] at hplay'
                        refine Or.inr ⟨pid, hand, i, hp, hl, hilt, ?_⟩
                        cases side with
                        | left =>
                            by_cases hfit : (hand[i]?.getD defaultTile).right =
                                ends.left
                            · simp [gameReducer, hp, hct, hl, hfi, hplay', hbe0,
                                hfit, playTileMid]
                            · simp [gameReducer, hp, hct, hl, hfi, hplay', hbe0,
                                hfit, playTileMid]
                        | right =>
                            by_cases hfit : (hand[i]?.getD defaultTile).left =
                                ends.right
                            · simp [gameReducer, hp, hct, hl, hfi, hplay', hbe0,
                                hfit, playTileMid]
                            · simp [gameReducer, hp, hct, hl, hfi, hplay', hbe0,
                                hfit, playTileMid]
        · exact Or.inl (by simp [gameReducer, hp, hct])
  · exact Or.inl (by simp [gameReducer, hp])

/-- CHOOSE_TEAM either rejects or (in the lobby) clears the actor from both
rosters and appends them to the chosen one. -/
theorem chooseTeam_cases (s : GameState) (tg : Team) (actingId : Option String) :
    gameReducer s (.chooseTeam tg actingId) = s ∨
    ∃ pid, actingId = some pid ∧ s.phase = Phase.lobby ∧
      (gameReducer s (.chooseTeam tg actingId) =
        { s with
          teamsA := s.teamsA.filter (fun id => id ≠ pid) ++ [pid]
          teamsB := s.teamsB.filter (fun id => id ≠ pid) } ∨
       gameReducer s (.chooseTeam tg actingId) =
        { s with
          teamsA := s.teamsA.filter (fun id => id ≠ pid)
          teamsB := s.teamsB.filter (fun id => id ≠ pid) ++ [pid] }) := by
  cases actingId with
  | none => exact Or.inl (by simp [gameReducer])
  | some pid =>
      by_cases hp : s.phase = Phase.lobby
      · by_cases hh : humansIn s (s.teamList tg) ≥ PLAYERS_PER_TEAM
        · exact Or.inl (by simp [gameReducer, hp, hh])
        · refine Or.inr ⟨pid, rfl, hp, ?_⟩
          cases tg with
          | a => exact Or.inl (by simp [gameReducer, hp, hh])
          | b => exact Or.inr (by simp [gameReducer, hp, hh])
      · exact Or.inl (by simp [gameReducer, hp])

-- ─── NEW_ROUND and RESET_GAME characterizations ─────────────────────────────

/-- The board-clearing step of NEW_ROUND (the `s1` of the source). -/
def newRoundS1 (s : GameState) : GameState :=
  { s with
    board := []
    boardEnds := none
    centerIndex := 0
    consecutivePasses := 0
    lastRoundResult := none }

/-- NEW_ROUND's state before the first player is chosen (the `s3` of the
source). -/
def newRoundPre (s : GameState) (shuffledTiles : List DominoTile) : GameState :=
  { dealTiles (newRoundS1 s) shuffledTiles with
    roundNumber := s.roundNumber + 1
    phase := .playing
    status := .playing }

/-- The full success branch of NEW_ROUND. -/
def newRoundRun (s : GameState) (shuffledTiles : List DominoTile) : GameState :=
  { newRoundPre s shuffledTiles with
    currentTurn := some (findFirstPlayer (newRoundPre s shuffledTiles)) }

theorem gameReducer_newRound_run (s : GameState) (sh : List DominoTile)
    (h : s.phase = Phase.round_end) :
    gameReducer s (.newRound sh) = newRoundRun s sh := by
  show (if s.phase ≠ Phase.round_end then s else newRoundRun s sh) =
    newRoundRun s sh
  rw [if_neg (by rw [h]; simp)]

theorem newRoundS1_seats (s : GameState) : (newRoundS1 s).seats = s.seats := by
  simp only [newRoundS1]

theorem newRoundPre_spec (s : GameState) (sh : List DominoTile) :
    (newRoundPre s sh).phase = Phase.playing ∧
    (newRoundPre s sh).board = [] ∧
    (newRoundPre s sh).seats = s.seats ∧
    (newRoundPre s sh).players = s.players ∧
    (newRoundPre s sh).bots = s.bots ∧
    (newRoundPre s sh).teamsA = s.teamsA ∧
    (newRoundPre s sh).teamsB = s.teamsB ∧
    (newRoundPre s sh).hands = (dealTiles (newRoundS1 s) sh).hands := by
  refine ⟨?_, ?_, ?_, ?_, ?_, ?_, ?_, ?_⟩ <;>
    simp only [newRoundPre, dealTiles, newRoundS1]

theorem newRoundRun_fields (s : GameState) (sh : List DominoTile) :
    (newRoundRun s sh).phase = (newRoundPre s sh).phase ∧
    (newRoundRun s sh).board = (newRoundPre s sh).board ∧
    (newRoundRun s sh).seats = (newRoundPre s sh).seats ∧
    (newRoundRun s sh).hands = (newRoundPre s sh).hands ∧
    (newRoundRun s sh).players = (newRoundPre s sh).players ∧
    (newRoundRun s sh).bots = (newRoundPre s sh).bots ∧
    (newRoundRun s sh).teamsA = (newRoundPre s sh).teamsA ∧
    (newRoundRun s sh).teamsB = (newRoundPre s sh).teamsB := by
  refine ⟨?_, ?_, ?_, ?_, ?_, ?_, ?_, ?_⟩ <;> simp only [newRoundRun]

theorem startGamePre_others (s : GameState) (sh : List DominoTile) :
    (startGamePre s sh).players = s.players ∧
    (startGamePre s sh).bots = (fillBotsAndAssignSeats s).bots ∧
    (startGamePre s sh).teamsA = (fillBotsAndAssignSeats s).teamsA ∧
    (startGamePre s sh).teamsB = (fillBotsAndAssignSeats s).teamsB ∧
    (startGamePre s sh).board = [] ∧
    (startGamePre s sh).phase = Phase.playing := by
  refine ⟨?_, ?_, ?_, ?_, ?_, ?_⟩ <;>
    simp only [startGamePre, dealTiles, fillBotsAndAssignSeats]

theorem startGameRun_fields (s : GameState) (sh : List DominoTile) :
    (startGameRun s sh).phase = (startGamePre s sh).phase ∧
    (startGameRun s sh).board = (startGamePre s sh).board ∧
    (startGameRun s sh).seats = (startGamePre s sh).seats ∧
    (startGameRun s sh).hands = (startGamePre s sh).hands ∧
    (startGameRun s sh).players = (startGamePre s sh).players ∧
    (startGameRun s sh).bots = (startGamePre s sh).bots ∧
    (startGameRun s sh).teamsA = (startGamePre s sh).teamsA ∧
    (startGameRun s sh).teamsB = (startGamePre s sh).teamsB := by
  refine ⟨?_, ?_, ?_, ?_, ?_, ?_, ?_, ?_⟩ <;> simp only [startGameRun]

theorem resetGame_eq (s : GameState) :
    gameReducer s .resetGame =
      (s.players.filter (fun p => p.2.connected)).foldl
        (fun st p => assignSeatAndTeam st p.1)
        { initialState with
          players := s.players.filter (fun p => p.2.connected)
          sessions := s.sessions.filter (fun p =>
            (JsMap.lookup (s.players.filter (fun p => p.2.connected)) p.2).isSome) } :=
  rfl

/-- Folding `assignSeatAndTeam` over fresh distinct ids keeps all other
state intact and produces a pairwise-distinct roster drawn from the start
roster and the folded ids. -/
theorem assign_foldl_spec (l : List (String × Player)) (st : GameState)
    (hnd : (st.teamsA ++ st.teamsB).Nodup)
    (hdisj : ∀ p ∈ l, p.1 ∉ st.teamsA ++ st.teamsB)
    (hl : (l.map Prod.fst).Nodup) :
    (l.foldl (fun acc p => assignSeatAndTeam acc p.1) st).players = st.players ∧
    (l.foldl (fun acc p => assignSeatAndTeam acc p.1) st).hands = st.hands ∧
    (l.foldl (fun acc p => assignSeatAndTeam acc p.1) st).seats = st.seats ∧
    (l.foldl (fun acc p => assignSeatAndTeam acc p.1) st).bots = st.bots ∧
    (l.foldl (fun acc p => assignSeatAndTeam acc p.1) st).phase = st.phase ∧
    ((l.foldl (fun acc p => assignSeatAndTeam acc p.1) st).teamsA ++
      (l.foldl (fun acc p => assignSeatAndTeam acc p.1) st).teamsB).Nodup ∧
    (∀ id ∈ (l.foldl (fun acc p => assignSeatAndTeam acc p.1) st).teamsA ++
        (l.foldl (fun acc p => assignSeatAndTeam acc p.1) st).teamsB,
      id ∈ st.teamsA ++ st.teamsB ∨ id ∈ l.map Prod.fst) := by
  induction l generalizing st with
  | nil =>
      exact ⟨rfl, rfl, rfl, rfl, rfl, hnd, fun id h => Or.inl h⟩
  | cons p t ih =>
      simp only [List.foldl_cons]
      have hpn : p.1 ∉ st.teamsA ++ st.teamsB := hdisj p (List.mem_cons_self p t)
      have hlt : (t.map Prod.fst).Nodup := (List.nodup_cons.mp hl).2
      have hpt : p.1 ∉ t.map Prod.fst := (List.nodup_cons.mp hl).1
      have hnd1 : ((st.teamsA ++ st.teamsB) ++ [p.1]).Nodup := by
        refine List.Nodup.append hnd (List.nodup_singleton _) ?_
        intro x hx hxs
        rw [List.mem_singleton] at hxs
        exact hpn (hxs ▸ hx)
      rcases assignSeatAndTeam_cases st p.1 with h | h <;> rw [h]
      · have hnd' : (({ st with teamsA := st.teamsA ++ [p.1] } :
            GameState).teamsA ++ ({ st with teamsA := st.teamsA ++ [p.1] } :
            GameState).teamsB).Nodup := by
          show ((st.teamsA ++ [p.1]) ++ st.teamsB).Nodup
          have hperm : ((st.teamsA ++ [p.1]) ++ st.teamsB).Perm
              ((st.teamsA ++ st.teamsB) ++ [p.1]) := by
            have e1 : (st.teamsA ++ [p.1]) ++ st.teamsB =
                st.teamsA ++ ([p.1] ++ st.teamsB) := by rw [List.append_assoc]
            have e2 : (st.teamsA ++ st.teamsB) ++ [p.1] =
                st.teamsA ++ (st.teamsB ++ [p.1]) := by rw [List.append_assoc]
            rw [e1, e2]
            exact List.Perm.append_left _ List.perm_append_comm
          exact hperm.nodup_iff.mpr hnd1
        have hdisj' : ∀ q ∈ t, q.1 ∉ ({ st with teamsA := st.teamsA ++ [p.1] } :
            GameState).teamsA ++ ({ st with teamsA := st.teamsA ++ [p.1] } :
            GameState).teamsB := by
          intro q hq hmem
          show False
          have : q.1 ∈ (st.teamsA ++ [p.1]) ++ st.teamsB := hmem
          simp only [List.mem_append, List.mem_singleton] at this
          rcases this with (hh | hh) | hh
          · exact hdisj q (List.mem_cons_of_mem p hq) (List.mem_append.mpr
              (Or.inl hh))
          · exact hpt (hh ▸ List.mem_map_of_mem Prod.fst hq)
          · exact hdisj q (List.mem_cons_of_mem p hq) (List.mem_append.mpr
              (Or.inr hh))
        obtain ⟨f1, f2, f3, f4, f5, f6, f7⟩ := ih _ hnd' hdisj' hlt
        refine ⟨f1, f2, f3, f4, f5, f6, ?_⟩
        intro id hid
        rcases f7 id hid with hmem | hmem
        · have : id ∈ (st.teamsA ++ [p.1]) ++ st.teamsB := hmem
          simp only [List.mem_append, List.mem_singleton] at this
          rcases this with (hh | hh) | hh
          · exact Or.inl (List.mem_append.mpr (Or.inl hh))
          · refine Or.inr ?_
            rw [hh]
            exact List.mem_map_of_mem Prod.fst (List.mem_cons_self p t)
          · exact Or.inl (List.mem_append.mpr (Or.inr hh))
        · exact Or.inr (List.map_cons Prod.fst p t ▸ List.mem_cons_of_mem _ hmem)
      · have hnd' : (({ st with teamsB := st.teamsB ++ [p.1] } :
            GameState).teamsA ++ ({ st with teamsB := st.teamsB ++ [p.1] } :
            GameState).teamsB).Nodup := by
          show (st.teamsA ++ (st.teamsB ++ [p.1])).Nodup
          have hperm : (st.teamsA ++ (st.teamsB ++ [p.1])).Perm
              ((st.teamsA ++ st.teamsB) ++ [p.1]) := by
            rw [← List.append_assoc]
          exact hperm.nodup_iff.mpr hnd1
        have hdisj' : ∀ q ∈ t, q.1 ∉ ({ st with teamsB := st.teamsB ++ [p.1] } :
            GameState).teamsA ++ ({ st with teamsB := st.teamsB ++ [p.1] } :
            GameState).teamsB := by
          intro q hq hmem
          show False
          have : q.1 ∈ st.teamsA ++ (st.teamsB ++ [p.1]) := hmem
          simp only [List.mem_append, List.mem_singleton] at this
          rcases this with hh | hh | hh
          · exact hdisj q (List.mem_cons_of_mem p hq) (List.mem_append.mpr
              (Or.inl hh))
          · exact hdisj q (List.mem_cons_of_mem p hq) (List.mem_append.mpr
              (Or.inr hh))
          · exact hpt (hh ▸ List.mem_map_of_mem Prod.fst hq)
        obtain ⟨f1, f2, f3, f4, f5, f6, f7⟩ := ih _ hnd' hdisj' hlt
        refine ⟨f1, f2, f3, f4, f5, f6, ?_⟩
        intro id hid
        rcases f7 id hid with hmem | hmem
        · have : id ∈ st.teamsA ++ (st.teamsB ++ [p.1]) := hmem
          simp only [List.mem_append, List.mem_singleton] at this
          rcases this with hh | hh | hh
          · exact Or.inl (List.mem_append.mpr (Or.inl hh))
          · exact Or.inl (List.mem_append.mpr (Or.inr hh))
          · refine Or.inr ?_
            rw [hh]
            exact List.mem_map_of_mem Prod.fst (List.mem_cons_self p t)
        · exact Or.inr (List.map_cons Prod.fst p t ▸ List.mem_cons_of_mem _ hmem)

-- ─── The C4 inductive invariant ─────────────────────────────────────────────

/-- Invariant maintained by every hygienic action from the initial state:
map keys and rosters stay pairwise distinct, ids keep their human/bot form,
roster members are registered, seats/hands stay well-formed outside the
lobby, and tiles are conserved while playing. -/
structure Inv (s : GameState) : Prop where
  playersNd : (JsMap.keys s.players).Nodup
  botsNd : (JsMap.keys s.bots).Nodup
  playersHuman : ∀ k ∈ JsMap.keys s.players, isBotId k = false
  botsBot : ∀ k ∈ JsMap.keys s.bots, isBotId k = true
  rosterNd : (s.teamsA ++ s.teamsB).Nodup
  rosterMem : ∀ id ∈ s.teamsA ++ s.teamsB,
    id ∈ JsMap.keys s.players ∨ id ∈ JsMap.keys s.bots
  seated : s.phase ≠ Phase.lobby →
    SeatsBijection s.seats ∧ (JsMap.keys s.hands).Nodup ∧
    (∀ k ∈ JsMap.keys s.hands,
      k ∈ JsMap.keys s.players ∨ k ∈ JsMap.keys s.bots) ∧
    (∀ k ∈ JsMap.keys s.seats,
      k ∈ JsMap.keys s.players ∨ k ∈ JsMap.keys s.bots)
  conserved : s.phase = Phase.playing → TileConservation s

/-- The invariant transfers across equal relevant fields (players and bots
only up to their key lists). -/
theorem Inv.of_fields {s t : GameState} (h : Inv s)
    (hp : JsMap.keys t.players = JsMap.keys s.players)
    (hb : JsMap.keys t.bots = JsMap.keys s.bots)
    (hta : t.teamsA = s.teamsA) (htb : t.teamsB = s.teamsB)
    (hse : t.seats = s.seats) (hh : t.hands = s.hands)
    (hbo : t.board = s.board) (hph : t.phase = s.phase) : Inv t := by
  have hc : TileConservation t ↔ TileConservation s := by
    rw [TileConservation, TileConservation, heldTileIds, heldTileIds, hh, hbo]
  refine ⟨?_, ?_, ?_, ?_, ?_, ?_, ?_, ?_⟩
  · rw [hp]; exact h.playersNd
  · rw [hb]; exact h.botsNd
  · rw [hp]; exact h.playersHuman
  · rw [hb]; exact h.botsBot
  · rw [hta, htb]; exact h.rosterNd
  · rw [hta, htb, hp, hb]; exact h.rosterMem
  · rw [hph, hse, hh, hp, hb]; exact h.seated
  · rw [hph, hc]; exact h.conserved

/-- Field equations for `migratePlayer`. -/
theorem migrate_fields (s : GameState) (oldId newId secret : String) :
    (migratePlayer s oldId newId secret).players =
      JsMap.insert (JsMap.erase s.players oldId) newId
        { (JsMap.lookup s.players oldId).getD defaultPlayer with
          id := newId
          connected := true } ∧
    (migratePlayer s oldId newId secret).teamsA = renameIn oldId newId s.teamsA ∧
    (migratePlayer s oldId newId secret).teamsB = renameIn oldId newId s.teamsB ∧
    (migratePlayer s oldId newId secret).seats =
      (if JsMap.hasKey s.seats oldId then
        JsMap.erase (JsMap.insert s.seats newId
          ((JsMap.lookup s.seats oldId).getD 0)) oldId
      else s.seats) ∧
    (migratePlayer s oldId newId secret).hands =
      (if JsMap.hasKey s.hands oldId then
        JsMap.erase (JsMap.insert s.hands newId
          ((JsMap.lookup s.hands oldId).getD [])) oldId
      else s.hands) ∧
    (migratePlayer s oldId newId secret).board = s.board ∧
    (migratePlayer s oldId newId secret).bots = s.bots ∧
    (migratePlayer s oldId newId secret).phase = s.phase := by
  refine ⟨?_, ?_, ?_, ?_, ?_, ?_, ?_, ?_⟩ <;> simp only [migratePlayer]

/-- `migratePlayer` onto a fresh non-bot id preserves the invariant. -/
theorem migrate_inv (s : GameState) (oldId newId secret : String)
    (hInv : Inv s) (hbform : isBotId newId = false)
    (hnewp : JsMap.lookup s.players newId = none) :
    Inv (migratePlayer s oldId newId secret) := by
  obtain ⟨fP, fTA, fTB, fS, fH, fB, fBots, fPh⟩ :=
    migrate_fields s oldId newId secret
  have hnp : newId ∉ JsMap.keys s.players :=
    (JsMap.lookup_eq_none_iff _ _).mp hnewp
  have hnb : newId ∉ JsMap.keys s.bots := fun h => by
    have := hInv.botsBot newId h
    rw [hbform] at this
    cases this
  have hnro : newId ∉ s.teamsA ++ s.teamsB := fun h => by
    rcases hInv.rosterMem newId h with h' | h'
    · exact hnp h'
    · exact hnb h'
  -- players
  have hkeyE : JsMap.keys (JsMap.erase s.players oldId) =
      (JsMap.keys s.players).filter (fun x => x ≠ oldId) :=
    JsMap.keys_erase s.players oldId
  have hnpe : newId ∉ JsMap.keys (JsMap.erase s.players oldId) := by
    rw [hkeyE]
    intro h
    exact hnp ((List.filter_sublist _).subset h)
  have hkeyP : JsMap.keys (migratePlayer s oldId newId secret).players =
      (JsMap.keys s.players).filter (fun x => x ≠ oldId) ++ [newId] := by
    rw [fP, JsMap.keys_insert_of_not_mem _ hnpe, hkeyE]
  have hmemP : ∀ k, k ∈ JsMap.keys (migratePlayer s oldId newId secret).players ↔
      (k ∈ JsMap.keys s.players ∧ k ≠ oldId) ∨ k = newId := by
    intro k
    rw [hkeyP]
    simp only [List.mem_append, List.mem_singleton, List.mem_filter]
    constructor
    · rintro (h | h)
      · exact Or.inl ⟨h.1, by simpa using h.2⟩
      · exact Or.inr h
    · rintro (h | h)
      · exact Or.inl ⟨h.1, by simpa using h.2⟩
      · exact Or.inr h
  -- rosters
  have hroster : (migratePlayer s oldId newId secret).teamsA ++
      (migratePlayer s oldId newId secret).teamsB =
      renameIn oldId newId (s.teamsA ++ s.teamsB) := by
    rw [fTA, fTB, renameIn, renameIn, renameIn, List.map_append]
  refine ⟨?_, ?_, ?_, ?_, ?_, ?_, ?_, ?_⟩
  · rw [hkeyP]
    refine List.Nodup.append (hInv.playersNd.filter _)
      (List.nodup_singleton _) ?_
    intro x hx hxs
    rw [List.mem_singleton] at hxs
    subst hxs
    exact hnp ((List.filter_sublist _).subset hx)
  · rw [fBots]; exact hInv.botsNd
  · intro k hk
    rcases (hmemP k).mp hk with h | h
    · exact hInv.playersHuman k h.1
    · rw [h]; exact hbform
  · rw [fBots]; exact hInv.botsBot
  · rw [hroster]
    exact renameIn_nodup oldId newId hInv.rosterNd hnro
  · intro id hid
    rw [hroster, renameIn] at hid
    obtain ⟨y, hy, hyid⟩ := List.mem_map.mp hid
    by_cases hyo : y = oldId
    · rw [if_pos hyo] at hyid
      refine Or.inl ?_
      rw [(hmemP id), ← hyid]
      exact Or.inr rfl
    · rw [if_neg hyo] at hyid
      subst hyid
      rcases hInv.rosterMem y hy with h | h
      · refine Or.inl ?_
        rw [hmemP y]
        exact Or.inl ⟨h, hyo⟩
      · rw [fBots]
        exact Or.inr h
  · intro hph
    rw [fPh] at hph
    obtain ⟨⟨hsnd, hsperm⟩, hhnd, hhmem, hsmem⟩ := hInv.seated hph
    have hnewh : newId ∉ JsMap.keys s.hands := fun h => by
      rcases hhmem newId h with h' | h'
      · exact hnp h'
      · exact hnb h'
    have hnews : newId ∉ JsMap.keys s.seats := fun h => by
      rcases hsmem newId h with h' | h'
      · exact hnp h'
      · exact hnb h'
    obtain ⟨hnd', hperm', hmem'⟩ :=
      JsMap.rename_branch_spec s.seats oldId newId 0 hsnd hnews
    obtain ⟨hhnd', hhperm', hhmem'⟩ :=
      JsMap.rename_branch_spec s.hands oldId newId [] hhnd hnewh
    rw [fS, fH]
    refine ⟨⟨hnd', hperm'.trans hsperm⟩, hhnd', ?_, ?_⟩
    · intro k hk
      rcases hhmem' k hk with h | h
      · refine Or.inl ?_
        rw [h, hmemP newId]
        exact Or.inr rfl
      · rcases hhmem k h.1 with h' | h'
        · refine Or.inl ?_
          rw [hmemP k]
          exact Or.inl ⟨h', h.2⟩
        · rw [fBots]
          exact Or.inr h'
    · intro k hk
      rcases hmem' k hk with h | h
      · refine Or.inl ?_
        rw [h, hmemP newId]
        exact Or.inr rfl
      · rcases hsmem k h.1 with h' | h'
        · refine Or.inl ?_
          rw [hmemP k]
          exact Or.inl ⟨h', h.2⟩
        · rw [fBots]
          exact Or.inr h'
  · intro hph
    rw [fPh] at hph
    have hcons := hInv.conserved hph
    obtain ⟨-, hhnd, hhmem, -⟩ := hInv.seated (by rw [hph]; simp)
    have hnewh : newId ∉ JsMap.keys s.hands := fun h => by
      rcases hhmem newId h with h' | h'
      · exact hnp h'
      · exact hnb h'
    obtain ⟨-, hhperm', -⟩ :=
      JsMap.rename_branch_spec s.hands oldId newId [] hhnd hnewh
    rw [TileConservation, heldTileIds, fH, fB]
    rw [TileConservation, heldTileIds] at hcons
    refine List.Perm.trans ?_ hcons
    exact ((hhperm'.flatten).append_right _).map _

/-- Field equations for `joinBase`. -/
theorem joinBase_fields (s : GameState) (id : String) (nm av sec : Option String) :
    (∃ P : Player, (joinBase s id nm av sec).players =
      JsMap.insert s.players id P) ∧
    (joinBase s id nm av sec).hands = s.hands ∧
    (joinBase s id nm av sec).seats = s.seats ∧
    (joinBase s id nm av sec).bots = s.bots ∧
    (joinBase s id nm av sec).teamsA = s.teamsA ∧
    (joinBase s id nm av sec).teamsB = s.teamsB ∧
    (joinBase s id nm av sec).board = s.board ∧
    (joinBase s id nm av sec).phase = s.phase :=
  ⟨⟨_, rfl⟩, rfl, rfl, rfl, rfl, rfl, rfl, rfl⟩

/-- Admitting a fresh human id preserves the invariant; the newcomer is a
registered non-roster player afterwards. -/
theorem join_inv (s : GameState) (id : String) (nm av sec : Option String)
    (hInv : Inv s) (hbform : isBotId id = false)
    (hfresh : JsMap.lookup s.players id = none) :
    Inv (joinBase s id nm av sec) ∧
    id ∈ JsMap.keys (joinBase s id nm av sec).players ∧
    id ∉ (joinBase s id nm av sec).teamsA ++ (joinBase s id nm av sec).teamsB ∧
    (joinBase s id nm av sec).phase = s.phase := by
  obtain ⟨⟨P, hP⟩, fH, fS, fBots, fTA, fTB, fB, fPh⟩ :=
    joinBase_fields s id nm av sec
  have hfk : id ∉ JsMap.keys s.players := (JsMap.lookup_eq_none_iff _ _).mp hfresh
  have hkeys : JsMap.keys (joinBase s id nm av sec).players =
      JsMap.keys s.players ++ [id] := by
    rw [hP]
    exact JsMap.keys_insert_of_not_mem _ hfk
  have hnb : id ∉ JsMap.keys s.bots := fun h => by
    have hb := hInv.botsBot id h
    rw [hbform] at hb
    cases hb
  have hnro : id ∉ s.teamsA ++ s.teamsB := fun h => by
    rcases hInv.rosterMem id h with h' | h'
    · exact hfk h'
    · exact hnb h'
  refine ⟨⟨?_, ?_, ?_, ?_, ?_, ?_, ?_, ?_⟩, ?_, ?_, fPh⟩
  · rw [hkeys]
    refine List.Nodup.append hInv.playersNd (List.nodup_singleton _) ?_
    intro x hx hxs
    rw [List.mem_singleton] at hxs
    exact hfk (hxs ▸ hx)
  · rw [fBots]; exact hInv.botsNd
  · intro k hk
    rw [hkeys, List.mem_append, List.mem_singleton] at hk
    rcases hk with hk | hk
    · exact hInv.playersHuman k hk
    · rw [hk]; exact hbform
  · rw [fBots]; exact hInv.botsBot
  · rw [fTA, fTB]; exact hInv.rosterNd
  · intro x hx
    rw [fTA, fTB] at hx
    rcases hInv.rosterMem x hx with h | h
    · refine Or.inl ?_
      rw [hkeys]
      exact List.mem_append.mpr (Or.inl h)
    · refine Or.inr ?_
      rw [fBots]
      exact h
  · intro hph
    rw [fPh] at hph
    obtain ⟨h1, h2, h3, h4⟩ := hInv.seated hph
    rw [fS, fH]
    refine ⟨h1, h2, ?_, ?_⟩
    · intro k hk
      rcases h3 k hk with h | h
      · refine Or.inl ?_
        rw [hkeys]
        exact List.mem_append.mpr (Or.inl h)
      · refine Or.inr ?_
        rw [fBots]
        exact h
    · intro k hk
      rcases h4 k hk with h | h
      · refine Or.inl ?_
        rw [hkeys]
        exact List.mem_append.mpr (Or.inl h)
      · refine Or.inr ?_
        rw [fBots]
        exact h
  · intro hph
    rw [fPh] at hph
    have hc := hInv.conserved hph
    rw [TileConservation, heldTileIds, fH, fB]
    rw [TileConservation, heldTileIds] at hc
    exact hc
  · rw [hkeys]
    exact List.mem_append.mpr (Or.inr (List.mem_singleton.mpr rfl))
  · rw [fTA, fTB]
    exact hnro

/-- `assignSeatAndTeam` for a registered non-roster player in the lobby
preserves the invariant. -/
theorem assign_inv (s : GameState) (pid : String) (hInv : Inv s)
    (hpm : pid ∈ JsMap.keys s.players) (hnro : pid ∉ s.teamsA ++ s.teamsB)
    (hlobby : s.phase = Phase.lobby) : Inv (assignSeatAndTeam s pid) := by
  have hnd1 : ((s.teamsA ++ s.teamsB) ++ [pid]).Nodup := by
    refine List.Nodup.append hInv.rosterNd (List.nodup_singleton _) ?_
    intro x hx hxs
    rw [List.mem_singleton] at hxs
    exact hnro (hxs ▸ hx)
  have hmemGen : ∀ x, x ∈ (s.teamsA ++ s.teamsB) ++ [pid] →
      x ∈ JsMap.keys s.players ∨ x ∈ JsMap.keys s.bots := by
    intro x hx
    rw [List.mem_append, List.mem_singleton] at hx
    rcases hx with hx | hx
    · exact hInv.rosterMem x hx
    · rw [hx]; exact Or.inl hpm
  rcases assignSeatAndTeam_cases s pid with h | h
  · rw [h]
    refine ⟨hInv.playersNd, hInv.botsNd, hInv.playersHuman, hInv.botsBot,
      ?_, ?_, ?_, ?_⟩
    · show ((s.teamsA ++ [pid]) ++ s.teamsB).Nodup
      have hperm : ((s.teamsA ++ [pid]) ++ s.teamsB).Perm
          ((s.teamsA ++ s.teamsB) ++ [pid]) := by
        rw [List.append_assoc, List.append_assoc]
        exact List.Perm.append_left _ List.perm_append_comm
      exact hperm.nodup_iff.mpr hnd1
    · intro x hx
      have hx' : x ∈ (s.teamsA ++ [pid]) ++ s.teamsB := hx
      have hx2 : x ∈ (s.teamsA ++ s.teamsB) ++ [pid] := by
        have hperm : ((s.teamsA ++ [pid]) ++ s.teamsB).Perm
            ((s.teamsA ++ s.teamsB) ++ [pid]) := by
          rw [List.append_assoc, List.append_assoc]
          exact List.Perm.append_left _ List.perm_append_comm
        exact hperm.mem_iff.mp hx'
      exact hmemGen x hx2
    · intro hph
      exact absurd (show s.phase = Phase.lobby from hlobby) hph
    · intro hph
      have h' : s.phase = Phase.playing := hph
      rw [hlobby] at h'
      cases h'
  · rw [h]
    refine ⟨hInv.playersNd, hInv.botsNd, hInv.playersHuman, hInv.botsBot,
      ?_, ?_, ?_, ?_⟩
    · show (s.teamsA ++ (s.teamsB ++ [pid])).Nodup
      have hperm : (s.teamsA ++ (s.teamsB ++ [pid])).Perm
          ((s.teamsA ++ s.teamsB) ++ [pid]) := by
        rw [← List.append_assoc]
      exact hperm.nodup_iff.mpr hnd1
    · intro x hx
      have hx' : x ∈ s.teamsA ++ (s.teamsB ++ [pid]) := hx
      have hx2 : x ∈ (s.teamsA ++ s.teamsB) ++ [pid] := by
        rw [← List.append_assoc] at hx'
        exact hx'
      exact hmemGen x hx2
    · intro hph
      exact absurd (show s.phase = Phase.lobby from hlobby) hph
    · intro hph
      have h' : s.phase = Phase.playing := hph
      rw [hlobby] at h'
      cases h'

/-- `resolveRoundEnd` preserves the invariant (the phase always leaves
"playing"). -/
theorem resolve_inv (s : GameState) (reason : Reason) (wid : Option String)
    (hInv : Inv s) (hph : s.phase ≠ Phase.lobby) :
    Inv (resolveRoundEnd s reason wid) := by
  obtain ⟨-, -, -, -, -, fH, fB, fS, fP, fBots, fTA, fTB, -, hphase, -⟩ :=
    resolveRoundEnd_spec s reason wid
  obtain ⟨-, hnp, -⟩ := phase_ite_elim hphase
  refine ⟨?_, ?_, ?_, ?_, ?_, ?_, ?_, ?_⟩
  · rw [fP]; exact hInv.playersNd
  · rw [fBots]; exact hInv.botsNd
  · rw [fP]; exact hInv.playersHuman
  · rw [fBots]; exact hInv.botsBot
  · rw [fTA, fTB]; exact hInv.rosterNd
  · rw [fTA, fTB, fP, fBots]; exact hInv.rosterMem
  · intro _
    rw [fS, fH, fP, fBots]
    exact hInv.seated hph
  · intro h
    exact absurd h hnp

/-- Field equations for `playTileMid`: the indexed tile leaves the hand and
(as some board tile carrying it) lands on one end of the board. -/
theorem playTileMid_fields (s : GameState) (pid : String)
    (hand : List DominoTile) (i : Nat) (side : Side) :
    (playTileMid s pid hand i side).hands =
      JsMap.insert s.hands pid (hand.eraseIdx i) ∧
    (∃ bt : BoardTile, bt.tile = hand[i]?.getD defaultTile ∧
      ((playTileMid s pid hand i side).board = bt :: s.board ∨
       (playTileMid s pid hand i side).board = s.board ++ [bt])) ∧
    (playTileMid s pid hand i side).players = s.players ∧
    (playTileMid s pid hand i side).bots = s.bots ∧
    (playTileMid s pid hand i side).teamsA = s.teamsA ∧
    (playTileMid s pid hand i side).teamsB = s.teamsB ∧
    (playTileMid s pid hand i side).seats = s.seats ∧
    (playTileMid s pid hand i side).phase = s.phase := by
  refine ⟨rfl, ?_, rfl, rfl, rfl, rfl, rfl, rfl⟩
  cases hbe : s.boardEnds with
  | none =>
      refine ⟨⟨hand[i]?.getD defaultTile, false⟩, rfl, ?_⟩
      cases side with
      | left => exact Or.inl (by simp [playTileMid, hbe])
      | right => exact Or.inr (by simp [playTileMid, hbe])
  | some ends =>
      cases side with
      | left =>
          by_cases hf : (hand[i]?.getD defaultTile).right = ends.left
          · exact ⟨⟨hand[i]?.getD defaultTile, false⟩, rfl,
              Or.inl (by simp [playTileMid, hbe, hf])⟩
          · exact ⟨⟨hand[i]?.getD defaultTile, true⟩, rfl,
              Or.inl (by simp [playTileMid, hbe, hf])⟩
      | right =>
          by_cases hf : (hand[i]?.getD defaultTile).left = ends.right
          · exact ⟨⟨hand[i]?.getD defaultTile, false⟩, rfl,
              Or.inr (by simp [playTileMid, hbe, hf])⟩
          · exact ⟨⟨hand[i]?.getD defaultTile, true⟩, rfl,
              Or.inr (by simp [playTileMid, hbe, hf])⟩

/-- Playing a tile conserves the tiles: the hand loses exactly the indexed
tile and the board gains it. -/
theorem conservation_play (s : GameState) (pid : String)
    (hand : List DominoTile) (i : Nat) (side : Side) (hilt : i < hand.length)
    (hl : JsMap.lookup s.hands pid = some hand)
    (hnd : (JsMap.keys s.hands).Nodup)
    (hcons : TileConservation s) :
    TileConservation (playTileMid s pid hand i side) := by
  obtain ⟨fH, ⟨bt, hbt, hboard⟩, -, -, -, -, -, -⟩ :=
    playTileMid_fields s pid hand i side
  obtain ⟨m₁, m₂, he, -, -, hins, -⟩ := JsMap.insert_existing_decomp hnd hl
  have htile : hand[i]?.getD defaultTile = hand[i] := by
    rw [List.getElem?_eq_getElem hilt]
    rfl
  have hhv' : JsMap.values (playTileMid s pid hand i side).hands =
      JsMap.values m₁ ++ hand.eraseIdx i :: JsMap.values m₂ := by
    rw [fH, hins (hand.eraseIdx i)]
    simp [JsMap.values]
  have hhv : JsMap.values s.hands =
      JsMap.values m₁ ++ hand :: JsMap.values m₂ := by
    conv_lhs => rw [he]
    simp [JsMap.values]
  have hbperm : ((playTileMid s pid hand i side).board.map
      (fun b => b.tile)).Perm (hand[i] :: s.board.map (fun b => b.tile)) := by
    rcases hboard with h | h <;> rw [h]
    · rw [List.map_cons, hbt, htile]
    · rw [List.map_append, List.map_cons, List.map_nil, hbt, htile]
      exact List.perm_append_singleton _ _
  have hinner : ((JsMap.values (playTileMid s pid hand i side).hands).flatten ++
      (playTileMid s pid hand i side).board.map (fun b => b.tile)).Perm
      ((JsMap.values s.hands).flatten ++ s.board.map (fun b => b.tile)) := by
    rw [hhv', hhv, List.flatten_append, List.flatten_append, List.flatten_cons,
      List.flatten_cons]
    have hhand : hand.Perm (hand[i] :: hand.eraseIdx i) :=
      perm_getElem_cons_eraseIdx hand i hilt
    have hstep1 : ((JsMap.values m₁).flatten ++ (hand.eraseIdx i ++
        (JsMap.values m₂).flatten)) ++ (playTileMid s pid hand i side).board.map
        (fun b => b.tile) |>.Perm
        (((JsMap.values m₁).flatten ++ (hand.eraseIdx i ++
          (JsMap.values m₂).flatten)) ++
          (hand[i] :: s.board.map (fun b => b.tile))) :=
      List.Perm.append_left _ hbperm
    have hstep2 : (((JsMap.values m₁).flatten ++ (hand.eraseIdx i ++
        (JsMap.values m₂).flatten)) ++
        (hand[i] :: s.board.map (fun b => b.tile))).Perm
        (hand[i] :: (((JsMap.values m₁).flatten ++ (hand.eraseIdx i ++
          (JsMap.values m₂).flatten)) ++ s.board.map (fun b => b.tile))) :=
      List.perm_middle
    have hstep3 : ((JsMap.values m₁).flatten ++ (hand ++
        (JsMap.values m₂).flatten)).Perm
        (hand[i] :: ((JsMap.values m₁).flatten ++ (hand.eraseIdx i ++
          (JsMap.values m₂).flatten))) := by
      have h1 : ((JsMap.values m₁).flatten ++ (hand ++
          (JsMap.values m₂).flatten)).Perm
          ((JsMap.values m₁).flatten ++ ((hand[i] :: hand.eraseIdx i) ++
            (JsMap.values m₂).flatten)) :=
        List.Perm.append_left _ (hhand.append_right _)
      have h2 : (JsMap.values m₁).flatten ++ ((hand[i] :: hand.eraseIdx i) ++
          (JsMap.values m₂).flatten) =
          (JsMap.values m₁).flatten ++ (hand[i] :: (hand.eraseIdx i ++
            (JsMap.values m₂).flatten)) := by
        rw [List.cons_append]
      rw [h2] at h1
      exact h1.trans List.perm_middle
    have hstep4 : (hand[i] :: (((JsMap.values m₁).flatten ++ (hand.eraseIdx i ++
        (JsMap.values m₂).flatten)) ++ s.board.map (fun b => b.tile))).Perm
        (((JsMap.values m₁).flatten ++ (hand ++ (JsMap.values m₂).flatten)) ++
          s.board.map (fun b => b.tile)) := by
      refine List.Perm.symm ?_
      have h5 := hstep3.append_right (s.board.map (fun b => b.tile))
      rwa [List.cons_append] at h5
    exact (hstep1.trans hstep2).trans hstep4
  rw [TileConservation, heldTileIds]
  rw [TileConservation, heldTileIds] at hcons
  exact (hinner.map _).trans hcons

/-- START_GAME's success branch establishes the invariant from roster
hygiene alone. -/
theorem startGame_inv (s : GameState) (sh : List DominoTile)
    (hInv : Inv s) (hperm : sh.Perm generateAllTiles) :
    Inv (startGameRun s sh) := by
  have hform : ∀ id ∈ s.teamsA ++ s.teamsB, isBotId id = true →
      id ∈ JsMap.keys s.bots := by
    intro id hid hb
    rcases hInv.rosterMem id hid with h | h
    · rw [hInv.playersHuman id h] at hb
      cases hb
    · exact h
  obtain ⟨a0, b0, a1, b1, hseats, hnd4, ha0, hb0, ha1, hb1, hrnd, hrmem,
    hbform, hbnd⟩ := fillBots_spec s hInv.rosterNd hform
  have hbij : SeatsBijection (fillBotsAndAssignSeats s).seats := by
    rw [hseats]
    exact ⟨by simpa [JsMap.keys] using hnd4, List.Perm.refl _⟩
  have hlen : sh.length = 28 := by
    rw [hperm.length_eq]
    rfl
  obtain ⟨k0, k1, k2, k3, hk4, hkm, hto, hhands, hflat, hlens⟩ :=
    dealTiles_spec (fillBotsAndAssignSeats s) sh hbij hlen
  obtain ⟨fPl, fBot, fTA, fTB, fBo, fPh⟩ := startGamePre_others s sh
  obtain ⟨gPh, gBo, gSe, gHa, gPl, gBot, gTA, gTB⟩ := startGameRun_fields s sh
  have hrmem' : ∀ id ∈ (fillBotsAndAssignSeats s).teamsA ++
      (fillBotsAndAssignSeats s).teamsB,
      id ∈ JsMap.keys s.players ∨
        id ∈ JsMap.keys (fillBotsAndAssignSeats s).bots := by
    intro id hid
    rcases hrmem id hid with h | h
    · exact Or.inr h
    · rcases hInv.rosterMem id h.1 with h' | h'
      · exact Or.inl h'
      · exact absurd h' h.2
  have hseatmem : ∀ k ∈ JsMap.keys (fillBotsAndAssignSeats s).seats,
      k ∈ (fillBotsAndAssignSeats s).teamsA ++
        (fillBotsAndAssignSeats s).teamsB := by
    intro k hk
    have hk' : k ∈ [a0, b0, a1, b1] := by
      rw [hseats] at hk
      simpa [JsMap.keys] using hk
    rcases List.mem_cons.mp hk' with e | hk'
    · rw [e]; exact List.mem_append.mpr (Or.inl (List.get?_mem ha0))
    rcases List.mem_cons.mp hk' with e | hk'
    · rw [e]; exact List.mem_append.mpr (Or.inr (List.get?_mem hb0))
    rcases List.mem_cons.mp hk' with e | hk'
    · rw [e]; exact List.mem_append.mpr (Or.inl (List.get?_mem ha1))
    rcases List.mem_cons.mp hk' with e | hk'
    · rw [e]; exact List.mem_append.mpr (Or.inr (List.get?_mem hb1))
    cases hk'
  have hmemPB : ∀ k ∈ JsMap.keys (fillBotsAndAssignSeats s).seats,
      k ∈ JsMap.keys (startGameRun s sh).players ∨
        k ∈ JsMap.keys (startGameRun s sh).bots := by
    intro k hk
    rcases hrmem' k (hseatmem k hk) with h | h
    · refine Or.inl ?_
      rw [gPl, fPl]
      exact h
    · refine Or.inr ?_
      rw [gBot, fBot]
      exact h
  refine ⟨?_, ?_, ?_, ?_, ?_, ?_, ?_, ?_⟩
  · rw [gPl, fPl]; exact hInv.playersNd
  · rw [gBot, fBot]; exact hbnd
  · rw [gPl, fPl]; exact hInv.playersHuman
  · rw [gBot, fBot]; exact hbform
  · rw [gTA, gTB, fTA, fTB]; exact hrnd
  · intro id hid
    rw [gTA, gTB, fTA, fTB] at hid
    rcases hrmem' id hid with h | h
    · refine Or.inl ?_
      rw [gPl, fPl]
      exact h
    · refine Or.inr ?_
      rw [gBot, fBot]
      exact h
  · intro _
    refine ⟨by rw [gSe, startGamePre_seats]; exact hbij, ?_, ?_, ?_⟩
    · rw [gHa, startGamePre_hands, hhands]
      simpa [JsMap.keys] using hk4
    · intro k hk
      rw [gHa, startGamePre_hands, hhands] at hk
      have hk' : k ∈ [k0, k1, k2, k3] := by simpa [JsMap.keys] using hk
      exact hmemPB k (hkm k hk')
    · intro k hk
      rw [gSe, startGamePre_seats] at hk
      exact hmemPB k hk
  · intro _
    rw [TileConservation, heldTileIds, gHa, startGamePre_hands, gBo, fBo]
    rw [List.map_nil, List.append_nil, hflat]
    exact hperm.map _

/-- NEW_ROUND's success branch re-establishes the invariant from the
round-end state's seat bijection. -/
theorem newRound_inv (s : GameState) (sh : List DominoTile)
    (hInv : Inv s) (hperm : sh.Perm generateAllTiles)
    (hph : s.phase = Phase.round_end) :
    Inv (newRoundRun s sh) := by
  obtain ⟨⟨hsnd, hsperm⟩, hhnd, hhmem, hsmem⟩ := hInv.seated (by rw [hph]; simp)
  have hbij1 : SeatsBijection (newRoundS1 s).seats := by
    rw [newRoundS1_seats]
    exact ⟨hsnd, hsperm⟩
  have hlen : sh.length = 28 := by
    rw [hperm.length_eq]
    rfl
  obtain ⟨k0, k1, k2, k3, hk4, hkm, hto, hhands, hflat, hlens⟩ :=
    dealTiles_spec (newRoundS1 s) sh hbij1 hlen
  obtain ⟨pPh, pBo, pSe, pPl, pBot, pTA, pTB, pHa⟩ := newRoundPre_spec s sh
  obtain ⟨rPh, rBo, rSe, rHa, rPl, rBot, rTA, rTB⟩ := newRoundRun_fields s sh
  have hkm' : ∀ k ∈ [k0, k1, k2, k3], k ∈ JsMap.keys s.seats := by
    intro k hk
    have h := hkm k hk
    rwa [newRoundS1_seats] at h
  have hmemPB : ∀ k, (k ∈ JsMap.keys s.players ∨ k ∈ JsMap.keys s.bots) →
      k ∈ JsMap.keys (newRoundRun s sh).players ∨
        k ∈ JsMap.keys (newRoundRun s sh).bots := by
    intro k hk
    rcases hk with h | h
    · refine Or.inl ?_
      rw [rPl, pPl]
      exact h
    · refine Or.inr ?_
      rw [rBot, pBot]
      exact h
  refine ⟨?_, ?_, ?_, ?_, ?_, ?_, ?_, ?_⟩
  · rw [rPl, pPl]; exact hInv.playersNd
  · rw [rBot, pBot]; exact hInv.botsNd
  · rw [rPl, pPl]; exact hInv.playersHuman
  · rw [rBot, pBot]; exact hInv.botsBot
  · rw [rTA, rTB, pTA, pTB]; exact hInv.rosterNd
  · intro id hid
    rw [rTA, rTB, pTA, pTB] at hid
    exact hmemPB id (hInv.rosterMem id hid)
  · intro _
    refine ⟨by rw [rSe, pSe]; exact ⟨hsnd, hsperm⟩, ?_, ?_, ?_⟩
    · rw [rHa, pHa, hhands]
      simpa [JsMap.keys] using hk4
    · intro k hk
      rw [rHa, pHa, hhands] at hk
      have hk' : k ∈ [k0, k1, k2, k3] := by simpa [JsMap.keys] using hk
      exact hmemPB k (hsmem k (hkm' k hk'))
    · intro k hk
      rw [rSe, pSe] at hk
      exact hmemPB k (hsmem k hk)
  · intro _
    rw [TileConservation, heldTileIds, rHa, pHa, rBo, pBo]
    rw [List.map_nil, List.append_nil, hflat]
    exact hperm.map _

/-- Every hygienic action preserves the invariant. -/
theorem inv_step (s : GameState) (a : GameAction) (hInv : Inv s)
    (hG : GoodAction s a) : Inv (gameReducer s a) := by
  cases a with
  | playerJoined payload =>
      have hbform : isBotId payload.id = false := hG
      rcases playerJoined_cases s payload with
        ⟨ex, hl, heq⟩ | ⟨sec, oldId, hsec, hs, hpo, hnew, heq⟩ | heq |
        ⟨hnew, ⟨hpl, heq⟩ | ⟨hpl, heq⟩⟩
      · rw [heq]
        refine Inv.of_fields hInv ?_ rfl rfl rfl rfl rfl rfl rfl
        exact JsMap.keys_insert_of_mem _ hInv.playersNd
          ((JsMap.mem_keys_iff _ _).mpr (by rw [hl]; rfl))
      · rw [heq]
        exact migrate_inv s oldId payload.id sec hInv hbform hnew
      · rw [heq]
        exact hInv
      · rw [heq]
        obtain ⟨hInvJ, hmemJ, hnroJ, hphJ⟩ :=
          join_inv s payload.id payload.name payload.avatar payload.secret
            hInv hbform hnew
        exact assign_inv _ payload.id hInvJ hmemJ hnroJ (by rw [hphJ]; exact hpl)
      · rw [heq]
        exact (join_inv s payload.id payload.name payload.avatar payload.secret
          hInv hbform hnew).1
  | playerLeft pid =>
      cases hl : JsMap.lookup s.players pid with
      | none =>
          have heq : gameReducer s (.playerLeft pid) = s := by
            simp [gameReducer, hl]
          rw [heq]
          exact hInv
      | some p =>
          have heq : gameReducer s (.playerLeft pid) =
              { s with players := (JsMap.insert s.players pid
                { p with connected := false }) } := by
            simp [gameReducer, hl]
          rw [heq]
          refine Inv.of_fields hInv ?_ rfl rfl rfl rfl rfl rfl rfl
          exact JsMap.keys_insert_of_mem _ hInv.playersNd
            ((JsMap.mem_keys_iff _ _).mpr (by rw [hl]; rfl))
  | chooseTeam tg act =>
      rcases chooseTeam_cases s tg act with h | ⟨pid, hact, hpl, h | h⟩
      · rw [h]
        exact hInv
      · rw [h]
        have hpm : pid ∈ JsMap.keys s.players := by
          rw [JsMap.mem_keys_iff]
          exact hG pid hact
        have hA : (s.teamsA.filter (fun id => id ≠ pid)).Sublist s.teamsA :=
          List.filter_sublist _
        have hB : (s.teamsB.filter (fun id => id ≠ pid)).Sublist s.teamsB :=
          List.filter_sublist _
        have hndf : (s.teamsA.filter (fun id => id ≠ pid) ++
            s.teamsB.filter (fun id => id ≠ pid)).Nodup :=
          hInv.rosterNd.sublist (hA.append hB)
        have hpfA : pid ∉ s.teamsA.filter (fun id => id ≠ pid) := by
          intro hmem
          have := (List.mem_filter.mp hmem).2
          simp at this
        have hpfB : pid ∉ s.teamsB.filter (fun id => id ≠ pid) := by
          intro hmem
          have := (List.mem_filter.mp hmem).2
          simp at this
        refine ⟨hInv.playersNd, hInv.botsNd, hInv.playersHuman, hInv.botsBot,
          ?_, ?_, ?_, ?_⟩
        · show ((s.teamsA.filter (fun id => id ≠ pid) ++ [pid]) ++
            s.teamsB.filter (fun id => id ≠ pid)).Nodup
          have hnd1 : ((s.teamsA.filter (fun id => id ≠ pid) ++
              s.teamsB.filter (fun id => id ≠ pid)) ++ [pid]).Nodup := by
            refine List.Nodup.append hndf (List.nodup_singleton _) ?_
            intro x hx hxs
            rw [List.mem_singleton] at hxs
            subst hxs
            rcases List.mem_append.mp hx with h' | h'
            · exact hpfA h'
            · exact hpfB h'
          have hperm : ((s.teamsA.filter (fun id => id ≠ pid) ++ [pid]) ++
              s.teamsB.filter (fun id => id ≠ pid)).Perm
              ((s.teamsA.filter (fun id => id ≠ pid) ++
                s.teamsB.filter (fun id => id ≠ pid)) ++ [pid]) := by
            rw [List.append_assoc, List.append_assoc]
            exact List.Perm.append_left _ List.perm_append_comm
          exact hperm.nodup_iff.mpr hnd1
        · intro x hx
          have hx' : x ∈ (s.teamsA.filter (fun id => id ≠ pid) ++ [pid]) ++
              s.teamsB.filter (fun id => id ≠ pid) := hx
          simp only [List.mem_append, List.mem_singleton] at hx'
          rcases hx' with (h' | h') | h'
          · exact hInv.rosterMem x (List.mem_append.mpr
              (Or.inl (hA.subset h')))
          · rw [h']; exact Or.inl hpm
          · exact hInv.rosterMem x (List.mem_append.mpr
              (Or.inr (hB.subset h')))
        · intro hph
          exact absurd (show s.phase = Phase.lobby from hpl) hph
        · intro hph
          have h' : s.phase = Phase.playing := hph
          rw [hpl] at h'
          cases h'
      · rw [h]
        have hpm : pid ∈ JsMap.keys s.players := by
          rw [JsMap.mem_keys_iff]
          exact hG pid hact
        have hA : (s.teamsA.filter (fun id => id ≠ pid)).Sublist s.teamsA :=
          List.filter_sublist _
        have hB : (s.teamsB.filter (fun id => id ≠ pid)).Sublist s.teamsB :=
          List.filter_sublist _
        have hndf : (s.teamsA.filter (fun id => id ≠ pid) ++
            s.teamsB.filter (fun id => id ≠ pid)).Nodup :=
          hInv.rosterNd.sublist (hA.append hB)
        have hpfA : pid ∉ s.teamsA.filter (fun id => id ≠ pid) := by
          intro hmem
          have := (List.mem_filter.mp hmem).2
          simp at this
        have hpfB : pid ∉ s.teamsB.filter (fun id => id ≠ pid) := by
          intro hmem
          have := (List.mem_filter.mp hmem).2
          simp at this
        refine ⟨hInv.playersNd, hInv.botsNd, hInv.playersHuman, hInv.botsBot,
          ?_, ?_, ?_, ?_⟩
        · show (s.teamsA.filter (fun id => id ≠ pid) ++
            (s.teamsB.filter (fun id => id ≠ pid) ++ [pid])).Nodup
          have hnd1 : ((s.teamsA.filter (fun id => id ≠ pid) ++
              s.teamsB.filter (fun id => id ≠ pid)) ++ [pid]).Nodup := by
            refine List.Nodup.append hndf (List.nodup_singleton _) ?_
            intro x hx hxs
            rw [List.mem_singleton] at hxs
            subst hxs
            rcases List.mem_append.mp hx with h' | h'
            · exact hpfA h'
            · exact hpfB h'
          have hperm : (s.teamsA.filter (fun id => id ≠ pid) ++
              (s.teamsB.filter (fun id => id ≠ pid) ++ [pid])).Perm
              ((s.teamsA.filter (fun id => id ≠ pid) ++
                s.teamsB.filter (fun id => id ≠ pid)) ++ [pid]) := by
            rw [← List.append_assoc]
          exact hperm.nodup_iff.mpr hnd1
        · intro x hx
          have hx' : x ∈ s.teamsA.filter (fun id => id ≠ pid) ++
              (s.teamsB.filter (fun id => id ≠ pid) ++ [pid]) := hx
          simp only [List.mem_append, List.mem_singleton] at hx'
          rcases hx' with h' | h' | h'
          · exact hInv.rosterMem x (List.mem_append.mpr
              (Or.inl (hA.subset h')))
          · exact hInv.rosterMem x (List.mem_append.mpr
              (Or.inr (hB.subset h')))
          · rw [h']; exact Or.inl hpm
        · intro hph
          exact absurd (show s.phase = Phase.lobby from hpl) hph
        · intro hph
          have h' : s.phase = Phase.playing := hph
          rw [hpl] at h'
          cases h'
  | startGame sh act =>
      by_cases hg1 : s.phase ≠ Phase.lobby ∧ s.phase ≠ Phase.round_end
      · have heq : gameReducer s (.startGame sh act) = s := by
          show (if s.phase ≠ Phase.lobby ∧ s.phase ≠ Phase.round_end then s
            else if connectedCount s = 0 then s else startGameRun s sh) = s
          rw [if_pos hg1]
        rw [heq]
        exact hInv
      · by_cases hg2 : connectedCount s = 0
        · have heq : gameReducer s (.startGame sh act) = s := by
            show (if s.phase ≠ Phase.lobby ∧ s.phase ≠ Phase.round_end then s
              else if connectedCount s = 0 then s else startGameRun s sh) = s
            rw [if_neg hg1, if_pos hg2]
          rw [heq]
          exact hInv
        · rw [gameReducer_startGame_run s sh act hg1 hg2]
          exact startGame_inv s sh hInv hG
  | playTile tid side act =>
      rcases playTile_cases s tid side act with h | ⟨pid, hand, i, hp, hl, hilt, heq⟩
      · rw [h]
        exact hInv
      · rw [heq]
        obtain ⟨hbijS, hhnd, hhmem, hsmem⟩ := hInv.seated (by rw [hp]; simp)
        have hpidk : pid ∈ JsMap.keys s.hands :=
          (JsMap.mem_keys_iff _ _).mpr (by rw [hl]; rfl)
        obtain ⟨fH, -, fPl, fBot, fTA, fTB, fS, fPh⟩ :=
          playTileMid_fields s pid hand i side
        have hkeysH : JsMap.keys (playTileMid s pid hand i side).hands =
            JsMap.keys s.hands := by
          rw [fH]
          exact JsMap.keys_insert_of_mem _ hhnd hpidk
        have hInvMid : Inv (playTileMid s pid hand i side) := by
          refine ⟨?_, ?_, ?_, ?_, ?_, ?_, ?_, ?_⟩
          · rw [fPl]; exact hInv.playersNd
          · rw [fBot]; exact hInv.botsNd
          · rw [fPl]; exact hInv.playersHuman
          · rw [fBot]; exact hInv.botsBot
          · rw [fTA, fTB]; exact hInv.rosterNd
          · intro id hid
            rw [fTA, fTB] at hid
            rcases hInv.rosterMem id hid with h' | h'
            · exact Or.inl (by rw [fPl]; exact h')
            · exact Or.inr (by rw [fBot]; exact h')
          · intro _
            refine ⟨by rw [fS]; exact hbijS, by rw [hkeysH]; exact hhnd, ?_, ?_⟩
            · intro k hk
              rw [hkeysH] at hk
              rcases hhmem k hk with h' | h'
              · exact Or.inl (by rw [fPl]; exact h')
              · exact Or.inr (by rw [fBot]; exact h')
            · intro k hk
              rw [fS] at hk
              rcases hsmem k hk with h' | h'
              · exact Or.inl (by rw [fPl]; exact h')
              · exact Or.inr (by rw [fBot]; exact h')
          · intro _
            exact conservation_play s pid hand i side hilt hl hhnd
              (hInv.conserved hp)
        by_cases hemp : (hand.eraseIdx i).length = 0
        · rw [if_pos hemp]
          refine resolve_inv _ _ _ hInvMid ?_
          rw [fPh, hp]
          simp
        · rw [if_neg hemp]
          exact Inv.of_fields hInvMid rfl rfl rfl rfl rfl rfl rfl rfl
  | pass act =>
      rcases pass_cases s act with h | ⟨hp, heq⟩ | heq
      · rw [h]
        exact hInv
      · rw [heq]
        have hInv' : Inv { s with consecutivePasses := s.consecutivePasses + 1 } :=
          Inv.of_fields hInv rfl rfl rfl rfl rfl rfl rfl rfl
        refine resolve_inv _ _ _ hInv' ?_
        have h' : s.phase ≠ Phase.lobby := by
          rw [hp]
          simp
        exact h'
      · rw [heq]
        exact Inv.of_fields hInv rfl rfl rfl rfl rfl rfl rfl rfl
  | newRound sh =>
      by_cases hph : s.phase = Phase.round_end
      · rw [gameReducer_newRound_run s sh hph]
        exact newRound_inv s sh hInv hG hph
      · have heq : gameReducer s (.newRound sh) = s := by
          show (if s.phase ≠ Phase.round_end then s else newRoundRun s sh) = s
          rw [if_pos hph]
        rw [heq]
        exact hInv
  | resetGame =>
      rw [resetGame_eq]
      have hknd : (JsMap.keys (s.players.filter
          (fun p => p.2.connected))).Nodup :=
        hInv.playersNd.sublist (JsMap.keys_filter_sublist _ _)
      have hkeq : (s.players.filter (fun p => p.2.connected)).map Prod.fst =
          JsMap.keys (s.players.filter (fun p => p.2.connected)) := rfl
      obtain ⟨f1, f2, f3, f4, f5, f6, f7⟩ :=
        assign_foldl_spec (s.players.filter (fun p => p.2.connected))
          { initialState with
            players := s.players.filter (fun p => p.2.connected)
            sessions := s.sessions.filter (fun p =>
              (JsMap.lookup (s.players.filter (fun q => q.2.connected)) p.2).isSome) }
          (by show (([] : List String) ++ []).Nodup; simp)
          (by
            intro p hp hmem
            have h' : p.1 ∈ ([] : List String) ++ [] := hmem
            simp at h')
          (by rw [hkeq]; exact hknd)
      refine ⟨?_, ?_, ?_, ?_, ?_, ?_, ?_, ?_⟩
      · rw [f1]
        exact hknd
      · rw [f4]
        exact List.nodup_nil
      · intro k hk
        rw [f1] at hk
        exact hInv.playersHuman k ((JsMap.keys_filter_sublist _ _).subset hk)
      · intro k hk
        rw [f4] at hk
        exact absurd hk (List.not_mem_nil k)
      · exact f6
      · intro id hid
        rcases f7 id hid with h | h
        · have h' : id ∈ ([] : List String) ++ [] := h
          simp at h'
        · refine Or.inl ?_
          rw [f1]
          rw [hkeq] at h
          exact h
      · intro hph
        rw [f5] at hph
        exact absurd rfl hph
      · intro hph
        rw [f5] at hph
        have h' : Phase.lobby = Phase.playing := hph
        exact absurd h' (by decide)

/-- Every state reachable under hygienic actions satisfies the invariant. -/
theorem reachableGood_inv {s : GameState} (h : ReachableGood s) : Inv s := by
  induction h with
  | init =>
      refine ⟨by decide, by decide, by decide, by decide, by decide, by decide,
        ?_, ?_⟩
      · intro h'
        exact absurd rfl h'
      · intro h'
        exact absurd h' (by decide)
  | step hR hG ih => exact inv_step _ _ ih hG

-- ─── Claim C4: statement, counterexample and witness ────────────────────────

/-- A trace allowed by the claim's proviso (only the shuffles are
constrained): a human joins as "h1" with session secret "s1", the game
starts with the canonical shuffle, then a reconnect under the colliding
socket id "bot_0" migrates "h1" onto the fill bot's id. -/
def c4Trace : GameState :=
  gameReducer (gameReducer (gameReducer initialState
    (.playerJoined ⟨"h1", some "h1", none, some "s1"⟩))
    (.startGame generateAllTiles none))
    (.playerJoined ⟨"bot_0", none, none, some "s1"⟩)

/-- C4 counterexample: under the claim's proviso alone, a session migration
onto the id "bot_0" overwrites that bot's hand; the state stays in phase
"playing" but holds only 21 of the 28 tiles. -/
theorem c4_conservation_counterexample :
    ReachableShuffled c4Trace ∧ c4Trace.phase = Phase.playing ∧
    ¬ TileConservation c4Trace := by
  refine ⟨?_, by decide, ?_⟩
  · exact ReachableShuffled.step (ReachableShuffled.step (ReachableShuffled.step
      ReachableShuffled.init trivial) (List.Perm.refl _)) trivial
  · intro h
    have hl := h.length_eq
    rw [show (heldTileIds c4Trace).length = 21 from by decide,
      show (List.map (fun t => t.id) generateAllTiles).length = 28 from
        by decide] at hl
    exact absurd hl (by decide)

/-- C4 (amended): for every state reachable from the initial state under
hygienic actions — every START_GAME and NEW_ROUND shuffle is a permutation
of the canonical 28-tile set, no joining id uses the reserved generated
bot-id form, and CHOOSE_TEAM only acts for a registered player — whenever
phase is "playing" the multiset of tile IDs in all hands plus the board is
exactly the canonical 28-tile set, with no tile appearing twice. -/
theorem c4_tile_conservation (s : GameState) (h : ReachableGood s)
    (hp : s.phase = Phase.playing) : TileConservation s :=
  (reachableGood_inv h).conserved hp

/-- Witness for C4: the state after "h1" joins and the game starts with the
canonical shuffle is reachable, playing, and conserves the tiles. -/
theorem c4_tile_conservation_witness :
    TileConservation (gameReducer (gameReducer initialState
      (.playerJoined ⟨"h1", some "h1", none, none⟩))
      (.startGame generateAllTiles none)) :=
  c4_tile_conservation _
    (ReachableGood.step (ReachableGood.step ReachableGood.init
      (show isBotId "h1" = false by decide))
      (List.Perm.refl _))
    (by decide)

end DominoGame
